import Mathlib

/-!
# Verification of the DER-instance MILP generator

This file embeds the model-building core of the repository (src/devices.py and
src/generator.py) in Lean and proves properties of it.

Embedding conventions, fixed once for the whole file:

* Numeric data is carried by an arbitrary linear ordered field `F`; theorems
  about the self-discharge factor `eta = exp(-ln 2 * delta_t / half_life)`
  instantiate `F := ℝ` with `Real.exp` / `Real.log` for the two transcendental
  functions `np.exp` / `np.log`, which every other definition receives as
  explicit function parameters `fexp`, `flog`.
* A CPLEX instance `m` is a pair of append-only lists: variables and linear
  constraints, each identified by its position in the list (the CPLEX index).
  Defaults follow the CPLEX Python API: a variable added without bounds gets
  lower bound `0` and upper bound `+infinity` (`none` here; the source's
  `-cplex.infinity` lower bound is `none` as well), objective coefficient `0`
  and continuous type; a constraint added without `senses`/`rhs` gets sense
  `'E'` (equality) and right-hand side `0`.
* The `columns` argument of `m.variables.add` (a retroactive coefficient of the
  new variable in already-declared constraints) is stored on the variable
  record (`VarInfo.cols`) instead of being pushed into the constraint rows;
  the induced linear system is identical and the representation keeps both
  lists append-only (only `set_rhs` mutates, and it only mutates `rhs`).
* The registries `var2idx` / `ctr2idx` are Python dicts mapping strings to
  CPLEX indices; they are association lists where `update` prepends the new
  (reversed) bindings, so a lookup finds the most recent binding, exactly the
  Python overwrite semantics.  A lookup of an absent key returns the junk
  index `0` where Python would raise `KeyError`; every theorem below is about
  runs in which all lookups succeed.
* Python `str(t)` on an int is `toString` on `ℤ`/`ℕ`, and `range(a, b)` on
  ints is `pyRange a b`.
-/

universe u

variable {F : Type u} [LinearOrderedField F]

/-- Constraint sense, CPLEX `'E'` / `'L'` / `'G'`. -/
inductive Sense : Type
  | E : Sense
  | L : Sense
  | G : Sense
deriving DecidableEq, Repr

/-- Satisfaction of a row `lhs <sense> rhs`. -/
def Sense.sat : Sense → F → F → Prop
  | .E, a, b => a = b
  | .L, a, b => a ≤ b
  | .G, a, b => b ≤ a

instance (s : Sense) (a b : F) : Decidable (s.sat a b) :=
  match s with
  | .E => inferInstanceAs (Decidable (a = b))
  | .L => inferInstanceAs (Decidable (a ≤ b))
  | .G => inferInstanceAs (Decidable (b ≤ a))

/-- One CPLEX variable: name, bounds (`none` = infinite), objective
coefficient, type (binary or continuous) and the `columns` coefficients
`(constraint index, value)` given at declaration time. -/
structure VarInfo (F : Type u) where
  name : String
  lb : Option F
  ub : Option F
  obj : F
  binary : Bool
  cols : List (ℕ × F)
deriving DecidableEq, Repr

/-- One CPLEX linear constraint: name, sense, right-hand side and the
`lin_expr` coefficients `(variable index, value)`. -/
structure CtrInfo (F : Type u) where
  name : String
  sense : Sense
  rhs : F
  terms : List (ℕ × F)
deriving DecidableEq, Repr

/-- A CPLEX instance: the lists of declared variables and constraints.
Indices are positions in these lists. -/
structure Model (F : Type u) where
  vars : List (VarInfo F)
  ctrs : List (CtrInfo F)
deriving DecidableEq, Repr

/-- The record of the variable at batch position `i` in a `variables.add`
call: omitted argument lists (passed as `[]`) fall back, via `getD`, to the
CPLEX defaults — lower bound `0`, upper bound `+infinity`, objective `0`,
continuous type, no column contributions. -/
def mkVarRec (objs : List F) (lbs ubs : List (Option F)) (typesB : List Bool)
    (columns : List (List (ℕ × F))) (i : ℕ) (nm : String) : VarInfo F :=
  { name := nm
    lb := lbs.getD i (some 0)
    ub := ubs.getD i none
    obj := objs.getD i 0
    binary := typesB.getD i false
    cols := columns.getD i [] }

/-- The record of the constraint at batch position `i` in a
`linear_constraints.add` call: an omitted `senses` list defaults to `'E'`
and an omitted `rhs` list to `0` (CPLEX defaults). -/
def mkCtrRec (senses : List Sense) (rhss : List F) (exprs : List (List (ℕ × F)))
    (i : ℕ) (nm : String) : CtrInfo F :=
  { name := nm
    sense := senses.getD i Sense.E
    rhs := rhss.getD i 0
    terms := exprs.getD i [] }

/-- `m.variables.add(names=…, obj=…, lb=…, ub=…, types=…, columns=…)`.
Returns the new model and, like CPLEX, the indices of the new variables. -/
def Model.variables_add (m : Model F) (names : List String)
    (objs : List F) (lbs ubs : List (Option F)) (typesB : List Bool)
    (columns : List (List (ℕ × F))) : Model F × List ℕ :=
  ⟨{ m with vars := m.vars ++ names.mapIdx (mkVarRec objs lbs ubs typesB columns) },
    (List.range names.length).map (m.vars.length + ·)⟩

/-- `m.linear_constraints.add(names=…, senses=…, rhs=…, lin_expr=…)`. -/
def Model.linear_constraints_add (m : Model F) (names : List String)
    (senses : List Sense) (rhss : List F) (exprs : List (List (ℕ × F))) :
    Model F × List ℕ :=
  ⟨{ m with ctrs := m.ctrs ++ names.mapIdx (mkCtrRec senses rhss exprs) },
    (List.range names.length).map (m.ctrs.length + ·)⟩

/-- `m.linear_constraints.get_rhs(indices)`. -/
def Model.get_rhs (m : Model F) (idxs : List ℕ) : List F :=
  idxs.map fun i => ((m.ctrs.get? i).map CtrInfo.rhs).getD 0

/-- `m.linear_constraints.set_rhs(index_value_pairs)`. -/
def Model.set_rhs (m : Model F) (ps : List (ℕ × F)) : Model F :=
  { m with
    ctrs := ps.foldl
      (fun cs p => cs.mapIdx fun j c => if j = p.1 then { c with rhs := p.2 } else c)
      m.ctrs }

/-- A Python dict from names to CPLEX indices (`var2idx` / `ctr2idx`):
an association list in which the most recent binding comes first. -/
abbrev Reg : Type := List (String × ℕ)

/-- `d.update(dict(zip(keys, idxs)))`: prepend the new bindings (reversed, so
that within one batch the later binding wins, as in a Python dict). -/
def dictUpdate (d : Reg) (ps : Reg) : Reg := ps.reverse ++ d

/-- `d[k]`: first binding wins; absent keys give the junk index `0`
(Python raises `KeyError` there — no theorem below exercises that case). -/
def dictGet (d : Reg) (k : String) : ℕ := ((d.lookup k).getD 0)

/-- The mutable state threaded through model building: the CPLEX instance and
the two registries (`m`, `var2idx`, `ctr2idx` are mutated in place in the
source). -/
structure BuildState (F : Type u) where
  m : Model F
  var2idx : Reg
  ctr2idx : Reg
deriving DecidableEq, Repr

/-- Python `l[t]` for a float array indexed by an int time step. -/
def listIdx (l : List F) (t : ℤ) : F := (l.get? t.toNat).getD 0

/-- Python `range(a, b)` over ints. -/
def pyRange (a b : ℤ) : List ℤ := (List.range (b - a).toNat).map fun i : ℕ => a + (i : ℤ)

/-! ## Devices (src/devices.py) -/

/-- `FixedLoad`: label and fixed per-step load profile (`self.load`). -/
structure FixedLoad (F : Type u) where
  label : String
  load : List F
deriving DecidableEq, Repr

/-- `FixedLoad.update_model`: the load is fixed, so only the right-hand side of
the household's net-load linking constraints changes:
`- <HH_net_load> + Σ_D <D_net_load> = - <fixed_load>`.
The source indexes the freshly read `rhs` array by the time-step value `t`. -/
def FixedLoad.update_model (d : FixedLoad F) (st : BuildState F)
    (time_window : List ℤ) (delta_t : F) (r_label : String) (binaries : Bool) :
    BuildState F :=
  let rhs := (st.m.get_rhs (time_window.map fun t =>
      dictGet st.ctr2idx (r_label ++ "link_netLoad_" ++ toString t))).zipWith
    (fun a b => a - b) d.load
  { st with
    m := st.m.set_rhs (time_window.map fun t =>
      (dictGet st.ctr2idx (r_label ++ "link_netLoad_" ++ toString t), listIdx rhs t)) }

/-- `Battery`: immutable physical parameters. -/
structure Battery (F : Type u) where
  label : String
  pwr_chg_min : F
  pwr_chg_max : F
  pwr_dis_min : F
  pwr_dis_max : F
  soc_min : F
  soc_max : F
  soc_init : F
  eff_chg : F
  eff_dis : F
  half_life : F
deriving DecidableEq, Repr

/-- `Battery.__init__`: stores the parameters; the source performs no
validation of any kind. -/
def Battery.init (label : String)
    (pwr_chg_min pwr_chg_max pwr_dis_min pwr_dis_max
      soc_min soc_max soc_init eff_chg eff_dis half_life : F) : Battery F :=
  { label := label, pwr_chg_min := pwr_chg_min, pwr_chg_max := pwr_chg_max,
    pwr_dis_min := pwr_dis_min, pwr_dis_max := pwr_dis_max,
    soc_min := soc_min, soc_max := soc_max, soc_init := soc_init,
    eff_chg := eff_chg, eff_dis := eff_dis, half_life := half_life }

/-- `Battery.update_model`. `fexp`/`flog` stand for `np.exp`/`np.log` in
`eta = np.exp(-np.log(2) * delta_t / self.half_life)`. -/
def Battery.update_model (b : Battery F) (fexp flog : F → F) (st : BuildState F)
    (time_window : List ℤ) (delta_t : F) (r_label : String) (binaries : Bool) :
    BuildState F :=
  -- I. Add variables
  -- battery charging power; bounds are handled via the on-off indicator
  let chgNames := time_window.map fun t => r_label ++ b.label ++ "_pwr_chg_" ++ toString t
  let p1 := st.m.variables_add chgNames [] [] [] []
    (time_window.map fun t =>
      [(dictGet st.ctr2idx (r_label ++ "link_netLoad_" ++ toString t), (1 : F))])
  let v1 := dictUpdate st.var2idx (chgNames.zip p1.2)
  -- battery discharging power
  let disNames := time_window.map fun t => r_label ++ b.label ++ "_pwr_dis_" ++ toString t
  let p2 := p1.1.variables_add disNames [] [] [] []
    (time_window.map fun t =>
      [(dictGet st.ctr2idx (r_label ++ "link_netLoad_" ++ toString t), (-1 : F))])
  let v2 := dictUpdate v1 (disNames.zip p2.2)
  -- state-of-charge
  let socNames := time_window.map fun t => r_label ++ b.label ++ "_soc_" ++ toString t
  let p3 := p2.1.variables_add socNames []
    (time_window.map fun _ => some b.soc_min)
    (time_window.map fun _ => some b.soc_max) [] []
  let v3 := dictUpdate v2 (socNames.zip p3.2)
  -- charging / discharging indicators: binary, or relaxed to [0, 1]
  let ciNames := time_window.map fun t => r_label ++ b.label ++ "_chg_ind_" ++ toString t
  let diNames := time_window.map fun t => r_label ++ b.label ++ "_dis_ind_" ++ toString t
  let q :=
    if binaries then
      let p4 := p3.1.variables_add ciNames [] [] [] (time_window.map fun _ => true) []
      let v4 := dictUpdate v3 (ciNames.zip p4.2)
      let p5 := p4.1.variables_add diNames [] [] [] (time_window.map fun _ => true) []
      (p5.1, dictUpdate v4 (diNames.zip p5.2))
    else
      let p4 := p3.1.variables_add ciNames []
        (time_window.map fun _ => some 0) (time_window.map fun _ => some 1) [] []
      let v4 := dictUpdate v3 (ciNames.zip p4.2)
      let p5 := p4.1.variables_add diNames []
        (time_window.map fun _ => some 0) (time_window.map fun _ => some 1) [] []
      (p5.1, dictUpdate v4 (diNames.zip p5.2))
  let var2idx := q.2
  -- II. Add constraints
  let eta := fexp (-flog 2 * delta_t / b.half_life)
  -- conservation of energy at time t = 0:
  -- soc_0 = soc_init*eta + delta_t*eff_chg*pwr_chg_0 - delta_t/eff_dis*pwr_dis_0
  let c1 := q.1.linear_constraints_add
    [r_label ++ b.label ++ "_ener_cons_0"] [Sense.E] [eta * b.soc_init]
    [[(dictGet var2idx (r_label ++ b.label ++ "_soc_0"), (1 : F)),
      (dictGet var2idx (r_label ++ b.label ++ "_pwr_chg_0"), -delta_t * b.eff_chg),
      (dictGet var2idx (r_label ++ b.label ++ "_pwr_dis_0"), delta_t / b.eff_dis)]]
  let ctr2idx := dictUpdate st.ctr2idx ([r_label ++ b.label ++ "_ener_cons_0"].zip c1.2)
  -- conservation of energy at time t > 0:
  -- soc_t = soc_(t-1)*eta + delta_t*eff_chg*pwr_chg_t - delta_t/eff_dis*pwr_dis_t
  let ecNames := (time_window.drop 1).map fun t =>
    r_label ++ b.label ++ "_ener_cons_" ++ toString t
  let c2 := c1.1.linear_constraints_add ecNames
    ((time_window.drop 1).map fun _ => Sense.E) []
    ((time_window.drop 1).map fun t =>
      [(dictGet var2idx (r_label ++ b.label ++ "_soc_" ++ toString t), (1 : F)),
       (dictGet var2idx (r_label ++ b.label ++ "_soc_" ++ toString (t - 1)), -eta),
       (dictGet var2idx (r_label ++ b.label ++ "_pwr_chg_" ++ toString t),
         -delta_t * b.eff_chg),
       (dictGet var2idx (r_label ++ b.label ++ "_pwr_dis_" ++ toString t),
         delta_t / b.eff_dis)])
  let ctr2idx := dictUpdate ctr2idx (ecNames.zip c2.2)
  -- charging bounds: u_chg_t * pwr_chg_min <= pwr_chg_t <= u_chg_t * pwr_chg_max
  let cminNames := time_window.map fun t => r_label ++ b.label ++ "_pwr_chg_min_" ++ toString t
  let c3 := c2.1.linear_constraints_add cminNames (time_window.map fun _ => Sense.L) []
    (time_window.map fun t =>
      [(dictGet var2idx (r_label ++ b.label ++ "_pwr_chg_" ++ toString t), (-1 : F)),
       (dictGet var2idx (r_label ++ b.label ++ "_chg_ind_" ++ toString t),
         1 * b.pwr_chg_min)])
  let ctr2idx := dictUpdate ctr2idx (cminNames.zip c3.2)
  let cmaxNames := time_window.map fun t => r_label ++ b.label ++ "_pwr_chg_max_" ++ toString t
  let c4 := c3.1.linear_constraints_add cmaxNames (time_window.map fun _ => Sense.L) []
    (time_window.map fun t =>
      [(dictGet var2idx (r_label ++ b.label ++ "_pwr_chg_" ++ toString t), (1 : F)),
       (dictGet var2idx (r_label ++ b.label ++ "_chg_ind_" ++ toString t),
         -1 * b.pwr_chg_max)])
  let ctr2idx := dictUpdate ctr2idx (cmaxNames.zip c4.2)
  -- discharging bounds
  let dminNames := time_window.map fun t => r_label ++ b.label ++ "_pwr_dis_min_" ++ toString t
  let c5 := c4.1.linear_constraints_add dminNames (time_window.map fun _ => Sense.L) []
    (time_window.map fun t =>
      [(dictGet var2idx (r_label ++ b.label ++ "_pwr_dis_" ++ toString t), (-1 : F)),
       (dictGet var2idx (r_label ++ b.label ++ "_dis_ind_" ++ toString t),
         1 * b.pwr_dis_min)])
  let ctr2idx := dictUpdate ctr2idx (dminNames.zip c5.2)
  let dmaxNames := time_window.map fun t => r_label ++ b.label ++ "_pwr_dis_max_" ++ toString t
  let c6 := c5.1.linear_constraints_add dmaxNames (time_window.map fun _ => Sense.L) []
    (time_window.map fun t =>
      [(dictGet var2idx (r_label ++ b.label ++ "_pwr_dis_" ++ toString t), (1 : F)),
       (dictGet var2idx (r_label ++ b.label ++ "_dis_ind_" ++ toString t),
         -1 * b.pwr_dis_max)])
  let ctr2idx := dictUpdate ctr2idx (dmaxNames.zip c6.2)
  -- charge/discharge mutual exclusion
  let binNames := time_window.map fun t => r_label ++ b.label ++ "_cstr_bin_" ++ toString t
  let c7 := c6.1.linear_constraints_add binNames (time_window.map fun _ => Sense.L)
    (time_window.map fun _ => (1 : F))
    (time_window.map fun t =>
      [(dictGet var2idx (r_label ++ b.label ++ "_chg_ind_" ++ toString t), (1 : F)),
       (dictGet var2idx (r_label ++ b.label ++ "_dis_ind_" ++ toString t), (1 : F))])
  let ctr2idx := dictUpdate ctr2idx (binNames.zip c7.2)
  { m := c7.1, var2idx := var2idx, ctr2idx := ctr2idx }

/-- `ThermalLoad`: thermal-load parameters. -/
structure ThermalLoad (F : Type u) where
  label : String
  temp_min : List F
  temp_max : List F
  temp_ext : List F
  temp_init : F
  pwr_th_min : F
  pwr_th_max : F
  heat_cpty : F
  th_eff : F
  cond_coeff : F
deriving DecidableEq, Repr

/-- `ThermalLoad.update_model`. -/
def ThermalLoad.update_model (d : ThermalLoad F) (st : BuildState F)
    (time_window : List ℤ) (delta_t : F) (r_label : String) (binaries : Bool) :
    BuildState F :=
  -- I. Add variables
  -- thermal power
  let pwrNames := time_window.map fun t => r_label ++ d.label ++ "_pwr_" ++ toString t
  let p1 := st.m.variables_add pwrNames [] [] [] []
    (time_window.map fun t =>
      [(dictGet st.ctr2idx (r_label ++ "link_netLoad_" ++ toString t), (1 : F))])
  let v1 := dictUpdate st.var2idx (pwrNames.zip p1.2)
  -- temperature
  let tmpNames := time_window.map fun t => r_label ++ d.label ++ "_temp_" ++ toString t
  let p2 := p1.1.variables_add tmpNames []
    (d.temp_min.map some) (d.temp_max.map some) [] []
  let v2 := dictUpdate v1 (tmpNames.zip p2.2)
  -- on-off coefficient: binary, or relaxed to [0, 1]
  let onNames := time_window.map fun t => r_label ++ d.label ++ "_on_ind_" ++ toString t
  let q :=
    if binaries then
      let p3 := p2.1.variables_add onNames [] [] [] (time_window.map fun _ => true) []
      (p3.1, dictUpdate v2 (onNames.zip p3.2))
    else
      let p3 := p2.1.variables_add onNames []
        (time_window.map fun _ => some 0) (time_window.map fun _ => some 1) [] []
      (p3.1, dictUpdate v2 (onNames.zip p3.2))
  let var2idx := q.2
  -- II. Add constraints
  -- bounds on thermal power
  let minNames := time_window.map fun t => r_label ++ d.label ++ "_pwr_th_min_" ++ toString t
  let c1 := q.1.linear_constraints_add minNames (time_window.map fun _ => Sense.L) []
    (time_window.map fun t =>
      [(dictGet var2idx (r_label ++ d.label ++ "_pwr_" ++ toString t), (-1 : F)),
       (dictGet var2idx (r_label ++ d.label ++ "_on_ind_" ++ toString t),
         1 * d.pwr_th_min)])
  let ctr2idx := dictUpdate st.ctr2idx (minNames.zip c1.2)
  let maxNames := time_window.map fun t => r_label ++ d.label ++ "_pwr_th_max_" ++ toString t
  let c2 := c1.1.linear_constraints_add maxNames (time_window.map fun _ => Sense.L) []
    (time_window.map fun t =>
      [(dictGet var2idx (r_label ++ d.label ++ "_pwr_" ++ toString t), (1 : F)),
       (dictGet var2idx (r_label ++ d.label ++ "_on_ind_" ++ toString t),
         -1 * d.pwr_th_max)])
  let ctr2idx := dictUpdate ctr2idx (maxNames.zip c2.2)
  -- temperature exchange for t = 0
  let c3 := c2.1.linear_constraints_add
    [r_label ++ d.label ++ "_temp_exch_0"] [Sense.E]
    [d.temp_init
      + delta_t * (d.cond_coeff / d.heat_cpty) * (listIdx d.temp_ext 0 - d.temp_init)]
    [[(dictGet var2idx (r_label ++ d.label ++ "_temp_0"), (1 : F)),
      (dictGet var2idx (r_label ++ d.label ++ "_pwr_0"),
        -delta_t * (d.th_eff / d.heat_cpty))]]
  let ctr2idx := dictUpdate ctr2idx ([r_label ++ d.label ++ "_temp_exch_0"].zip c3.2)
  -- temperature exchange for t > 0
  let teNames := (time_window.drop 1).map fun t =>
    r_label ++ d.label ++ "_temp_exch_" ++ toString t
  let c4 := c3.1.linear_constraints_add teNames
    ((time_window.drop 1).map fun _ => Sense.E)
    ((time_window.drop 1).map fun t =>
      delta_t * (d.cond_coeff / d.heat_cpty) * listIdx d.temp_ext t)
    ((time_window.drop 1).map fun t =>
      [(dictGet var2idx (r_label ++ d.label ++ "_temp_" ++ toString t), (1 : F)),
       (dictGet var2idx (r_label ++ d.label ++ "_temp_" ++ toString (t - 1)),
         -(1 - delta_t * (d.cond_coeff / d.heat_cpty))),
       (dictGet var2idx (r_label ++ d.label ++ "_pwr_" ++ toString t),
         -delta_t * (d.th_eff / d.heat_cpty))])
  let ctr2idx := dictUpdate ctr2idx (teNames.zip c4.2)
  { m := c4.1, var2idx := var2idx, ctr2idx := ctr2idx }

/-- `DeferrableLoad`: deferrable-load parameters (`pwr_min`/`pwr_max` are
time-varying arrays). -/
structure DeferrableLoad (F : Type u) where
  label : String
  pwr_min : List F
  pwr_max : List F
  energy_min : F
  energy_max : F
deriving DecidableEq, Repr

/-- `DeferrableLoad.update_model`. -/
def DeferrableLoad.update_model (d : DeferrableLoad F) (st : BuildState F)
    (time_window : List ℤ) (delta_t : F) (r_label : String) (binaries : Bool) :
    BuildState F :=
  -- I. Add variables
  -- power (no explicit bounds: CPLEX defaults, lb 0 and ub +infinity)
  let pwrNames := time_window.map fun t => r_label ++ d.label ++ "_pwr_" ++ toString t
  let p1 := st.m.variables_add pwrNames [] [] [] []
    (time_window.map fun t =>
      [(dictGet st.ctr2idx (r_label ++ "link_netLoad_" ++ toString t), (1 : F))])
  let v1 := dictUpdate st.var2idx (pwrNames.zip p1.2)
  -- on-off indicator
  let uNames := time_window.map fun t => r_label ++ d.label ++ "_u_" ++ toString t
  let q :=
    if binaries then
      let p2 := p1.1.variables_add uNames [] [] [] (time_window.map fun _ => true) []
      (p2.1, dictUpdate v1 (uNames.zip p2.2))
    else
      let p2 := p1.1.variables_add uNames []
        (time_window.map fun _ => some 0) (time_window.map fun _ => some 1) [] []
      (p2.1, dictUpdate v1 (uNames.zip p2.2))
  let var2idx := q.2
  -- II. Add constraints
  -- total energy requirement
  let c1 := q.1.linear_constraints_add
    [r_label ++ d.label ++ "_E_tot_min", r_label ++ d.label ++ "_E_tot_max"]
    [Sense.G, Sense.L] [d.energy_min, d.energy_max]
    [time_window.map fun t =>
      (dictGet var2idx (r_label ++ d.label ++ "_pwr_" ++ toString t), delta_t),
     time_window.map fun t =>
      (dictGet var2idx (r_label ++ d.label ++ "_pwr_" ++ toString t), delta_t)]
  let ctr2idx := dictUpdate st.ctr2idx
    ([r_label ++ d.label ++ "_E_tot_min", r_label ++ d.label ++ "_E_tot_max"].zip c1.2)
  -- on-off coupling with time-varying power bounds
  let minNames := time_window.map fun t => r_label ++ d.label ++ "_pwr_min_" ++ toString t
  let c2 := c1.1.linear_constraints_add minNames (time_window.map fun _ => Sense.L) []
    (time_window.map fun t =>
      [(dictGet var2idx (r_label ++ d.label ++ "_pwr_" ++ toString t), (-1 : F)),
       (dictGet var2idx (r_label ++ d.label ++ "_u_" ++ toString t),
         1 * listIdx d.pwr_min t)])
  let ctr2idx := dictUpdate ctr2idx (minNames.zip c2.2)
  let maxNames := time_window.map fun t => r_label ++ d.label ++ "_pwr_max_" ++ toString t
  let c3 := c2.1.linear_constraints_add maxNames (time_window.map fun _ => Sense.L) []
    (time_window.map fun t =>
      [(dictGet var2idx (r_label ++ d.label ++ "_pwr_" ++ toString t), (1 : F)),
       (dictGet var2idx (r_label ++ d.label ++ "_u_" ++ toString t),
         -1 * listIdx d.pwr_max t)])
  let ctr2idx := dictUpdate ctr2idx (maxNames.zip c3.2)
  { m := c3.1, var2idx := var2idx, ctr2idx := ctr2idx }

/-- `ShiftableLoad` (uninterruptible load): `n_cycles` and `durations` are the
derived fields computed by `__init__`. -/
structure ShiftableLoad (F : Type u) where
  label : String
  t_start_min : List ℤ
  t_start_max : List ℤ
  cycles : List (List F)
  n_cycles : ℕ
  durations : List ℕ
deriving DecidableEq, Repr

/-- `ShiftableLoad.__init__`: stores the parameters and computes
`n_cycles = len(cycles)` and `durations = [len(c) for c in cycles]`; the
source performs no validation (in particular it never compares
`t_start_min[k]` with `t_start_max[k]`). -/
def ShiftableLoad.init (label : String) (t_start_min t_start_max : List ℤ)
    (cycles : List (List F)) : ShiftableLoad F :=
  { label := label, t_start_min := t_start_min, t_start_max := t_start_max,
    cycles := cycles, n_cycles := cycles.length,
    durations := cycles.map List.length }

/-- The feasible start window of cycle `k`:
`range(self.t_start_min[k], self.t_start_max[k] + 1)`. -/
def ShiftableLoad.window (s : ShiftableLoad F) (k : ℕ) : List ℤ :=
  pyRange (s.t_start_min.getD k 0) (s.t_start_max.getD k 0 + 1)

/-- Key of the start indicator of cycle `k` at time `t`. -/
def ShiftableLoad.uKey (s : ShiftableLoad F) (r_label : String) (k : ℕ) (t : ℤ) :
    String :=
  r_label ++ s.label ++ "_u_" ++ toString k ++ "_" ++ toString t

/-- `ShiftableLoad.update_model`. -/
def ShiftableLoad.update_model (s : ShiftableLoad F) (st : BuildState F)
    (time_window : List ℤ) (delta_t : F) (r_label : String) (binaries : Bool) :
    BuildState F :=
  -- I. Add variables
  -- power
  let pwrNames := time_window.map fun t => r_label ++ s.label ++ "_pwr_" ++ toString t
  let p1 := st.m.variables_add pwrNames [] [] [] []
    (time_window.map fun t =>
      [(dictGet st.ctr2idx (r_label ++ "link_netLoad_" ++ toString t), (1 : F))])
  let v1 := dictUpdate st.var2idx (pwrNames.zip p1.2)
  -- start-up indicators, one per (cycle, feasible start time)
  let uNames := (List.range s.n_cycles).flatMap fun k =>
    (s.window k).map fun t => s.uKey r_label k t
  let q :=
    if binaries then
      let p2 := p1.1.variables_add uNames [] [] []
        ((List.range s.n_cycles).flatMap fun k => (s.window k).map fun _ => true) []
      (p2.1, dictUpdate v1 (uNames.zip p2.2))
    else
      let p2 := p1.1.variables_add uNames []
        ((List.range s.n_cycles).flatMap fun k => (s.window k).map fun _ => some 0)
        ((List.range s.n_cycles).flatMap fun k => (s.window k).map fun _ => some 1) [] []
      (p2.1, dictUpdate v1 (uNames.zip p2.2))
  let var2idx := q.2
  -- II. Add constraints
  -- exactly one start-up for each cycle
  let suNames := (List.range s.n_cycles).map fun k =>
    r_label ++ s.label ++ "_start_up_" ++ toString k
  let c1 := q.1.linear_constraints_add suNames
    ((List.range s.n_cycles).map fun _ => Sense.E)
    ((List.range s.n_cycles).map fun _ => (1 : F))
    ((List.range s.n_cycles).map fun k =>
      (s.window k).map fun t => (dictGet var2idx (s.uKey r_label k t), (1 : F)))
  let ctr2idx := dictUpdate st.ctr2idx (suNames.zip c1.2)
  -- net power (senses omitted: CPLEX default 'E')
  let npNames := time_window.map fun t => r_label ++ s.label ++ "_net_power_" ++ toString t
  let c2 := c1.1.linear_constraints_add npNames [] []
    (time_window.map fun t =>
      (dictGet var2idx (r_label ++ s.label ++ "_pwr_" ++ toString t), (1 : F)) ::
      (s.cycles.enum.flatMap fun kc =>
        (List.range (s.durations.getD kc.1 0)).filterMap fun (dd : ℕ) =>
          if s.t_start_min.getD kc.1 0 ≤ t - (dd : ℤ) ∧
              t - (dd : ℤ) ≤ s.t_start_max.getD kc.1 0 then
            some (dictGet var2idx (s.uKey r_label kc.1 (t - (dd : ℤ))),
              -((kc.2.get? dd).getD 0))
          else none))
  let ctr2idx := dictUpdate ctr2idx (npNames.zip c2.2)
  -- cycle k cannot start before the end of cycle k-1
  let ks := (List.range (s.n_cycles - 1)).map (· + 1)
  let csNames := ks.map fun k => r_label ++ s.label ++ "_cycle_start_" ++ toString k
  let c3 := c2.1.linear_constraints_add csNames
    (ks.map fun _ => Sense.G)
    (ks.map fun k => ((s.durations.getD (k - 1) 0 : ℕ) : F))
    (ks.map fun k =>
      ((s.window (k - 1)).map fun t =>
        (dictGet var2idx (s.uKey r_label (k - 1) t), (-t : F))) ++
      ((s.window k).map fun t =>
        (dictGet var2idx (s.uKey r_label k t), (t : F))))
  let ctr2idx := dictUpdate ctr2idx (csNames.zip c3.2)
  { m := c3.1, var2idx := var2idx, ctr2idx := ctr2idx }

/-- `CurtailableLoad`: nominal profile and the per-device `binary` flag. -/
structure CurtailableLoad (F : Type u) where
  label : String
  load : List F
  binary : Bool
deriving DecidableEq, Repr

/-- `CurtailableLoad.update_model`.  Note two source quirks kept here:
the indicator is binary only when *both* `self.binary` and the `binaries`
argument hold, and the `ctr2idx` keys of the curtailment constraints are
`self.label+'_curtail_'+str(t)` — without the `r_label` prefix that the
constraint names themselves carry. -/
def CurtailableLoad.update_model (d : CurtailableLoad F) (st : BuildState F)
    (time_window : List ℤ) (delta_t : F) (r_label : String) (binaries : Bool) :
    BuildState F :=
  -- I. Add variables
  -- load can be negative (generation), so a lower bound -infinity is specified
  let pwrNames := time_window.map fun t => r_label ++ d.label ++ "_pwr_" ++ toString t
  let p1 := st.m.variables_add pwrNames []
    (time_window.map fun _ => none) [] []
    (time_window.map fun t =>
      [(dictGet st.ctr2idx (r_label ++ "link_netLoad_" ++ toString t), (1 : F))])
  let v1 := dictUpdate st.var2idx (pwrNames.zip p1.2)
  -- on-off control
  let uNames := time_window.map fun t => r_label ++ d.label ++ "_u_" ++ toString t
  let q :=
    if d.binary && binaries then
      let p2 := p1.1.variables_add uNames [] [] [] (time_window.map fun _ => true) []
      (p2.1, dictUpdate v1 (uNames.zip p2.2))
    else
      let p2 := p1.1.variables_add uNames []
        (time_window.map fun _ => some 0) (time_window.map fun _ => some 1) [] []
      (p2.1, dictUpdate v1 (uNames.zip p2.2))
  let var2idx := q.2
  -- II. Add constraints: curtailment  pwr_t = load_t * u_t
  let cNames := time_window.map fun t => r_label ++ d.label ++ "_curtail_" ++ toString t
  let c1 := q.1.linear_constraints_add cNames
    (time_window.map fun _ => Sense.E) []
    (time_window.map fun t =>
      [(dictGet var2idx (r_label ++ d.label ++ "_pwr_" ++ toString t), (1 : F)),
       (dictGet var2idx (r_label ++ d.label ++ "_u_" ++ toString t),
         -1 * listIdx d.load t)])
  let ctr2idx := dictUpdate st.ctr2idx
    ((time_window.map fun t => d.label ++ "_curtail_" ++ toString t).zip c1.2)
  { m := c1.1, var2idx := var2idx, ctr2idx := ctr2idx }

/-- The closed set of device variants handled by the generator. -/
inductive Device (F : Type u) where
  | fixedLoad : FixedLoad F → Device F
  | battery : Battery F → Device F
  | thermalLoad : ThermalLoad F → Device F
  | deferrableLoad : DeferrableLoad F → Device F
  | shiftableLoad : ShiftableLoad F → Device F
  | curtailableLoad : CurtailableLoad F → Device F
deriving DecidableEq

/-- Dynamic dispatch of `update_model` over the device variants. -/
def Device.update_model (fexp flog : F → F) (d : Device F) (st : BuildState F)
    (time_window : List ℤ) (delta_t : F) (r_label : String) (binaries : Bool) :
    BuildState F :=
  match d with
  | .fixedLoad x => x.update_model st time_window delta_t r_label binaries
  | .battery x => x.update_model fexp flog st time_window delta_t r_label binaries
  | .thermalLoad x => x.update_model st time_window delta_t r_label binaries
  | .deferrableLoad x => x.update_model st time_window delta_t r_label binaries
  | .shiftableLoad x => x.update_model st time_window delta_t r_label binaries
  | .curtailableLoad x => x.update_model st time_window delta_t r_label binaries

/-- The label of a device. -/
def Device.label : Device F → String
  | .fixedLoad x => x.label
  | .battery x => x.label
  | .thermalLoad x => x.label
  | .deferrableLoad x => x.label
  | .shiftableLoad x => x.label
  | .curtailableLoad x => x.label

/-! ## Model assembly (src/generator.py, `build_model`) -/

/-- The initial segment of `build_model` that exists before any device
contributes: the `totalLoad` variables (I), the aggregator linking
constraints (II) and, per household, the `netLoad` variable and the
`link_netLoad` constraints. -/
def build_model_household (st : BuildState F) (i_r : ℕ) (time_window : List ℤ) :
    BuildState F :=
  let r_label := "HH_" ++ toString i_r
  -- net load variable of the household (columns feed the aggregator link)
  let nlNames := time_window.map fun t => r_label ++ "_" ++ "netLoad_" ++ toString t
  let p1 := st.m.variables_add nlNames [] []
    (time_window.map fun _ => some (10 : F)) []
    (time_window.map fun t =>
      [(dictGet st.ctr2idx ("totalLoad_link" ++ toString t), (1 : F))])
  let v1 := dictUpdate st.var2idx (nlNames.zip p1.2)
  -- linking net-load constraint of the household
  let lnNames := time_window.map fun t => r_label ++ "_" ++ "link_netLoad_" ++ toString t
  let c1 := p1.1.linear_constraints_add lnNames
    (time_window.map fun _ => Sense.E) []
    (time_window.map fun t =>
      [(dictGet v1 (r_label ++ "_" ++ "netLoad_" ++ toString t), (-1 : F))])
  let ctr2idx := dictUpdate st.ctr2idx (lnNames.zip c1.2)
  { m := c1.1, var2idx := v1, ctr2idx := ctr2idx }

/-- `build_model`: the centralized MILP.  The per-device calls pass
`r_label + '_'` and leave `binaries` at its Python default `True`. -/
def build_model (fexp flog : F → F) (dev : List (List (Device F)))
    (time_window : List ℤ) (delta_t : F) (price_mkt : List F)
    (total_load_min total_load_max : List F) : Model F :=
  let m0 : Model F := { vars := [], ctrs := [] }
  -- I. linking variables: total load, with objective delta_t * price_mkt
  let tlNames := time_window.map fun t => "totalLoad_" ++ toString t
  let p1 := m0.variables_add tlNames (price_mkt.map fun p => delta_t * p)
    (total_load_min.map some) (total_load_max.map some) [] []
  let v2idx := dictUpdate [] ((time_window.map fun t => "totalLoad" ++ toString t).zip p1.2)
  -- II. linking constraints (senses omitted: CPLEX default 'E')
  let ltNames := time_window.map fun t => "link_total_" ++ toString t
  let c1 := p1.1.linear_constraints_add ltNames [] []
    (time_window.map fun t => [(dictGet v2idx ("totalLoad" ++ toString t), (-1 : F))])
  let c2idx := dictUpdate [] ((time_window.map fun t => "totalLoad_link" ++ toString t).zip c1.2)
  -- III. add the households and their devices
  (dev.enum.foldl (fun acc hh =>
      let st1 := build_model_household acc hh.1 time_window
      hh.2.foldl (fun s d =>
          d.update_model fexp flog s time_window delta_t
            ("HH_" ++ toString hh.1 ++ "_") true) st1)
    { m := c1.1, var2idx := v2idx, ctr2idx := c2idx }).m

/-! ## Semantics of a built model

The mathematical meaning of a `Model` is taken name-wise: an assignment maps
variable *names* to values (two variables with the same name are identified;
every theorem that needs it assumes the declared names are duplicate-free,
which is the registry invariant of the generator).  A `columns` entry of a
variable contributes to the row of every constraint carrying the referenced
name, which for duplicate-free constraint names is exactly the CPLEX matrix. -/

/-- Name of the variable with CPLEX index `i` (junk `""` when out of range). -/
def Model.varName (m : Model F) (i : ℕ) : String :=
  ((m.vars.get? i).map VarInfo.name).getD ""

/-- Name of the constraint with CPLEX index `i` (junk `""` out of range). -/
def Model.ctrName (m : Model F) (i : ℕ) : String :=
  ((m.ctrs.get? i).map CtrInfo.name).getD ""

/-- A variable, with its `columns` translated to constraint names. -/
structure SemVar (F : Type u) where
  name : String
  lb : Option F
  ub : Option F
  obj : F
  binary : Bool
  cols : Multiset (String × F)
deriving DecidableEq

/-- A constraint row, with its `lin_expr` translated to variable names. -/
structure SemCtr (F : Type u) where
  name : String
  sense : Sense
  rhs : F
  terms : Multiset (String × F)
deriving DecidableEq

/-- Translate one variable record. -/
def Model.semVar (m : Model F) (v : VarInfo F) : SemVar F :=
  ⟨v.name, v.lb, v.ub, v.obj, v.binary,
    ((v.cols.map fun p => (m.ctrName p.1, p.2)) : List (String × F))⟩

/-- The variables of a model, as a multiset (index numbering forgotten). -/
def Model.semVars (m : Model F) : Multiset (SemVar F) :=
  ((m.vars.map m.semVar) : List (SemVar F))

/-- Translate one constraint record. -/
def Model.semCtr (m : Model F) (c : CtrInfo F) : SemCtr F :=
  ⟨c.name, c.sense, c.rhs,
    ((c.terms.map fun p => (m.varName p.1, p.2)) : List (String × F))⟩

/-- The constraints of a model, as a multiset (index numbering forgotten). -/
def Model.semCtrs (m : Model F) : Multiset (SemCtr F) :=
  ((m.ctrs.map m.semCtr) : List (SemCtr F))

/-- Left-hand side of a row `c` under assignment `x`: its own `lin_expr`
terms plus every `columns` contribution whose target carries `c`'s name. -/
def SemCtr.lhs (c : SemCtr F) (vars : Multiset (SemVar F)) (x : String → F) : F :=
  (c.terms.map fun p => p.2 * x p.1).sum +
    (vars.map fun v =>
      ((v.cols.filter fun p => p.1 = c.name).map fun p => p.2 * x v.name).sum).sum

/-- A row is satisfied when its lhs relates to its rhs as its sense demands. -/
def SemCtr.holds (c : SemCtr F) (vars : Multiset (SemVar F)) (x : String → F) :
    Prop :=
  c.sense.sat (c.lhs vars x) c.rhs

/-- Bound and integrality requirements of one variable: within its declared
bounds, and 0/1-valued when it is binary. -/
def SemVar.ok (v : SemVar F) (x : String → F) : Prop :=
  (∀ b ∈ v.lb, b ≤ x v.name) ∧ (∀ b ∈ v.ub, x v.name ≤ b) ∧
    (v.binary = true → x v.name = 0 ∨ x v.name = 1)

/-- An assignment (by variable name) is feasible for the MILP: every variable
is within bounds and integral where required, every row holds. -/
def Model.feasible (m : Model F) (x : String → F) : Prop :=
  (∀ v ∈ m.semVars, v.ok x) ∧ ∀ c ∈ m.semCtrs, c.holds m.semVars x

theorem lookup_eq_none_of_not_mem {k : String} :
    ∀ {ps : Reg}, k ∉ ps.map Prod.fst → List.lookup k ps = none := by
  intro ps
  induction ps with
  | nil => intro _; rfl
  | cons p rest ih =>
    intro h
    have h1 : k ≠ p.1 := fun he => h (by simp [he])
    have h2 : k ∉ rest.map Prod.fst := fun he => h (by simp [he])
    simpa [List.lookup, beq_eq_false_iff_ne.mpr h1] using ih h2

theorem lookup_append {k : String} (l₁ l₂ : Reg) :
    List.lookup k (l₁ ++ l₂) =
      ((List.lookup k l₁).rec (List.lookup k l₂) fun v => some v) := by
  induction l₁ with
  | nil => rfl
  | cons p rest ih =>
    by_cases h : k = p.1
    · simp [List.lookup, h]
    · simpa [List.lookup, beq_eq_false_iff_ne.mpr h] using ih

theorem lookup_reverse {k : String} :
    ∀ {ps : Reg}, (ps.map Prod.fst).Nodup → List.lookup k ps.reverse = List.lookup k ps := by
  intro ps
  induction ps with
  | nil => intro _; rfl
  | cons p rest ih =>
    intro h
    rw [List.map_cons, List.nodup_cons] at h
    rw [List.reverse_cons, lookup_append, ih h.2]
    by_cases hk : k = p.1
    · subst hk
      rw [lookup_eq_none_of_not_mem h.1]
      simp [List.lookup]
    · cases hrest : List.lookup k rest with
      | none => simp [List.lookup, beq_eq_false_iff_ne.mpr hk, hrest]
      | some v => simp [List.lookup, beq_eq_false_iff_ne.mpr hk, hrest]

/-- Lookup of the `j`-th name in `dict(zip(names, idx))` where
`idx = range(n0, n0 + len(names))`, for duplicate-free `names`. -/
theorem lookup_zip_range {k : String} :
    ∀ {names : List String} {n0 j : ℕ}, names.Nodup → names.get? j = some k →
      List.lookup k (names.zip ((List.range names.length).map (n0 + ·))) =
        some (n0 + j) := by
  intro names
  induction names with
  | nil => intro n0 j _ hj; simp at hj
  | cons a rest ih =>
    intro n0 j hnd hj
    have hrange : (List.range (a :: rest).length).map (n0 + ·) =
        (n0 + 0) :: (List.range rest.length).map ((n0 + 1) + ·) := by
      rw [List.length_cons, List.range_succ_eq_map, List.map_cons, List.map_map]
      refine congrArg (List.cons (n0 + 0)) ?_
      refine List.map_congr_left fun i _ => ?_
      show n0 + Nat.succ i = n0 + 1 + i
      omega
    rw [hrange]
    cases j with
    | zero =>
      have : a = k := by simpa using hj
      subst this
      simp [List.lookup]
    | succ j' =>
      have hnd' := List.nodup_cons.mp hnd
      have hj' : rest.get? j' = some k := by simpa using hj
      have hk : k ∈ rest := List.get?_mem hj'
      have hne : (k == a) = false :=
        beq_eq_false_iff_ne.mpr (by rintro rfl; exact hnd'.1 hk)
      rw [List.zip_cons_cons]
      simp only [List.lookup, hne]
      rw [ih hnd'.2 hj']
      exact congrArg some (by omega)

theorem dictGet_update_zip_range {k : String} {names : List String} {n0 j : ℕ}
    (R : Reg) (hnd : names.Nodup) (hj : names.get? j = some k) :
    dictGet (dictUpdate R (names.zip ((List.range names.length).map (n0 + ·)))) k =
      n0 + j := by
  have hlen : names.length ≤ ((List.range names.length).map (n0 + ·)).length := by simp
  have hkeys : ((names.zip ((List.range names.length).map (n0 + ·))).map Prod.fst).Nodup := by
    rw [List.map_fst_zip _ _ hlen]; exact hnd
  unfold dictGet dictUpdate
  rw [lookup_append, lookup_reverse hkeys, lookup_zip_range hnd hj]
  rfl

/-- Variant of `dictGet_update_zip_range` that accepts any expression for the
length of the index range. -/
theorem dictGet_update_zip_range' {k : String} {names : List String} {n0 j n1 : ℕ}
    (R : Reg) (hnd : names.Nodup) (hj : names.get? j = some k)
    (hn1 : n1 = names.length) :
    dictGet (dictUpdate R (names.zip ((List.range n1).map (n0 + ·)))) k = n0 + j := by
  subst hn1
  exact dictGet_update_zip_range R hnd hj

theorem dictGet_update_not_mem {k : String} {ps : Reg} (R : Reg)
    (h : k ∉ ps.map Prod.fst) :
    dictGet (dictUpdate R ps) k = dictGet R k := by
  unfold dictGet dictUpdate
  rw [lookup_append]
  have : List.lookup k ps.reverse = none := by
    refine lookup_eq_none_of_not_mem ?_
    simpa using h
  rw [this]

theorem dictGet_update_zip_not_mem {k : String} {names : List String}
    {idxs : List ℕ} (R : Reg) (h : k ∉ names) :
    dictGet (dictUpdate R (names.zip idxs)) k = dictGet R k := by
  refine dictGet_update_not_mem R fun hc => h ?_
  rcases List.mem_map.mp hc with ⟨p, hp, hpk⟩
  have := List.of_mem_zip hp
  rw [← hpk]
  exact this.1

/-! ## Structural lemmas about the model primitives -/

theorem get?_mapIdx (l : List α) (f : ℕ → α → β) (i : ℕ) :
    (l.mapIdx f).get? i = (l.get? i).map (f i) := by
  by_cases h : i < l.length
  · have h' : i < (l.mapIdx f).length := by simpa using h
    rw [List.get?_eq_get h, List.get?_eq_get h', List.get_mapIdx]
    rfl
  · rw [List.get?_eq_none.mpr (by simpa using Nat.le_of_not_lt h),
      List.get?_eq_none.mpr (Nat.le_of_not_lt h)]
    rfl

@[simp] theorem Model.variables_add_ctrs (m : Model F) (names objs lbs ubs typesB columns) :
    (m.variables_add names objs lbs ubs typesB columns).1.ctrs = m.ctrs := rfl

@[simp] theorem Model.constraints_add_vars (m : Model F) (names senses rhss exprs) :
    (m.linear_constraints_add names senses rhss exprs).1.vars = m.vars := rfl

@[simp] theorem Model.set_rhs_vars (m : Model F) (ps) :
    (m.set_rhs ps).vars = m.vars := rfl

@[simp] theorem Model.variables_add_idx (m : Model F) (names objs lbs ubs typesB columns) :
    (m.variables_add names objs lbs ubs typesB columns).2 =
      (List.range names.length).map (m.vars.length + ·) := rfl

@[simp] theorem Model.constraints_add_idx (m : Model F) (names senses rhss exprs) :
    (m.linear_constraints_add names senses rhss exprs).2 =
      (List.range names.length).map (m.ctrs.length + ·) := rfl

theorem Model.variables_add_vars (m : Model F) (names objs lbs ubs typesB columns) :
    (m.variables_add names objs lbs ubs typesB columns).1.vars =
      m.vars ++ names.mapIdx (mkVarRec objs lbs ubs typesB columns) := rfl

theorem Model.constraints_add_ctrs (m : Model F) (names senses rhss exprs) :
    (m.linear_constraints_add names senses rhss exprs).1.ctrs =
      m.ctrs ++ names.mapIdx (mkCtrRec senses rhss exprs) := rfl

@[simp] theorem Model.variables_add_vars_length (m : Model F)
    (names objs lbs ubs typesB columns) :
    (m.variables_add names objs lbs ubs typesB columns).1.vars.length =
      m.vars.length + names.length := by
  rw [Model.variables_add_vars, List.length_append, List.length_mapIdx]

@[simp] theorem Model.constraints_add_ctrs_length (m : Model F)
    (names senses rhss exprs) :
    (m.linear_constraints_add names senses rhss exprs).1.ctrs.length =
      m.ctrs.length + names.length := by
  rw [Model.constraints_add_ctrs, List.length_append, List.length_mapIdx]

theorem varName_of_get? {m : Model F} {i : ℕ} {v : VarInfo F}
    (h : m.vars.get? i = some v) : m.varName i = v.name := by
  simp [Model.varName, ← List.get?_eq_getElem?, h]

/-- The record of the `j`-th variable declared by `variables.add`. -/
theorem Model.variables_add_get? (m : Model F) (names objs lbs ubs typesB columns)
    (j : ℕ) :
    (m.variables_add names objs lbs ubs typesB columns).1.vars.get? (m.vars.length + j) =
      (names.get? j).map (mkVarRec objs lbs ubs typesB columns j) := by
  show (m.vars ++ names.mapIdx _).get? (m.vars.length + j) = _
  rw [List.get?_append_right (Nat.le_add_right _ _), Nat.add_sub_cancel_left,
    get?_mapIdx]

/-- Membership form of `Model.variables_add_get?`. -/
theorem Model.variables_add_mem (m : Model F) (names objs lbs ubs typesB columns)
    {j : ℕ} {nm : String} (hj : names.get? j = some nm) :
    mkVarRec objs lbs ubs typesB columns j nm ∈
      (m.variables_add names objs lbs ubs typesB columns).1.vars := by
  refine List.get?_mem (n := m.vars.length + j) ?_
  rw [Model.variables_add_get?, hj]
  rfl

/-- The record of the `j`-th constraint declared by `linear_constraints.add`. -/
theorem Model.constraints_add_get? (m : Model F) (names senses rhss exprs) (j : ℕ) :
    (m.linear_constraints_add names senses rhss exprs).1.ctrs.get? (m.ctrs.length + j) =
      (names.get? j).map (mkCtrRec senses rhss exprs j) := by
  show (m.ctrs ++ names.mapIdx _).get? (m.ctrs.length + j) = _
  rw [List.get?_append_right (Nat.le_add_right _ _), Nat.add_sub_cancel_left,
    get?_mapIdx]

/-- Membership form of `Model.constraints_add_get?`. -/
theorem Model.constraints_add_mem (m : Model F) (names senses rhss exprs)
    {j : ℕ} {nm : String} (hj : names.get? j = some nm) :
    mkCtrRec senses rhss exprs j nm ∈
      (m.linear_constraints_add names senses rhss exprs).1.ctrs := by
  refine List.get?_mem (n := m.ctrs.length + j) ?_
  rw [Model.constraints_add_get?, hj]
  rfl

/-! ## Concrete instances used to separate claims from the code -/

/-- A fresh build state (no variables, no constraints, empty registries). -/
def emptyState : BuildState F := ⟨⟨[], []⟩, [], []⟩

/-- **C2, failing part.**  With household label `HH_0_` and a curtailable
device labelled `PV_0` over a one-step window, the constraint created in the
model is named `HH_0_PV_0_curtail_0`, but the key inserted into `ctr2idx` is
`PV_0_curtail_0`: the registry key of the curtailment constraint is *not*
namespaced by the household label (so the same key collides across
households), contradicting the claim that every declared key is namespaced by
`household_label + device_label + field + t`. -/
theorem C2_curtailable_registry_key_unprefixed :
    (((CurtailableLoad.update_model (⟨"PV_0", [7], true⟩ : CurtailableLoad ℚ)
        emptyState (pyRange 0 1) 1 "HH_0_" true).m.ctrs.map CtrInfo.name) =
      ["HH_0_PV_0_curtail_0"]) ∧
    (((CurtailableLoad.update_model (⟨"PV_0", [7], true⟩ : CurtailableLoad ℚ)
        emptyState (pyRange 0 1) 1 "HH_0_" true).ctr2idx.map Prod.fst) =
      ["PV_0_curtail_0"]) ∧
    -- the same device label in a different household produces the *same* key:
    (((CurtailableLoad.update_model (⟨"PV_0", [7], true⟩ : CurtailableLoad ℚ)
        emptyState (pyRange 0 1) 1 "HH_1_" true).ctr2idx.map Prod.fst) =
      ["PV_0_curtail_0"]) := by
  decide

/-- **C6, counterexample.**  Binary enforcement enabled (`binaries = True`),
yet a `CurtailableLoad` constructed with `binary=False` declares its
indicator variable as continuous in `[0, 1]`, not binary: the substitution is
not controlled uniformly by the global flag. -/
theorem C6_counterexample :
    ((CurtailableLoad.update_model (⟨"PV_0", [7], false⟩ : CurtailableLoad ℚ)
        emptyState (pyRange 0 1) 1 "HH_0_" true).m.vars.filter
      (fun v => v.name == "HH_0_PV_0_u_0")).map
        (fun v => (v.binary, v.lb, v.ub)) = [(false, some 0, some 1)] := by
  decide

/-- **C7, counterexample.**  The power variable declared by
`DeferrableLoad.update_model` carries the CPLEX default lower bound `0`
(the source passes no `lb`), not an unbounded sign: it cannot take negative
values even before any indicator coupling. -/
theorem C7_counterexample :
    ((DeferrableLoad.update_model (⟨"EV_0", [1], [7], 10, 10⟩ : DeferrableLoad ℚ)
        emptyState (pyRange 0 1) 1 "HH_0_" true).m.vars.filter
      (fun v => v.name == "HH_0_EV_0_pwr_0")).map
        (fun v => (v.lb, v.ub)) = [(some 0, none)] := by
  decide

/-- **C8, counterexample.**  Constructing a `ShiftableLoad` with
`t_start_max[0] < t_start_min[0]` raises nothing: `__init__` returns
normally, storing the inconsistent window verbatim (and `update_model` on the
resulting device happily mutates the registries rather than aborting). -/
theorem C8_counterexample :
    ((ShiftableLoad.init "shift" [5] [3] [[1]] : ShiftableLoad ℚ) =
      ⟨"shift", [5], [3], [[1]], 1, [1]⟩) ∧
    ((ShiftableLoad.init "shift" [5] [3] [[1]] : ShiftableLoad ℚ).update_model
        emptyState (pyRange 0 8) 1 "HH_0_" true).ctr2idx.map Prod.fst =
      ["HH_0_shift_start_up_0", "HH_0_shift_net_power_0", "HH_0_shift_net_power_1",
       "HH_0_shift_net_power_2", "HH_0_shift_net_power_3", "HH_0_shift_net_power_4",
       "HH_0_shift_net_power_5", "HH_0_shift_net_power_6", "HH_0_shift_net_power_7"].reverse := by
  decide

/-! ## Indicator variables and the `binaries` flag (claim C6) -/

theorem getD_of_all_eq {β : Type _} {l : List β} {c d : β} (h : ∀ x ∈ l, x = c)
    {j : ℕ} (hj : j < l.length) : l.getD j d = c := by
  unfold List.getD
  rw [List.get?_eq_get hj]
  exact h _ (List.get_mem l _ _)

theorem getD_map_const {α β : Type _} {l : List α} {c d : β} {j : ℕ}
    (h : j < l.length) : (l.map fun _ => c).getD j d = c :=
  getD_of_all_eq (by simp) (by simpa using h)

/-- The names of the indicator variables a device declares. -/
def Device.indicatorNames (d : Device F) (r_label : String) (time_window : List ℤ) :
    List String :=
  match d with
  | .fixedLoad _ => []
  | .battery b =>
      (time_window.map fun t => r_label ++ b.label ++ "_chg_ind_" ++ toString t) ++
      (time_window.map fun t => r_label ++ b.label ++ "_dis_ind_" ++ toString t)
  | .thermalLoad x => time_window.map fun t => r_label ++ x.label ++ "_on_ind_" ++ toString t
  | .deferrableLoad x => time_window.map fun t => r_label ++ x.label ++ "_u_" ++ toString t
  | .shiftableLoad s => (List.range s.n_cycles).flatMap fun k =>
      (s.window k).map fun t => s.uKey r_label k t
  | .curtailableLoad x => time_window.map fun t => r_label ++ x.label ++ "_u_" ++ toString t

/-- Whether a device's indicators end up declared binary: every variant
follows the global flag except `CurtailableLoad`, which also requires its own
`binary` attribute. -/
def Device.indicatorBinary (d : Device F) (binaries : Bool) : Bool :=
  match d with
  | .curtailableLoad x => x.binary && binaries
  | _ => binaries

theorem battery_indicator_vars (b : Battery F) (fexp flog : F → F)
    (st : BuildState F) (time_window : List ℤ) (delta_t : F) (r_label : String)
    (binaries : Bool) {nm : String}
    (hnm : nm ∈ (Device.battery b).indicatorNames r_label time_window) :
    ∃ v ∈ (b.update_model fexp flog st time_window delta_t r_label binaries).m.vars,
      v.name = nm ∧ v.binary = binaries ∧
        (v.binary = false → v.lb = some 0 ∧ v.ub = some 1) := by
  rcases List.mem_append.mp hnm with hci | hdi
  · rcases List.mem_iff_get?.mp hci with ⟨j, hj⟩
    have hjlt : j < time_window.length := by
      have := List.get?_eq_some.mp hj
      simpa using this.1
    cases binaries
    · simp only [Battery.update_model, Bool.false_eq_true, if_false,
        Model.constraints_add_vars]
      refine ⟨_, List.mem_append_left _ (Model.variables_add_mem _ _ _ _ _ _ _ hj),
        rfl, rfl, fun _ => ⟨?_, ?_⟩⟩
      · exact getD_map_const hjlt
      · exact getD_map_const hjlt
    · simp only [Battery.update_model, if_true, Model.constraints_add_vars]
      refine ⟨_, List.mem_append_left _ (Model.variables_add_mem _ _ _ _ _ _ _ hj),
        rfl, ?_, ?_⟩
      · exact getD_map_const hjlt
      · intro hfalse
        exact Bool.noConfusion ((getD_map_const hjlt).symm.trans hfalse)
  · rcases List.mem_iff_get?.mp hdi with ⟨j, hj⟩
    have hjlt : j < time_window.length := by
      have := List.get?_eq_some.mp hj
      simpa using this.1
    cases binaries
    · simp only [Battery.update_model, Bool.false_eq_true, if_false,
        Model.constraints_add_vars]
      refine ⟨_, Model.variables_add_mem _ _ _ _ _ _ _ hj, rfl, rfl, fun _ => ⟨?_, ?_⟩⟩
      · exact getD_map_const hjlt
      · exact getD_map_const hjlt
    · simp only [Battery.update_model, if_true, Model.constraints_add_vars]
      refine ⟨_, Model.variables_add_mem _ _ _ _ _ _ _ hj, rfl, ?_, ?_⟩
      · exact getD_map_const hjlt
      · intro hfalse
        exact Bool.noConfusion ((getD_map_const hjlt).symm.trans hfalse)

theorem thermal_indicator_vars (x : ThermalLoad F) (st : BuildState F)
    (time_window : List ℤ) (delta_t : F) (r_label : String) (binaries : Bool)
    {nm : String}
    (hnm : nm ∈ (Device.thermalLoad x).indicatorNames r_label time_window) :
    ∃ v ∈ (x.update_model st time_window delta_t r_label binaries).m.vars,
      v.name = nm ∧ v.binary = binaries ∧
        (v.binary = false → v.lb = some 0 ∧ v.ub = some 1) := by
  rcases List.mem_iff_get?.mp hnm with ⟨j, hj⟩
  have hjlt : j < time_window.length := by
    have := List.get?_eq_some.mp hj
    simpa [Device.indicatorNames] using this.1
  cases binaries
  · simp only [ThermalLoad.update_model, Bool.false_eq_true, if_false,
      Model.constraints_add_vars]
    refine ⟨_, Model.variables_add_mem _ _ _ _ _ _ _ hj, rfl, rfl, fun _ => ⟨?_, ?_⟩⟩
    · exact getD_map_const hjlt
    · exact getD_map_const hjlt
  · simp only [ThermalLoad.update_model, if_true, Model.constraints_add_vars]
    refine ⟨_, Model.variables_add_mem _ _ _ _ _ _ _ hj, rfl, ?_, ?_⟩
    · exact getD_map_const hjlt
    · intro hfalse
      exact Bool.noConfusion ((getD_map_const hjlt).symm.trans hfalse)

theorem deferrable_indicator_vars (x : DeferrableLoad F) (st : BuildState F)
    (time_window : List ℤ) (delta_t : F) (r_label : String) (binaries : Bool)
    {nm : String}
    (hnm : nm ∈ (Device.deferrableLoad x).indicatorNames r_label time_window) :
    ∃ v ∈ (x.update_model st time_window delta_t r_label binaries).m.vars,
      v.name = nm ∧ v.binary = binaries ∧
        (v.binary = false → v.lb = some 0 ∧ v.ub = some 1) := by
  rcases List.mem_iff_get?.mp hnm with ⟨j, hj⟩
  have hjlt : j < time_window.length := by
    have := List.get?_eq_some.mp hj
    simpa [Device.indicatorNames] using this.1
  cases binaries
  · simp only [DeferrableLoad.update_model, Bool.false_eq_true, if_false,
      Model.constraints_add_vars]
    refine ⟨_, Model.variables_add_mem _ _ _ _ _ _ _ hj, rfl, rfl, fun _ => ⟨?_, ?_⟩⟩
    · exact getD_map_const hjlt
    · exact getD_map_const hjlt
  · simp only [DeferrableLoad.update_model, if_true, Model.constraints_add_vars]
    refine ⟨_, Model.variables_add_mem _ _ _ _ _ _ _ hj, rfl, ?_, ?_⟩
    · exact getD_map_const hjlt
    · intro hfalse
      exact Bool.noConfusion ((getD_map_const hjlt).symm.trans hfalse)

theorem curtailable_indicator_vars (x : CurtailableLoad F) (st : BuildState F)
    (time_window : List ℤ) (delta_t : F) (r_label : String) (binaries : Bool)
    {nm : String}
    (hnm : nm ∈ (Device.curtailableLoad x).indicatorNames r_label time_window) :
    ∃ v ∈ (x.update_model st time_window delta_t r_label binaries).m.vars,
      v.name = nm ∧ v.binary = (x.binary && binaries) ∧
        (v.binary = false → v.lb = some 0 ∧ v.ub = some 1) := by
  rcases List.mem_iff_get?.mp hnm with ⟨j, hj⟩
  have hjlt : j < time_window.length := by
    have := List.get?_eq_some.mp hj
    simpa [Device.indicatorNames] using this.1
  cases hbb : (x.binary && binaries)
  · simp only [CurtailableLoad.update_model, hbb, Bool.false_eq_true, if_false,
      Model.constraints_add_vars]
    refine ⟨_, Model.variables_add_mem _ _ _ _ _ _ _ hj, rfl, rfl, fun _ => ⟨?_, ?_⟩⟩
    · exact getD_map_const hjlt
    · exact getD_map_const hjlt
  · simp only [CurtailableLoad.update_model, hbb, if_true, Model.constraints_add_vars]
    refine ⟨_, Model.variables_add_mem _ _ _ _ _ _ _ hj, rfl, ?_, ?_⟩
    · exact getD_map_const hjlt
    · intro hfalse
      exact Bool.noConfusion ((getD_map_const hjlt).symm.trans hfalse)

theorem getD_flatMap_const {α β γ δ : Type _} (l : List α) (g : α → List β)
    (f : (a : α) → β → δ) {c d : γ} {j : ℕ}
    (hj : j < (l.flatMap fun k => (g k).map (f k)).length) :
    (l.flatMap fun k => (g k).map fun _ => c).getD j d = c := by
  refine getD_of_all_eq ?_ ?_
  · intro y hy
    rcases List.mem_flatMap.mp hy with ⟨k, -, hk⟩
    rcases List.mem_map.mp hk with ⟨t, -, rfl⟩
    rfl
  · refine lt_of_lt_of_le hj (le_of_eq ?_)
    simp [Function.comp_def]

theorem shiftable_indicator_vars (s : ShiftableLoad F) (st : BuildState F)
    (time_window : List ℤ) (delta_t : F) (r_label : String) (binaries : Bool)
    {nm : String}
    (hnm : nm ∈ (Device.shiftableLoad s).indicatorNames r_label time_window) :
    ∃ v ∈ (s.update_model st time_window delta_t r_label binaries).m.vars,
      v.name = nm ∧ v.binary = binaries ∧
        (v.binary = false → v.lb = some 0 ∧ v.ub = some 1) := by
  rcases List.mem_iff_get?.mp hnm with ⟨j, hj⟩
  have hjlt : j < ((List.range s.n_cycles).flatMap fun k =>
      (s.window k).map fun t => s.uKey r_label k t).length := by
    have := List.get?_eq_some.mp hj
    simpa [Device.indicatorNames] using this.1
  cases binaries
  · simp only [ShiftableLoad.update_model, Bool.false_eq_true, if_false,
      Model.constraints_add_vars]
    refine ⟨_, Model.variables_add_mem _ _ _ _ _ _ _ hj, rfl, rfl, fun _ => ⟨?_, ?_⟩⟩
    · show ((List.range s.n_cycles).flatMap fun k =>
          (s.window k).map fun _ => (some 0 : Option F)).getD j (some 0) = some 0
      exact getD_flatMap_const _ _ _ hjlt
    · show ((List.range s.n_cycles).flatMap fun k =>
          (s.window k).map fun _ => (some 1 : Option F)).getD j none = some 1
      exact getD_flatMap_const _ _ _ hjlt
  · simp only [ShiftableLoad.update_model, if_true, Model.constraints_add_vars]
    refine ⟨_, Model.variables_add_mem _ _ _ _ _ _ _ hj, rfl, ?_, ?_⟩
    · show ((List.range s.n_cycles).flatMap fun k =>
          (s.window k).map fun _ => true).getD j false = true
      exact getD_flatMap_const _ _ _ hjlt
    · intro hfalse
      have h2 : ((List.range s.n_cycles).flatMap fun k =>
          (s.window k).map fun _ => true).getD j false = true :=
        getD_flatMap_const _ _ _ hjlt
      exact Bool.noConfusion (h2.symm.trans hfalse)

/-- **C6 (amended).**  The binary-versus-relaxed declaration of indicator
variables is *not* controlled uniformly by the global `binaries` flag alone
(see `C6_counterexample`): every indicator variable of every device variant is
declared binary exactly when `Device.indicatorBinary` holds — that is, when
the global flag is set, for all variants except `CurtailableLoad`, which
additionally requires its own `binary` attribute — and every indicator that
is not declared binary is declared continuous with bounds `[0, 1]`. -/
theorem C6_indicator_typing (fexp flog : F → F) (d : Device F) (st : BuildState F)
    (time_window : List ℤ) (delta_t : F) (r_label : String) (binaries : Bool)
    {nm : String} (hnm : nm ∈ d.indicatorNames r_label time_window) :
    ∃ v ∈ (d.update_model fexp flog st time_window delta_t r_label binaries).m.vars,
      v.name = nm ∧ v.binary = d.indicatorBinary binaries ∧
        (v.binary = false → v.lb = some 0 ∧ v.ub = some 1) := by
  cases d with
  | fixedLoad x => simp [Device.indicatorNames] at hnm
  | battery b =>
    exact battery_indicator_vars b fexp flog st time_window delta_t r_label binaries hnm
  | thermalLoad x =>
    exact thermal_indicator_vars x st time_window delta_t r_label binaries hnm
  | deferrableLoad x =>
    exact deferrable_indicator_vars x st time_window delta_t r_label binaries hnm
  | shiftableLoad s =>
    exact shiftable_indicator_vars s st time_window delta_t r_label binaries hnm
  | curtailableLoad x =>
    exact curtailable_indicator_vars x st time_window delta_t r_label binaries hnm

/-- Witness for `C6_indicator_typing` at a concrete battery with the global
flag disabled. -/
theorem C6_indicator_typing_witness :
    ("HH_0_bat_chg_ind_0" ∈
      (Device.battery (⟨"bat", 0, 5, 0, 5, 0, 10, 0, 1, 1, 100⟩ : Battery ℚ)).indicatorNames
        "HH_0_" (pyRange 0 1)) ∧
    ∃ v ∈ ((Device.battery (⟨"bat", 0, 5, 0, 5, 0, 10, 0, 1, 1, 100⟩ : Battery ℚ)).update_model
        id id emptyState (pyRange 0 1) 1 "HH_0_" false).m.vars,
      v.name = "HH_0_bat_chg_ind_0" ∧
        v.binary = (Device.battery (⟨"bat", 0, 5, 0, 5, 0, 10, 0, 1, 1, 100⟩ : Battery ℚ)).indicatorBinary false ∧
        (v.binary = false → v.lb = some 0 ∧ v.ub = some 1) :=
  ⟨by decide, C6_indicator_typing id id _ emptyState (pyRange 0 1) 1 "HH_0_" false (by decide)⟩

theorem getD_map_of_get? {α β : Type _} {l : List α} {g : α → β} {j : ℕ} {t : α}
    {dflt : β} (hj : l.get? j = some t) : (l.map g).getD j dflt = g t := by
  unfold List.getD
  rw [List.get?_map, hj]
  rfl

theorem Model.varName_append_of_get? {m m2 : Model F} {i : ℕ} {v : VarInfo F}
    (hv : m.vars.get? i = some v) (h2 : ∃ l, m2.vars = m.vars ++ l) :
    m2.varName i = v.name := by
  rcases h2 with ⟨l, hl⟩
  have hlt : i < m.vars.length := (List.get?_eq_some.mp hv).1
  refine varName_of_get? ?_
  rw [hl, List.get?_append hlt]
  exact hv

theorem mem_ctrs_of_prefix {m m2 : Model F} {c : CtrInfo F} (hc : c ∈ m.ctrs)
    (h2 : ∃ l, m2.ctrs = m.ctrs ++ l) : c ∈ m2.ctrs := by
  rcases h2 with ⟨l, hl⟩
  rw [hl]
  exact List.mem_append_left l hc

theorem mem_vars_of_prefix {m m2 : Model F} {v : VarInfo F} (hv : v ∈ m.vars)
    (h2 : ∃ l, m2.vars = m.vars ++ l) : v ∈ m2.vars := by
  rcases h2 with ⟨l, hl⟩
  rw [hl]
  exact List.mem_append_left l hv

/-- **C7 (amended).**  `DeferrableLoad.update_model` declares its power
variable with the CPLEX *default* bounds — lower bound `0`, upper bound
`+infinity` — not with unbounded sign (`C7_counterexample`); and it adds, for
every step `t` of the window, the indicator-coupled rows
`-pwr_t + pwr_min[t]*u_t ≤ 0` and `pwr_t - pwr_max[t]*u_t ≤ 0`, i.e.
`pwr_min[t]*u[t] ≤ pwr[t] ≤ pwr_max[t]*u[t]` with the time-varying bound
arrays.  The duplicate-freedom hypothesis is the generator's key-uniqueness
invariant, checkable by `decide` on any concrete instance. -/
theorem C7_deferrable_declarations (d : DeferrableLoad F) (st : BuildState F)
    (tw : List ℤ) (delta_t : F) (r : String) (bin : Bool)
    {j : ℕ} {t : ℤ} (hj : tw.get? j = some t)
    (hnd : ((tw.map fun t => r ++ d.label ++ "_pwr_" ++ toString t) ++
            (tw.map fun t => r ++ d.label ++ "_u_" ++ toString t)).Nodup) :
    (∃ v ∈ (d.update_model st tw delta_t r bin).m.vars,
        v.name = r ++ d.label ++ "_pwr_" ++ toString t ∧
        v.lb = some 0 ∧ v.ub = none ∧ v.binary = false) ∧
    (∃ c ∈ (d.update_model st tw delta_t r bin).m.ctrs,
        (d.update_model st tw delta_t r bin).m.semCtr c =
          ⟨r ++ d.label ++ "_pwr_min_" ++ toString t, Sense.L, 0,
            (([(r ++ d.label ++ "_pwr_" ++ toString t, (-1 : F)),
               (r ++ d.label ++ "_u_" ++ toString t, 1 * listIdx d.pwr_min t)]) :
              List (String × F))⟩) ∧
    (∃ c ∈ (d.update_model st tw delta_t r bin).m.ctrs,
        (d.update_model st tw delta_t r bin).m.semCtr c =
          ⟨r ++ d.label ++ "_pwr_max_" ++ toString t, Sense.L, 0,
            (([(r ++ d.label ++ "_pwr_" ++ toString t, (1 : F)),
               (r ++ d.label ++ "_u_" ++ toString t, -1 * listIdx d.pwr_max t)]) :
              List (String × F))⟩) := by
  have hjlt : j < tw.length := by
    have := List.get?_eq_some.mp hj
    simpa using this.1
  have hmemP : (r ++ d.label ++ "_pwr_" ++ toString t) ∈
      tw.map fun t => r ++ d.label ++ "_pwr_" ++ toString t :=
    List.mem_map_of_mem _ (List.get?_mem hj)
  have hnd3 := List.nodup_append.mp hnd
  have hnotU : (r ++ d.label ++ "_pwr_" ++ toString t) ∉
      tw.map fun t => r ++ d.label ++ "_u_" ++ toString t :=
    fun hc => hnd3.2.2 hmemP hc
  have hgetP : (tw.map fun t => r ++ d.label ++ "_pwr_" ++ toString t).get? j =
      some (r ++ d.label ++ "_pwr_" ++ toString t) := by
    rw [List.get?_map, hj]; rfl
  have hgetU : (tw.map fun t => r ++ d.label ++ "_u_" ++ toString t).get? j =
      some (r ++ d.label ++ "_u_" ++ toString t) := by
    rw [List.get?_map, hj]; rfl
  -- the power variable records (stage 1)
  have hgP := Model.variables_add_get? st.m
    (tw.map fun t => r ++ d.label ++ "_pwr_" ++ toString t) [] [] [] []
    (tw.map fun t => [(dictGet st.ctr2idx (r ++ "link_netLoad_" ++ toString t), (1 : F))]) j
  rw [hgetP] at hgP
  cases bin
  case false =>
    -- name resolution in the final registry
    have hresP : dictGet (d.update_model st tw delta_t r false).var2idx
        (r ++ d.label ++ "_pwr_" ++ toString t) = st.m.vars.length + j := by
      show dictGet (dictUpdate (dictUpdate st.var2idx
          ((tw.map fun t => r ++ d.label ++ "_pwr_" ++ toString t).zip
            ((List.range (tw.map fun t => r ++ d.label ++ "_pwr_" ++ toString t).length).map
              (st.m.vars.length + ·))))
        ((tw.map fun t => r ++ d.label ++ "_u_" ++ toString t).zip
          ((List.range (tw.map fun t => r ++ d.label ++ "_u_" ++ toString t).length).map
            ((st.m.variables_add (tw.map fun t => r ++ d.label ++ "_pwr_" ++ toString t)
                [] [] [] [] (tw.map fun t =>
                  [(dictGet st.ctr2idx (r ++ "link_netLoad_" ++ toString t), (1 : F))])).1.vars.length + ·))))
        (r ++ d.label ++ "_pwr_" ++ toString t) = st.m.vars.length + j
      rw [dictGet_update_zip_not_mem _ hnotU,
        dictGet_update_zip_range' _ hnd3.1 hgetP rfl]
    have hresU : dictGet (d.update_model st tw delta_t r false).var2idx
        (r ++ d.label ++ "_u_" ++ toString t) = st.m.vars.length + tw.length + j := by
      show dictGet (dictUpdate (dictUpdate st.var2idx
          ((tw.map fun t => r ++ d.label ++ "_pwr_" ++ toString t).zip
            ((List.range (tw.map fun t => r ++ d.label ++ "_pwr_" ++ toString t).length).map
              (st.m.vars.length + ·))))
        ((tw.map fun t => r ++ d.label ++ "_u_" ++ toString t).zip
          ((List.range (tw.map fun t => r ++ d.label ++ "_u_" ++ toString t).length).map
            ((st.m.variables_add (tw.map fun t => r ++ d.label ++ "_pwr_" ++ toString t)
                [] [] [] [] (tw.map fun t =>
                  [(dictGet st.ctr2idx (r ++ "link_netLoad_" ++ toString t), (1 : F))])).1.vars.length + ·))))
        (r ++ d.label ++ "_u_" ++ toString t) = st.m.vars.length + tw.length + j
      rw [dictGet_update_zip_range' _ hnd3.2.1 hgetU rfl]
      simp
    -- variable names at the two index blocks
    have hvnP : (d.update_model st tw delta_t r false).m.varName (st.m.vars.length + j) =
        r ++ d.label ++ "_pwr_" ++ toString t :=
      Model.varName_append_of_get? hgP ⟨_, rfl⟩
    have hgU := Model.variables_add_get?
      (st.m.variables_add (tw.map fun t => r ++ d.label ++ "_pwr_" ++ toString t)
        [] [] [] [] (tw.map fun t =>
          [(dictGet st.ctr2idx (r ++ "link_netLoad_" ++ toString t), (1 : F))])).1
      (tw.map fun t => r ++ d.label ++ "_u_" ++ toString t) []
      (tw.map fun _ => some 0) (tw.map fun _ => some 1) [] [] j
    rw [hgetU] at hgU
    have hlen1 : (st.m.variables_add (tw.map fun t => r ++ d.label ++ "_pwr_" ++ toString t)
        [] [] [] [] (tw.map fun t =>
          [(dictGet st.ctr2idx (r ++ "link_netLoad_" ++ toString t), (1 : F))])).1.vars.length =
        st.m.vars.length + tw.length := by
      simp
    rw [hlen1] at hgU
    have hvnU : (d.update_model st tw delta_t r false).m.varName
        (st.m.vars.length + tw.length + j) = r ++ d.label ++ "_u_" ++ toString t :=
      Model.varName_append_of_get? hgU ⟨[], by rw [List.append_nil]; rfl⟩
    refine ⟨⟨_, mem_vars_of_prefix (List.get?_mem hgP) ⟨_, rfl⟩, rfl, rfl, rfl, rfl⟩, ?_, ?_⟩
    · refine ⟨_, mem_ctrs_of_prefix (Model.constraints_add_mem _
        (tw.map fun t => r ++ d.label ++ "_pwr_min_" ++ toString t)
        (tw.map fun _ => Sense.L) []
        (tw.map fun t =>
          [(dictGet (d.update_model st tw delta_t r false).var2idx
              (r ++ d.label ++ "_pwr_" ++ toString t), (-1 : F)),
           (dictGet (d.update_model st tw delta_t r false).var2idx
              (r ++ d.label ++ "_u_" ++ toString t), 1 * listIdx d.pwr_min t)])
        (by rw [List.get?_map, hj]; rfl)) ⟨_, rfl⟩, ?_⟩
      show Model.semCtr _ _ = _
      simp only [Model.semCtr, mkCtrRec, getD_map_of_get? hj, getD_map_const hjlt,
        List.map_cons, List.map_nil, hresP, hresU, hvnP, hvnU]
      rfl
    · refine ⟨_, mem_ctrs_of_prefix (Model.constraints_add_mem _
        (tw.map fun t => r ++ d.label ++ "_pwr_max_" ++ toString t)
        (tw.map fun _ => Sense.L) []
        (tw.map fun t =>
          [(dictGet (d.update_model st tw delta_t r false).var2idx
              (r ++ d.label ++ "_pwr_" ++ toString t), (1 : F)),
           (dictGet (d.update_model st tw delta_t r false).var2idx
              (r ++ d.label ++ "_u_" ++ toString t), -1 * listIdx d.pwr_max t)])
        (by rw [List.get?_map, hj]; rfl)) ⟨[], by rw [List.append_nil]; rfl⟩, ?_⟩
      show Model.semCtr _ _ = _
      simp only [Model.semCtr, mkCtrRec, getD_map_of_get? hj, getD_map_const hjlt,
        List.map_cons, List.map_nil, hresP, hresU, hvnP, hvnU]
      rfl
  case true =>
    -- name resolution in the final registry
    have hresP : dictGet (d.update_model st tw delta_t r true).var2idx
        (r ++ d.label ++ "_pwr_" ++ toString t) = st.m.vars.length + j := by
      show dictGet (dictUpdate (dictUpdate st.var2idx
          ((tw.map fun t => r ++ d.label ++ "_pwr_" ++ toString t).zip
            ((List.range (tw.map fun t => r ++ d.label ++ "_pwr_" ++ toString t).length).map
              (st.m.vars.length + ·))))
        ((tw.map fun t => r ++ d.label ++ "_u_" ++ toString t).zip
          ((List.range (tw.map fun t => r ++ d.label ++ "_u_" ++ toString t).length).map
            ((st.m.variables_add (tw.map fun t => r ++ d.label ++ "_pwr_" ++ toString t)
                [] [] [] [] (tw.map fun t =>
                  [(dictGet st.ctr2idx (r ++ "link_netLoad_" ++ toString t), (1 : F))])).1.vars.length + ·))))
        (r ++ d.label ++ "_pwr_" ++ toString t) = st.m.vars.length + j
      rw [dictGet_update_zip_not_mem _ hnotU,
        dictGet_update_zip_range' _ hnd3.1 hgetP rfl]
    have hresU : dictGet (d.update_model st tw delta_t r true).var2idx
        (r ++ d.label ++ "_u_" ++ toString t) = st.m.vars.length + tw.length + j := by
      show dictGet (dictUpdate (dictUpdate st.var2idx
          ((tw.map fun t => r ++ d.label ++ "_pwr_" ++ toString t).zip
            ((List.range (tw.map fun t => r ++ d.label ++ "_pwr_" ++ toString t).length).map
              (st.m.vars.length + ·))))
        ((tw.map fun t => r ++ d.label ++ "_u_" ++ toString t).zip
          ((List.range (tw.map fun t => r ++ d.label ++ "_u_" ++ toString t).length).map
            ((st.m.variables_add (tw.map fun t => r ++ d.label ++ "_pwr_" ++ toString t)
                [] [] [] [] (tw.map fun t =>
                  [(dictGet st.ctr2idx (r ++ "link_netLoad_" ++ toString t), (1 : F))])).1.vars.length + ·))))
        (r ++ d.label ++ "_u_" ++ toString t) = st.m.vars.length + tw.length + j
      rw [dictGet_update_zip_range' _ hnd3.2.1 hgetU rfl]
      simp
    -- variable names at the two index blocks
    have hvnP : (d.update_model st tw delta_t r true).m.varName (st.m.vars.length + j) =
        r ++ d.label ++ "_pwr_" ++ toString t :=
      Model.varName_append_of_get? hgP ⟨_, rfl⟩
    have hgU := Model.variables_add_get?
      (st.m.variables_add (tw.map fun t => r ++ d.label ++ "_pwr_" ++ toString t)
        [] [] [] [] (tw.map fun t =>
          [(dictGet st.ctr2idx (r ++ "link_netLoad_" ++ toString t), (1 : F))])).1
      (tw.map fun t => r ++ d.label ++ "_u_" ++ toString t) []
      [] [] (tw.map fun _ => true) [] j
    rw [hgetU] at hgU
    have hlen1 : (st.m.variables_add (tw.map fun t => r ++ d.label ++ "_pwr_" ++ toString t)
        [] [] [] [] (tw.map fun t =>
          [(dictGet st.ctr2idx (r ++ "link_netLoad_" ++ toString t), (1 : F))])).1.vars.length =
        st.m.vars.length + tw.length := by
      simp
    rw [hlen1] at hgU
    have hvnU : (d.update_model st tw delta_t r true).m.varName
        (st.m.vars.length + tw.length + j) = r ++ d.label ++ "_u_" ++ toString t :=
      Model.varName_append_of_get? hgU ⟨[], by rw [List.append_nil]; rfl⟩
    refine ⟨⟨_, mem_vars_of_prefix (List.get?_mem hgP) ⟨_, rfl⟩, rfl, rfl, rfl, rfl⟩, ?_, ?_⟩
    · refine ⟨_, mem_ctrs_of_prefix (Model.constraints_add_mem _
        (tw.map fun t => r ++ d.label ++ "_pwr_min_" ++ toString t)
        (tw.map fun _ => Sense.L) []
        (tw.map fun t =>
          [(dictGet (d.update_model st tw delta_t r true).var2idx
              (r ++ d.label ++ "_pwr_" ++ toString t), (-1 : F)),
           (dictGet (d.update_model st tw delta_t r true).var2idx
              (r ++ d.label ++ "_u_" ++ toString t), 1 * listIdx d.pwr_min t)])
        (by rw [List.get?_map, hj]; rfl)) ⟨_, rfl⟩, ?_⟩
      show Model.semCtr _ _ = _
      simp only [Model.semCtr, mkCtrRec, getD_map_of_get? hj, getD_map_const hjlt,
        List.map_cons, List.map_nil, hresP, hresU, hvnP, hvnU]
      rfl
    · refine ⟨_, mem_ctrs_of_prefix (Model.constraints_add_mem _
        (tw.map fun t => r ++ d.label ++ "_pwr_max_" ++ toString t)
        (tw.map fun _ => Sense.L) []
        (tw.map fun t =>
          [(dictGet (d.update_model st tw delta_t r true).var2idx
              (r ++ d.label ++ "_pwr_" ++ toString t), (1 : F)),
           (dictGet (d.update_model st tw delta_t r true).var2idx
              (r ++ d.label ++ "_u_" ++ toString t), -1 * listIdx d.pwr_max t)])
        (by rw [List.get?_map, hj]; rfl)) ⟨[], by rw [List.append_nil]; rfl⟩, ?_⟩
      show Model.semCtr _ _ = _
      simp only [Model.semCtr, mkCtrRec, getD_map_of_get? hj, getD_map_const hjlt,
        List.map_cons, List.map_nil, hresP, hresU, hvnP, hvnU]
      rfl

/-- Witness for `C7_deferrable_declarations` at a concrete one-step instance. -/
theorem C7_deferrable_declarations_witness :
    ((pyRange 0 1).get? 0 = some 0) ∧
    ((((pyRange 0 1).map fun t => "HH_0_" ++ "EV_0" ++ "_pwr_" ++ toString t) ++
      ((pyRange 0 1).map fun t => "HH_0_" ++ "EV_0" ++ "_u_" ++ toString t)).Nodup) ∧
    ((∃ v ∈ ((⟨"EV_0", [1], [7], 10, 10⟩ : DeferrableLoad ℚ).update_model
          emptyState (pyRange 0 1) 1 "HH_0_" true).m.vars,
        v.name = "HH_0_" ++ "EV_0" ++ "_pwr_" ++ toString (0 : ℤ) ∧
        v.lb = some 0 ∧ v.ub = none ∧ v.binary = false) ∧
     (∃ c ∈ ((⟨"EV_0", [1], [7], 10, 10⟩ : DeferrableLoad ℚ).update_model
          emptyState (pyRange 0 1) 1 "HH_0_" true).m.ctrs,
        ((⟨"EV_0", [1], [7], 10, 10⟩ : DeferrableLoad ℚ).update_model
          emptyState (pyRange 0 1) 1 "HH_0_" true).m.semCtr c =
          ⟨"HH_0_" ++ "EV_0" ++ "_pwr_min_" ++ toString (0 : ℤ), Sense.L, 0,
            (([("HH_0_" ++ "EV_0" ++ "_pwr_" ++ toString (0 : ℤ), (-1 : ℚ)),
               ("HH_0_" ++ "EV_0" ++ "_u_" ++ toString (0 : ℤ),
                 1 * listIdx ([1] : List ℚ) 0)]) : List (String × ℚ))⟩) ∧
     (∃ c ∈ ((⟨"EV_0", [1], [7], 10, 10⟩ : DeferrableLoad ℚ).update_model
          emptyState (pyRange 0 1) 1 "HH_0_" true).m.ctrs,
        ((⟨"EV_0", [1], [7], 10, 10⟩ : DeferrableLoad ℚ).update_model
          emptyState (pyRange 0 1) 1 "HH_0_" true).m.semCtr c =
          ⟨"HH_0_" ++ "EV_0" ++ "_pwr_max_" ++ toString (0 : ℤ), Sense.L, 0,
            (([("HH_0_" ++ "EV_0" ++ "_pwr_" ++ toString (0 : ℤ), (1 : ℚ)),
               ("HH_0_" ++ "EV_0" ++ "_u_" ++ toString (0 : ℤ),
                 -1 * listIdx ([7] : List ℚ) 0)]) : List (String × ℚ))⟩)) :=
  ⟨by decide, by decide,
    C7_deferrable_declarations (⟨"EV_0", [1], [7], 10, 10⟩ : DeferrableLoad ℚ)
      emptyState (pyRange 0 1) 1 "HH_0_" true (j := 0) (t := 0) (by decide) (by decide)⟩

/-! ## Row-local semantics and block lemmas -/

/-- The row's own linear form: `Σ coeff * x(var) <sense> rhs` over the row's
`lin_expr` terms.  (In the generated models, `columns` contributions only ever
target the household/aggregator linking rows, so for every device-created row
this is the full row.). -/
def SemCtr.rowHolds (c : SemCtr F) (x : String → F) : Prop :=
  c.sense.sat (c.terms.map fun p => p.2 * x p.1).sum c.rhs

/-- A four-term equality row `1*sc - eta*sp - ca*chg + cb*dis = rhs` says
exactly `sc = eta*sp + ca*chg - cb*dis + rhs`. -/
theorem rowHolds_energy_balance (nm sc sp chg dis : String) (eta ca cb rhs : F)
    (x : String → F) :
    SemCtr.rowHolds (⟨nm, Sense.E, rhs,
        (([(sc, (1 : F)), (sp, -eta), (chg, -ca), (dis, cb)]) : List (String × F))⟩ :
      SemCtr F) x ↔
      x sc = eta * x sp + ca * x chg - cb * x dis + rhs := by
  show (1 : F) * x sc + (-eta * x sp + (-ca * x chg + (cb * x dis + 0))) = rhs ↔ _
  constructor <;> intro h <;> linarith

/-- A three-term equality row `1*sc - ca*chg + cb*dis = rhs` says exactly
`sc = rhs + ca*chg - cb*dis`. -/
theorem rowHolds_energy_balance0 (nm sc chg dis : String) (ca cb rhs : F)
    (x : String → F) :
    SemCtr.rowHolds (⟨nm, Sense.E, rhs,
        (([(sc, (1 : F)), (chg, -ca), (dis, cb)]) : List (String × F))⟩ :
      SemCtr F) x ↔
      x sc = rhs + ca * x chg - cb * x dis := by
  show (1 : F) * x sc + (-ca * x chg + (cb * x dis + 0)) = rhs ↔ _
  constructor <;> intro h <;> linarith

/-- If `m2`'s variable list extends `base` followed by a `variables.add`
batch, the index `base.length + j` carries the `j`-th name of the batch. -/
theorem Model.varName_block {m2 : Model F} (base : List (VarInfo F))
    (objs : List F) (lbs ubs : List (Option F)) (ty : List Bool)
    (cols : List (List (ℕ × F))) {names : List String} {j : ℕ} {k : String}
    (hj : names.get? j = some k)
    (hpre : ∃ l, m2.vars = base ++ names.mapIdx (mkVarRec objs lbs ubs ty cols) ++ l) :
    m2.varName (base.length + j) = k := by
  rcases hpre with ⟨l, hl⟩
  have hjlt : j < names.length := (List.get?_eq_some.mp hj).1
  have hget : m2.vars.get? (base.length + j) = some (mkVarRec objs lbs ubs ty cols j k) := by
    rw [hl, List.append_assoc, List.get?_append_right (Nat.le_add_right _ _),
      Nat.add_sub_cancel_left, List.get?_append (by simpa using hjlt),
      get?_mapIdx, hj]
    rfl
  exact varName_of_get? hget

/-- Same, returning the variable record's membership. -/
theorem Model.mem_vars_block {m2 : Model F} (base : List (VarInfo F))
    (objs : List F) (lbs ubs : List (Option F)) (ty : List Bool)
    (cols : List (List (ℕ × F))) {names : List String} {j : ℕ} {k : String}
    (hj : names.get? j = some k)
    (hpre : ∃ l, m2.vars = base ++ names.mapIdx (mkVarRec objs lbs ubs ty cols) ++ l) :
    mkVarRec objs lbs ubs ty cols j k ∈ m2.vars := by
  rcases hpre with ⟨l, hl⟩
  have hjlt : j < names.length := (List.get?_eq_some.mp hj).1
  rw [hl]
  refine List.mem_append_left _ (List.mem_append_right _ ?_)
  refine List.get?_mem (n := j) ?_
  rw [get?_mapIdx, hj]
  rfl

/-- If `m2`'s constraint list extends `base` followed by a
`linear_constraints.add` batch, the batch's `j`-th record is a member. -/
theorem Model.mem_ctrs_block {m2 : Model F} (base : List (CtrInfo F))
    (senses : List Sense) (rhss : List F) (exprs : List (List (ℕ × F)))
    {names : List String} {j : ℕ} {nm : String} (hj : names.get? j = some nm)
    (hpre : ∃ l, m2.ctrs = base ++ names.mapIdx (mkCtrRec senses rhss exprs) ++ l) :
    mkCtrRec senses rhss exprs j nm ∈ m2.ctrs := by
  rcases hpre with ⟨l, hl⟩
  rw [hl]
  refine List.mem_append_left _ (List.mem_append_right _ ?_)
  refine List.get?_mem (n := j) ?_
  rw [get?_mapIdx, hj]
  rfl

/-- **C1.**  For every `Battery` device, `update_model` (instantiated with
`np.exp = Real.exp`, `np.log = Real.log`) adds equality energy-balance rows
with decay factor `eta = exp(-ln 2 * delta_t / half_life)`: the row
`ener_cons_0` is `soc_0 = eta*soc_init + delta_t*eff_chg*pwr_chg_0 -
delta_t/eff_dis*pwr_dis_0`, and for every later window step `t` the row
`ener_cons_t` is `soc_t = eta*soc_(t-1) + delta_t*eff_chg*pwr_chg_t -
delta_t/eff_dis*pwr_dis_t`.  The duplicate-freedom hypothesis is the
generator's key-uniqueness invariant; `hj0`/`hjt`/`hjp` locate `0`, `t` and
`t-1` in the time window (for `time_window = [0, …, T-1]` they hold for every
`0 < t < T`). -/
theorem C1_battery_energy_balance (b : Battery ℝ) (st : BuildState ℝ)
    (tw : List ℤ) (delta_t : ℝ) (r : String) (bin : Bool)
    (hnd : ((tw.map fun t => r ++ b.label ++ "_pwr_chg_" ++ toString t) ++
        ((tw.map fun t => r ++ b.label ++ "_pwr_dis_" ++ toString t) ++
        ((tw.map fun t => r ++ b.label ++ "_soc_" ++ toString t) ++
        ((tw.map fun t => r ++ b.label ++ "_chg_ind_" ++ toString t) ++
         (tw.map fun t => r ++ b.label ++ "_dis_ind_" ++ toString t))))).Nodup)
    {i j p : ℕ} {t : ℤ}
    (hj0 : tw.get? i = some 0)
    (hjt : (tw.drop 1).get? j = some t)
    (hjp : tw.get? p = some (t - 1)) :
    (∃ c ∈ (b.update_model Real.exp Real.log st tw delta_t r bin).m.ctrs,
        (b.update_model Real.exp Real.log st tw delta_t r bin).m.semCtr c =
          ⟨r ++ b.label ++ "_ener_cons_0", Sense.E, (Real.exp (-Real.log 2 * delta_t / b.half_life)) * b.soc_init,
            (([(r ++ b.label ++ "_soc_0", (1 : ℝ)),
               (r ++ b.label ++ "_pwr_chg_0", -delta_t * b.eff_chg),
               (r ++ b.label ++ "_pwr_dis_0", delta_t / b.eff_dis)]) :
              List (String × ℝ))⟩) ∧
    (∀ x : String → ℝ,
      SemCtr.rowHolds (⟨r ++ b.label ++ "_ener_cons_0", Sense.E,
          (Real.exp (-Real.log 2 * delta_t / b.half_life)) * b.soc_init,
          (([(r ++ b.label ++ "_soc_0", (1 : ℝ)),
             (r ++ b.label ++ "_pwr_chg_0", -delta_t * b.eff_chg),
             (r ++ b.label ++ "_pwr_dis_0", delta_t / b.eff_dis)]) :
            List (String × ℝ))⟩ : SemCtr ℝ) x ↔
        x (r ++ b.label ++ "_soc_0") =
          (Real.exp (-Real.log 2 * delta_t / b.half_life)) * b.soc_init
          + delta_t * b.eff_chg * x (r ++ b.label ++ "_pwr_chg_0")
          - delta_t / b.eff_dis * x (r ++ b.label ++ "_pwr_dis_0")) ∧
    (∃ c ∈ (b.update_model Real.exp Real.log st tw delta_t r bin).m.ctrs,
        (b.update_model Real.exp Real.log st tw delta_t r bin).m.semCtr c =
          ⟨r ++ b.label ++ "_ener_cons_" ++ toString t, Sense.E, 0,
            (([((r ++ b.label ++ "_soc_" ++ toString t), (1 : ℝ)),
               ((r ++ b.label ++ "_soc_" ++ toString (t - 1)), -(Real.exp (-Real.log 2 * delta_t / b.half_life))),
               ((r ++ b.label ++ "_pwr_chg_" ++ toString t), -delta_t * b.eff_chg),
               ((r ++ b.label ++ "_pwr_dis_" ++ toString t), delta_t / b.eff_dis)]) : List (String × ℝ))⟩) ∧
    (∀ x : String → ℝ,
      SemCtr.rowHolds (⟨r ++ b.label ++ "_ener_cons_" ++ toString t, Sense.E, 0,
          (([((r ++ b.label ++ "_soc_" ++ toString t), (1 : ℝ)),
             ((r ++ b.label ++ "_soc_" ++ toString (t - 1)), -(Real.exp (-Real.log 2 * delta_t / b.half_life))),
             ((r ++ b.label ++ "_pwr_chg_" ++ toString t), -delta_t * b.eff_chg),
             ((r ++ b.label ++ "_pwr_dis_" ++ toString t), delta_t / b.eff_dis)]) : List (String × ℝ))⟩ : SemCtr ℝ) x ↔
        x (r ++ b.label ++ "_soc_" ++ toString t) =
          (Real.exp (-Real.log 2 * delta_t / b.half_life)) * x (r ++ b.label ++ "_soc_" ++ toString (t - 1))
          + delta_t * b.eff_chg * x (r ++ b.label ++ "_pwr_chg_" ++ toString t)
          - delta_t / b.eff_dis * x (r ++ b.label ++ "_pwr_dis_" ++ toString t)) := by
  have h1 := List.nodup_append.mp hnd
  have h2 := List.nodup_append.mp h1.2.1
  have h3 := List.nodup_append.mp h2.2.1
  have hjq : tw.get? (1 + j) = some t := by rw [← List.get?_drop]; exact hjt
  -- registry resolution for the three power/soc families
  have hresChg : ∀ {j2 : ℕ} {t2 : ℤ}, tw.get? j2 = some t2 →
      dictGet (b.update_model Real.exp Real.log st tw delta_t r bin).var2idx (r ++ b.label ++ "_pwr_chg_" ++ toString t2) = st.m.vars.length + j2 := by
    intro j2 t2 hj2
    have hget : (tw.map fun t => r ++ b.label ++ "_pwr_chg_" ++ toString t).get? j2 = some (r ++ b.label ++ "_pwr_chg_" ++ toString t2) := by
      rw [List.get?_map, hj2]; rfl
    have hmem : (r ++ b.label ++ "_pwr_chg_" ++ toString t2) ∈ (tw.map fun t => r ++ b.label ++ "_pwr_chg_" ++ toString t) := List.get?_mem hget
    have hnotDi : (r ++ b.label ++ "_pwr_chg_" ++ toString t2) ∉ (tw.map fun t => r ++ b.label ++ "_dis_ind_" ++ toString t) := fun hc =>
      h1.2.2 hmem (List.mem_append_right _ (List.mem_append_right _
        (List.mem_append_right _ hc)))
    have hnotCi : (r ++ b.label ++ "_pwr_chg_" ++ toString t2) ∉ (tw.map fun t => r ++ b.label ++ "_chg_ind_" ++ toString t) := fun hc =>
      h1.2.2 hmem (List.mem_append_right _ (List.mem_append_right _
        (List.mem_append_left _ hc)))
    have hnotSoc : (r ++ b.label ++ "_pwr_chg_" ++ toString t2) ∉ (tw.map fun t => r ++ b.label ++ "_soc_" ++ toString t) := fun hc =>
      h1.2.2 hmem (List.mem_append_right _ (List.mem_append_left _ hc))
    have hnotDis : (r ++ b.label ++ "_pwr_chg_" ++ toString t2) ∉ (tw.map fun t => r ++ b.label ++ "_pwr_dis_" ++ toString t) := fun hc =>
      h1.2.2 hmem (List.mem_append_left _ hc)
    cases bin
    · simp only [Battery.update_model, Bool.false_eq_true, if_false,
        Model.variables_add_idx]
      rw [dictGet_update_zip_not_mem _ hnotDi, dictGet_update_zip_not_mem _ hnotCi,
        dictGet_update_zip_not_mem _ hnotSoc, dictGet_update_zip_not_mem _ hnotDis,
        dictGet_update_zip_range' _ h1.1 hget rfl]
    · simp only [Battery.update_model, if_true, Model.variables_add_idx]
      rw [dictGet_update_zip_not_mem _ hnotDi, dictGet_update_zip_not_mem _ hnotCi,
        dictGet_update_zip_not_mem _ hnotSoc, dictGet_update_zip_not_mem _ hnotDis,
        dictGet_update_zip_range' _ h1.1 hget rfl]
  have hresDis : ∀ {j2 : ℕ} {t2 : ℤ}, tw.get? j2 = some t2 →
      dictGet (b.update_model Real.exp Real.log st tw delta_t r bin).var2idx (r ++ b.label ++ "_pwr_dis_" ++ toString t2) = (st.m.vars ++ (tw.map fun t => r ++ b.label ++ "_pwr_chg_" ++ toString t).mapIdx (mkVarRec [] [] [] [] (tw.map fun t => [(dictGet st.ctr2idx (r ++ "link_netLoad_" ++ toString t), (1 : ℝ))]))).length + j2 := by
    intro j2 t2 hj2
    have hget : (tw.map fun t => r ++ b.label ++ "_pwr_dis_" ++ toString t).get? j2 = some (r ++ b.label ++ "_pwr_dis_" ++ toString t2) := by
      rw [List.get?_map, hj2]; rfl
    have hmem : (r ++ b.label ++ "_pwr_dis_" ++ toString t2) ∈ (tw.map fun t => r ++ b.label ++ "_pwr_dis_" ++ toString t) := List.get?_mem hget
    have hnotDi : (r ++ b.label ++ "_pwr_dis_" ++ toString t2) ∉ (tw.map fun t => r ++ b.label ++ "_dis_ind_" ++ toString t) := fun hc =>
      h2.2.2 hmem (List.mem_append_right _ (List.mem_append_right _ hc))
    have hnotCi : (r ++ b.label ++ "_pwr_dis_" ++ toString t2) ∉ (tw.map fun t => r ++ b.label ++ "_chg_ind_" ++ toString t) := fun hc =>
      h2.2.2 hmem (List.mem_append_right _ (List.mem_append_left _ hc))
    have hnotSoc : (r ++ b.label ++ "_pwr_dis_" ++ toString t2) ∉ (tw.map fun t => r ++ b.label ++ "_soc_" ++ toString t) := fun hc =>
      h2.2.2 hmem (List.mem_append_left _ hc)
    cases bin
    · simp only [Battery.update_model, Bool.false_eq_true, if_false,
        Model.variables_add_idx]
      rw [dictGet_update_zip_not_mem _ hnotDi, dictGet_update_zip_not_mem _ hnotCi,
        dictGet_update_zip_not_mem _ hnotSoc,
        dictGet_update_zip_range' _ h2.1 hget rfl]
      simp [List.length_mapIdx, Nat.add_assoc]
    · simp only [Battery.update_model, if_true, Model.variables_add_idx]
      rw [dictGet_update_zip_not_mem _ hnotDi, dictGet_update_zip_not_mem _ hnotCi,
        dictGet_update_zip_not_mem _ hnotSoc,
        dictGet_update_zip_range' _ h2.1 hget rfl]
      simp [List.length_mapIdx, Nat.add_assoc]
  have hresSoc : ∀ {j2 : ℕ} {t2 : ℤ}, tw.get? j2 = some t2 →
      dictGet (b.update_model Real.exp Real.log st tw delta_t r bin).var2idx (r ++ b.label ++ "_soc_" ++ toString t2) = (st.m.vars ++ (tw.map fun t => r ++ b.label ++ "_pwr_chg_" ++ toString t).mapIdx (mkVarRec [] [] [] [] (tw.map fun t => [(dictGet st.ctr2idx (r ++ "link_netLoad_" ++ toString t), (1 : ℝ))])) ++ (tw.map fun t => r ++ b.label ++ "_pwr_dis_" ++ toString t).mapIdx (mkVarRec [] [] [] [] (tw.map fun t => [(dictGet st.ctr2idx (r ++ "link_netLoad_" ++ toString t), (-1 : ℝ))]))).length + j2 := by
    intro j2 t2 hj2
    have hget : (tw.map fun t => r ++ b.label ++ "_soc_" ++ toString t).get? j2 = some (r ++ b.label ++ "_soc_" ++ toString t2) := by
      rw [List.get?_map, hj2]; rfl
    have hmem : (r ++ b.label ++ "_soc_" ++ toString t2) ∈ (tw.map fun t => r ++ b.label ++ "_soc_" ++ toString t) := List.get?_mem hget
    have hnotDi : (r ++ b.label ++ "_soc_" ++ toString t2) ∉ (tw.map fun t => r ++ b.label ++ "_dis_ind_" ++ toString t) := fun hc =>
      h3.2.2 hmem (List.mem_append_right _ hc)
    have hnotCi : (r ++ b.label ++ "_soc_" ++ toString t2) ∉ (tw.map fun t => r ++ b.label ++ "_chg_ind_" ++ toString t) := fun hc =>
      h3.2.2 hmem (List.mem_append_left _ hc)
    cases bin
    · simp only [Battery.update_model, Bool.false_eq_true, if_false,
        Model.variables_add_idx]
      rw [dictGet_update_zip_not_mem _ hnotDi, dictGet_update_zip_not_mem _ hnotCi,
        dictGet_update_zip_range' _ h3.1 hget rfl]
      simp [List.length_mapIdx, Nat.add_assoc]
    · simp only [Battery.update_model, if_true, Model.variables_add_idx]
      rw [dictGet_update_zip_not_mem _ hnotDi, dictGet_update_zip_not_mem _ hnotCi,
        dictGet_update_zip_range' _ h3.1 hget rfl]
      simp [List.length_mapIdx, Nat.add_assoc]
  -- variable names at those indices
  have hpreChg : ∃ l, (b.update_model Real.exp Real.log st tw delta_t r bin).m.vars =
      st.m.vars ++ (tw.map fun t => r ++ b.label ++ "_pwr_chg_" ++ toString t).mapIdx (mkVarRec [] [] [] [] (tw.map fun t => [(dictGet st.ctr2idx (r ++ "link_netLoad_" ++ toString t), (1 : ℝ))])) ++ l := by
    cases bin
    · exact ⟨_, by simp only [Battery.update_model, Bool.false_eq_true, if_false,
        Model.constraints_add_vars, Model.variables_add_vars, List.append_assoc]; rfl⟩
    · exact ⟨_, by simp only [Battery.update_model, if_true,
        Model.constraints_add_vars, Model.variables_add_vars, List.append_assoc]; rfl⟩
  have hpreDis : ∃ l, (b.update_model Real.exp Real.log st tw delta_t r bin).m.vars =
      (st.m.vars ++ (tw.map fun t => r ++ b.label ++ "_pwr_chg_" ++ toString t).mapIdx (mkVarRec [] [] [] [] (tw.map fun t => [(dictGet st.ctr2idx (r ++ "link_netLoad_" ++ toString t), (1 : ℝ))]))) ++ (tw.map fun t => r ++ b.label ++ "_pwr_dis_" ++ toString t).mapIdx (mkVarRec [] [] [] [] (tw.map fun t => [(dictGet st.ctr2idx (r ++ "link_netLoad_" ++ toString t), (-1 : ℝ))])) ++ l := by
    cases bin
    · exact ⟨_, by simp only [Battery.update_model, Bool.false_eq_true, if_false,
        Model.constraints_add_vars, Model.variables_add_vars, List.append_assoc]; rfl⟩
    · exact ⟨_, by simp only [Battery.update_model, if_true,
        Model.constraints_add_vars, Model.variables_add_vars, List.append_assoc]; rfl⟩
  have hpreSoc : ∃ l, (b.update_model Real.exp Real.log st tw delta_t r bin).m.vars =
      (st.m.vars ++ (tw.map fun t => r ++ b.label ++ "_pwr_chg_" ++ toString t).mapIdx (mkVarRec [] [] [] [] (tw.map fun t => [(dictGet st.ctr2idx (r ++ "link_netLoad_" ++ toString t), (1 : ℝ))])) ++ (tw.map fun t => r ++ b.label ++ "_pwr_dis_" ++ toString t).mapIdx (mkVarRec [] [] [] [] (tw.map fun t => [(dictGet st.ctr2idx (r ++ "link_netLoad_" ++ toString t), (-1 : ℝ))]))) ++ (tw.map fun t => r ++ b.label ++ "_soc_" ++ toString t).mapIdx (mkVarRec [] (tw.map fun _ => some b.soc_min) (tw.map fun _ => some b.soc_max) [] []) ++ l := by
    cases bin
    · exact ⟨_, by simp only [Battery.update_model, Bool.false_eq_true, if_false,
        Model.constraints_add_vars, Model.variables_add_vars, List.append_assoc]; rfl⟩
    · exact ⟨_, by simp only [Battery.update_model, if_true,
        Model.constraints_add_vars, Model.variables_add_vars, List.append_assoc]; rfl⟩
  have hvnChg : ∀ {j2 : ℕ} {t2 : ℤ}, tw.get? j2 = some t2 →
      (b.update_model Real.exp Real.log st tw delta_t r bin).m.varName (st.m.vars.length + j2) = (r ++ b.label ++ "_pwr_chg_" ++ toString t2) := by
    intro j2 t2 hj2
    exact Model.varName_block st.m.vars [] [] [] [] (tw.map fun t => [(dictGet st.ctr2idx (r ++ "link_netLoad_" ++ toString t), (1 : ℝ))])
      (by rw [List.get?_map, hj2]; rfl) hpreChg
  have hvnDis : ∀ {j2 : ℕ} {t2 : ℤ}, tw.get? j2 = some t2 →
      (b.update_model Real.exp Real.log st tw delta_t r bin).m.varName ((st.m.vars ++ (tw.map fun t => r ++ b.label ++ "_pwr_chg_" ++ toString t).mapIdx (mkVarRec [] [] [] [] (tw.map fun t => [(dictGet st.ctr2idx (r ++ "link_netLoad_" ++ toString t), (1 : ℝ))]))).length + j2) = (r ++ b.label ++ "_pwr_dis_" ++ toString t2) := by
    intro j2 t2 hj2
    exact Model.varName_block (st.m.vars ++ (tw.map fun t => r ++ b.label ++ "_pwr_chg_" ++ toString t).mapIdx (mkVarRec [] [] [] [] (tw.map fun t => [(dictGet st.ctr2idx (r ++ "link_netLoad_" ++ toString t), (1 : ℝ))]))) [] [] [] [] (tw.map fun t => [(dictGet st.ctr2idx (r ++ "link_netLoad_" ++ toString t), (-1 : ℝ))])
      (by rw [List.get?_map, hj2]; rfl) hpreDis
  have hvnSoc : ∀ {j2 : ℕ} {t2 : ℤ}, tw.get? j2 = some t2 →
      (b.update_model Real.exp Real.log st tw delta_t r bin).m.varName ((st.m.vars ++ (tw.map fun t => r ++ b.label ++ "_pwr_chg_" ++ toString t).mapIdx (mkVarRec [] [] [] [] (tw.map fun t => [(dictGet st.ctr2idx (r ++ "link_netLoad_" ++ toString t), (1 : ℝ))])) ++ (tw.map fun t => r ++ b.label ++ "_pwr_dis_" ++ toString t).mapIdx (mkVarRec [] [] [] [] (tw.map fun t => [(dictGet st.ctr2idx (r ++ "link_netLoad_" ++ toString t), (-1 : ℝ))]))).length + j2) = (r ++ b.label ++ "_soc_" ++ toString t2) := by
    intro j2 t2 hj2
    exact Model.varName_block (st.m.vars ++ (tw.map fun t => r ++ b.label ++ "_pwr_chg_" ++ toString t).mapIdx (mkVarRec [] [] [] [] (tw.map fun t => [(dictGet st.ctr2idx (r ++ "link_netLoad_" ++ toString t), (1 : ℝ))])) ++ (tw.map fun t => r ++ b.label ++ "_pwr_dis_" ++ toString t).mapIdx (mkVarRec [] [] [] [] (tw.map fun t => [(dictGet st.ctr2idx (r ++ "link_netLoad_" ++ toString t), (-1 : ℝ))]))) [] (tw.map fun _ => some b.soc_min) (tw.map fun _ => some b.soc_max) [] []
      (by rw [List.get?_map, hj2]; rfl) hpreSoc
  -- rewrite the literal "0" keys through the generic `toString 0` keys
  have hkeyS : (r ++ b.label ++ "_soc_" ++ toString (0 : ℤ)) = r ++ b.label ++ "_soc_0" := by
    rw [String.append_assoc (r ++ b.label) "_soc_" (toString (0 : ℤ))]
    congr 1
  have hkeyC : (r ++ b.label ++ "_pwr_chg_" ++ toString (0 : ℤ)) = r ++ b.label ++ "_pwr_chg_0" := by
    rw [String.append_assoc (r ++ b.label) "_pwr_chg_" (toString (0 : ℤ))]
    congr 1
  have hkeyD : (r ++ b.label ++ "_pwr_dis_" ++ toString (0 : ℤ)) = r ++ b.label ++ "_pwr_dis_0" := by
    rw [String.append_assoc (r ++ b.label) "_pwr_dis_" (toString (0 : ℤ))]
    congr 1
  have hresS0 := hresSoc hj0
  have hresC0 := hresChg hj0
  have hresD0 := hresDis hj0
  rw [hkeyS] at hresS0
  rw [hkeyC] at hresC0
  rw [hkeyD] at hresD0
  have hvnS0 := hvnSoc hj0
  have hvnC0 := hvnChg hj0
  have hvnD0 := hvnDis hj0
  rw [hkeyS] at hvnS0
  rw [hkeyC] at hvnC0
  rw [hkeyD] at hvnD0
  have hresSt := hresSoc hjq
  have hresSp := hresSoc hjp
  have hresCt := hresChg hjq
  have hresDt := hresDis hjq
  have hvnSt := hvnSoc hjq
  have hvnSp := hvnSoc hjp
  have hvnCt := hvnChg hjq
  have hvnDt := hvnDis hjq
  have hjlt1 : j < (tw.drop 1).length := (List.get?_eq_some.mp hjt).1
  have hmem0 : mkCtrRec [Sense.E] [(Real.exp (-Real.log 2 * delta_t / b.half_life)) * b.soc_init]
      [[(dictGet (b.update_model Real.exp Real.log st tw delta_t r bin).var2idx (r ++ b.label ++ "_soc_0"), (1 : ℝ)),
      (dictGet (b.update_model Real.exp Real.log st tw delta_t r bin).var2idx (r ++ b.label ++ "_pwr_chg_0"), -delta_t * b.eff_chg),
      (dictGet (b.update_model Real.exp Real.log st tw delta_t r bin).var2idx (r ++ b.label ++ "_pwr_dis_0"), delta_t / b.eff_dis)]] 0 (r ++ b.label ++ "_ener_cons_0") ∈ (b.update_model Real.exp Real.log st tw delta_t r bin).m.ctrs := by
    refine Model.mem_ctrs_block st.m.ctrs [Sense.E] [(Real.exp (-Real.log 2 * delta_t / b.half_life)) * b.soc_init]
      [[(dictGet (b.update_model Real.exp Real.log st tw delta_t r bin).var2idx (r ++ b.label ++ "_soc_0"), (1 : ℝ)),
      (dictGet (b.update_model Real.exp Real.log st tw delta_t r bin).var2idx (r ++ b.label ++ "_pwr_chg_0"), -delta_t * b.eff_chg),
      (dictGet (b.update_model Real.exp Real.log st tw delta_t r bin).var2idx (r ++ b.label ++ "_pwr_dis_0"), delta_t / b.eff_dis)]] (j := 0)
      (show ([(r ++ b.label ++ "_ener_cons_0")] : List String).get? 0 =
        some (r ++ b.label ++ "_ener_cons_0") from rfl) ?_
    cases bin
    · exact ⟨_, by simp only [Battery.update_model, Bool.false_eq_true, if_false,
        Model.constraints_add_ctrs, Model.variables_add_ctrs, List.append_assoc]; rfl⟩
    · exact ⟨_, by simp only [Battery.update_model, if_true,
        Model.constraints_add_ctrs, Model.variables_add_ctrs, List.append_assoc]; rfl⟩
  have hmemt : mkCtrRec ((tw.drop 1).map fun _ => Sense.E) []
      ((tw.drop 1).map fun t =>
      [(dictGet (b.update_model Real.exp Real.log st tw delta_t r bin).var2idx (r ++ b.label ++ "_soc_" ++ toString t), (1 : ℝ)),
       (dictGet (b.update_model Real.exp Real.log st tw delta_t r bin).var2idx (r ++ b.label ++ "_soc_" ++ toString (t - 1)), -(Real.exp (-Real.log 2 * delta_t / b.half_life))),
       (dictGet (b.update_model Real.exp Real.log st tw delta_t r bin).var2idx (r ++ b.label ++ "_pwr_chg_" ++ toString t), -delta_t * b.eff_chg),
       (dictGet (b.update_model Real.exp Real.log st tw delta_t r bin).var2idx (r ++ b.label ++ "_pwr_dis_" ++ toString t), delta_t / b.eff_dis)]) j (r ++ b.label ++ "_ener_cons_" ++ toString t) ∈ (b.update_model Real.exp Real.log st tw delta_t r bin).m.ctrs := by
    refine Model.mem_ctrs_block (st.m.ctrs ++ [(r ++ b.label ++ "_ener_cons_0")].mapIdx (mkCtrRec [Sense.E] [(Real.exp (-Real.log 2 * delta_t / b.half_life)) * b.soc_init] [[(dictGet (b.update_model Real.exp Real.log st tw delta_t r bin).var2idx (r ++ b.label ++ "_soc_0"), (1 : ℝ)),
      (dictGet (b.update_model Real.exp Real.log st tw delta_t r bin).var2idx (r ++ b.label ++ "_pwr_chg_0"), -delta_t * b.eff_chg),
      (dictGet (b.update_model Real.exp Real.log st tw delta_t r bin).var2idx (r ++ b.label ++ "_pwr_dis_0"), delta_t / b.eff_dis)]])) ((tw.drop 1).map fun _ => Sense.E) []
      ((tw.drop 1).map fun t =>
      [(dictGet (b.update_model Real.exp Real.log st tw delta_t r bin).var2idx (r ++ b.label ++ "_soc_" ++ toString t), (1 : ℝ)),
       (dictGet (b.update_model Real.exp Real.log st tw delta_t r bin).var2idx (r ++ b.label ++ "_soc_" ++ toString (t - 1)), -(Real.exp (-Real.log 2 * delta_t / b.half_life))),
       (dictGet (b.update_model Real.exp Real.log st tw delta_t r bin).var2idx (r ++ b.label ++ "_pwr_chg_" ++ toString t), -delta_t * b.eff_chg),
       (dictGet (b.update_model Real.exp Real.log st tw delta_t r bin).var2idx (r ++ b.label ++ "_pwr_dis_" ++ toString t), delta_t / b.eff_dis)])
      (j := j) (by rw [List.get?_map, hjt]; rfl) ?_
    cases bin
    · exact ⟨_, by simp only [Battery.update_model, Bool.false_eq_true, if_false,
        Model.constraints_add_ctrs, Model.variables_add_ctrs, List.append_assoc]; rfl⟩
    · exact ⟨_, by simp only [Battery.update_model, if_true,
        Model.constraints_add_ctrs, Model.variables_add_ctrs, List.append_assoc]; rfl⟩
  refine ⟨⟨_, hmem0, ?_⟩, ?_, ⟨_, hmemt, ?_⟩, ?_⟩
  · simp only [Model.semCtr, mkCtrRec, List.getD_cons_zero, List.map_cons,
      List.map_nil, hresS0, hresC0, hresD0, hvnS0, hvnC0, hvnD0]
  · intro x
    simp only [SemCtr.rowHolds, Sense.sat, Multiset.map_coe, Multiset.sum_coe,
      List.map_cons, List.map_nil, List.sum_cons, List.sum_nil]
    constructor <;> intro h <;> linarith
  · simp only [Model.semCtr, mkCtrRec, getD_map_of_get? hjt, getD_map_const hjlt1,
      List.map_cons, List.map_nil, hresSt, hresSp, hresCt, hresDt,
      hvnSt, hvnSp, hvnCt, hvnDt]
    rfl
  · intro x
    simp only [SemCtr.rowHolds, Sense.sat, Multiset.map_coe, Multiset.sum_coe,
      List.map_cons, List.map_nil, List.sum_cons, List.sum_nil]
    constructor <;> intro h <;> linarith

/-- Witness for `C1_battery_energy_balance` at a concrete two-step window. -/
theorem C1_battery_energy_balance_witness :
    (((pyRange 0 2).map fun t => "HH_0_" ++ "bat" ++ "_pwr_chg_" ++ toString t) ++
      (((pyRange 0 2).map fun t => "HH_0_" ++ "bat" ++ "_pwr_dis_" ++ toString t) ++
      (((pyRange 0 2).map fun t => "HH_0_" ++ "bat" ++ "_soc_" ++ toString t) ++
      (((pyRange 0 2).map fun t => "HH_0_" ++ "bat" ++ "_chg_ind_" ++ toString t) ++
       ((pyRange 0 2).map fun t => "HH_0_" ++ "bat" ++ "_dis_ind_" ++ toString t))))).Nodup ∧
    ((pyRange 0 2).get? 0 = some 0) ∧
    (((pyRange 0 2).drop 1).get? 0 = some 1) ∧
    ((pyRange 0 2).get? 0 = some ((1 : ℤ) - 1)) ∧
    ((∃ c ∈ ((⟨"bat", 0, 5, 0, 5, 0, 10, 2, 1, 1, 100⟩ : Battery ℝ).update_model Real.exp Real.log emptyState (pyRange 0 2) 1 "HH_0_" true).m.ctrs,
        ((⟨"bat", 0, 5, 0, 5, 0, 10, 2, 1, 1, 100⟩ : Battery ℝ).update_model Real.exp Real.log emptyState (pyRange 0 2) 1 "HH_0_" true).m.semCtr c =
          ⟨"HH_0_" ++ "bat" ++ "_ener_cons_0", Sense.E,
            Real.exp (-Real.log 2 * 1 / ((⟨"bat", 0, 5, 0, 5, 0, 10, 2, 1, 1, 100⟩ : Battery ℝ)).half_life) * ((⟨"bat", 0, 5, 0, 5, 0, 10, 2, 1, 1, 100⟩ : Battery ℝ)).soc_init,
            (([("HH_0_" ++ "bat" ++ "_soc_0", (1 : ℝ)),
               ("HH_0_" ++ "bat" ++ "_pwr_chg_0", -1 * ((⟨"bat", 0, 5, 0, 5, 0, 10, 2, 1, 1, 100⟩ : Battery ℝ)).eff_chg),
               ("HH_0_" ++ "bat" ++ "_pwr_dis_0", 1 / ((⟨"bat", 0, 5, 0, 5, 0, 10, 2, 1, 1, 100⟩ : Battery ℝ)).eff_dis)]) :
              List (String × ℝ))⟩) ∧
     (∀ x : String → ℝ,
      SemCtr.rowHolds (⟨"HH_0_" ++ "bat" ++ "_ener_cons_0", Sense.E,
          Real.exp (-Real.log 2 * 1 / ((⟨"bat", 0, 5, 0, 5, 0, 10, 2, 1, 1, 100⟩ : Battery ℝ)).half_life) * ((⟨"bat", 0, 5, 0, 5, 0, 10, 2, 1, 1, 100⟩ : Battery ℝ)).soc_init,
          (([("HH_0_" ++ "bat" ++ "_soc_0", (1 : ℝ)),
             ("HH_0_" ++ "bat" ++ "_pwr_chg_0", -1 * ((⟨"bat", 0, 5, 0, 5, 0, 10, 2, 1, 1, 100⟩ : Battery ℝ)).eff_chg),
             ("HH_0_" ++ "bat" ++ "_pwr_dis_0", 1 / ((⟨"bat", 0, 5, 0, 5, 0, 10, 2, 1, 1, 100⟩ : Battery ℝ)).eff_dis)]) :
            List (String × ℝ))⟩ : SemCtr ℝ) x ↔
        x ("HH_0_" ++ "bat" ++ "_soc_0") =
          Real.exp (-Real.log 2 * 1 / ((⟨"bat", 0, 5, 0, 5, 0, 10, 2, 1, 1, 100⟩ : Battery ℝ)).half_life) * ((⟨"bat", 0, 5, 0, 5, 0, 10, 2, 1, 1, 100⟩ : Battery ℝ)).soc_init
          + 1 * ((⟨"bat", 0, 5, 0, 5, 0, 10, 2, 1, 1, 100⟩ : Battery ℝ)).eff_chg * x ("HH_0_" ++ "bat" ++ "_pwr_chg_0")
          - 1 / ((⟨"bat", 0, 5, 0, 5, 0, 10, 2, 1, 1, 100⟩ : Battery ℝ)).eff_dis * x ("HH_0_" ++ "bat" ++ "_pwr_dis_0")) ∧
     (∃ c ∈ ((⟨"bat", 0, 5, 0, 5, 0, 10, 2, 1, 1, 100⟩ : Battery ℝ).update_model Real.exp Real.log emptyState (pyRange 0 2) 1 "HH_0_" true).m.ctrs,
        ((⟨"bat", 0, 5, 0, 5, 0, 10, 2, 1, 1, 100⟩ : Battery ℝ).update_model Real.exp Real.log emptyState (pyRange 0 2) 1 "HH_0_" true).m.semCtr c =
          ⟨"HH_0_" ++ "bat" ++ "_ener_cons_" ++ toString (1 : ℤ), Sense.E, 0,
            (([(("HH_0_" ++ "bat" ++ "_soc_" ++ toString (1 : ℤ)), (1 : ℝ)),
               (("HH_0_" ++ "bat" ++ "_soc_" ++ toString ((1 : ℤ) - 1)),
                 -Real.exp (-Real.log 2 * 1 / ((⟨"bat", 0, 5, 0, 5, 0, 10, 2, 1, 1, 100⟩ : Battery ℝ)).half_life)),
               (("HH_0_" ++ "bat" ++ "_pwr_chg_" ++ toString (1 : ℤ)), -1 * ((⟨"bat", 0, 5, 0, 5, 0, 10, 2, 1, 1, 100⟩ : Battery ℝ)).eff_chg),
               (("HH_0_" ++ "bat" ++ "_pwr_dis_" ++ toString (1 : ℤ)), 1 / ((⟨"bat", 0, 5, 0, 5, 0, 10, 2, 1, 1, 100⟩ : Battery ℝ)).eff_dis)]) :
              List (String × ℝ))⟩) ∧
     (∀ x : String → ℝ,
      SemCtr.rowHolds (⟨"HH_0_" ++ "bat" ++ "_ener_cons_" ++ toString (1 : ℤ), Sense.E, 0,
          (([(("HH_0_" ++ "bat" ++ "_soc_" ++ toString (1 : ℤ)), (1 : ℝ)),
             (("HH_0_" ++ "bat" ++ "_soc_" ++ toString ((1 : ℤ) - 1)),
               -Real.exp (-Real.log 2 * 1 / ((⟨"bat", 0, 5, 0, 5, 0, 10, 2, 1, 1, 100⟩ : Battery ℝ)).half_life)),
             (("HH_0_" ++ "bat" ++ "_pwr_chg_" ++ toString (1 : ℤ)), -1 * ((⟨"bat", 0, 5, 0, 5, 0, 10, 2, 1, 1, 100⟩ : Battery ℝ)).eff_chg),
             (("HH_0_" ++ "bat" ++ "_pwr_dis_" ++ toString (1 : ℤ)), 1 / ((⟨"bat", 0, 5, 0, 5, 0, 10, 2, 1, 1, 100⟩ : Battery ℝ)).eff_dis)]) :
            List (String × ℝ))⟩ : SemCtr ℝ) x ↔
        x ("HH_0_" ++ "bat" ++ "_soc_" ++ toString (1 : ℤ)) =
          Real.exp (-Real.log 2 * 1 / ((⟨"bat", 0, 5, 0, 5, 0, 10, 2, 1, 1, 100⟩ : Battery ℝ)).half_life) *
            x ("HH_0_" ++ "bat" ++ "_soc_" ++ toString ((1 : ℤ) - 1))
          + 1 * ((⟨"bat", 0, 5, 0, 5, 0, 10, 2, 1, 1, 100⟩ : Battery ℝ)).eff_chg * x ("HH_0_" ++ "bat" ++ "_pwr_chg_" ++ toString (1 : ℤ))
          - 1 / ((⟨"bat", 0, 5, 0, 5, 0, 10, 2, 1, 1, 100⟩ : Battery ℝ)).eff_dis * x ("HH_0_" ++ "bat" ++ "_pwr_dis_" ++ toString (1 : ℤ)))) :=
  ⟨by decide, by decide, by decide, by decide,
    C1_battery_energy_balance (⟨"bat", 0, 5, 0, 5, 0, 10, 2, 1, 1, 100⟩ : Battery ℝ) emptyState (pyRange 0 2) 1 "HH_0_" true
      (by decide) (i := 0) (j := 0) (p := 0) (t := 1)
      (by decide) (by decide) (by decide)⟩

/-- **C8 (amended).**  No constructor validates its parameters: building a
`ShiftableLoad` with `t_start_max[k] < t_start_min[k]` returns normally and
stores the inconsistent window verbatim (there is no `ParameterError`
anywhere in the code); the inconsistency surfaces only in the generated
model, where the exactly-one-start row of cycle `k` has an *empty* support
and right-hand side `1`, so no assignment whatsoever satisfies it (solver
infeasibility rather than a construction-time error). -/
theorem C8_no_construction_validation (label : String) (a b : List ℤ)
    (cs : List (List F)) (st : BuildState F) (tw : List ℤ) (delta_t : F)
    (r : String) (bin : Bool) {k : ℕ} (hk : k < cs.length)
    (hw : (ShiftableLoad.init label a b cs : ShiftableLoad F).t_start_max.getD k 0 <
          (ShiftableLoad.init label a b cs : ShiftableLoad F).t_start_min.getD k 0) :
    ((ShiftableLoad.init label a b cs : ShiftableLoad F).t_start_min = a ∧
     (ShiftableLoad.init label a b cs : ShiftableLoad F).t_start_max = b ∧
     (ShiftableLoad.init label a b cs : ShiftableLoad F).cycles = cs) ∧
    ∃ c ∈ ((ShiftableLoad.init label a b cs : ShiftableLoad F).update_model
        st tw delta_t r bin).m.ctrs,
      c.name = r ++ label ++ "_start_up_" ++ toString k ∧ c.sense = Sense.E ∧
      c.rhs = 1 ∧ c.terms = [] ∧
      ∀ x : String → F,
        ¬ ((((ShiftableLoad.init label a b cs : ShiftableLoad F).update_model
            st tw delta_t r bin).m.semCtr c).rowHolds x) := by
  have hwin : (ShiftableLoad.init label a b cs : ShiftableLoad F).window k = [] := by
    unfold ShiftableLoad.window pyRange
    have : ((ShiftableLoad.init label a b cs : ShiftableLoad F).t_start_max.getD k 0 + 1 -
        (ShiftableLoad.init label a b cs : ShiftableLoad F).t_start_min.getD k 0) ≤ 0 := by
      omega
    rw [Int.toNat_of_nonpos this]
    rfl
  have hkr : k < (List.range
      (ShiftableLoad.init label a b cs : ShiftableLoad F).n_cycles).length := by
    simpa [ShiftableLoad.init] using hk
  have hj : ((List.range (ShiftableLoad.init label a b cs : ShiftableLoad F).n_cycles).map
      fun k2 => r ++ (ShiftableLoad.init label a b cs : ShiftableLoad F).label ++
        "_start_up_" ++ toString k2).get? k =
      some (r ++ label ++ "_start_up_" ++ toString k) := by
    rw [List.get?_map, List.get?_range (by simpa using hkr)]
    rfl
  have hmem : mkCtrRec
      ((List.range (ShiftableLoad.init label a b cs : ShiftableLoad F).n_cycles).map
        fun _ => Sense.E)
      ((List.range (ShiftableLoad.init label a b cs : ShiftableLoad F).n_cycles).map
        fun _ => (1 : F))
      ((List.range (ShiftableLoad.init label a b cs : ShiftableLoad F).n_cycles).map
        fun k2 => ((ShiftableLoad.init label a b cs : ShiftableLoad F).window k2).map
          fun t => (dictGet ((ShiftableLoad.init label a b cs : ShiftableLoad F).update_model
              st tw delta_t r bin).var2idx
            ((ShiftableLoad.init label a b cs : ShiftableLoad F).uKey r k2 t), (1 : F)))
      k (r ++ label ++ "_start_up_" ++ toString k) ∈
      ((ShiftableLoad.init label a b cs : ShiftableLoad F).update_model
        st tw delta_t r bin).m.ctrs := by
    refine Model.mem_ctrs_block st.m.ctrs _ _ _ hj ?_
    cases bin
    · exact ⟨_, by simp only [ShiftableLoad.update_model, Bool.false_eq_true, if_false,
        Model.constraints_add_ctrs, Model.variables_add_ctrs, List.append_assoc]; rfl⟩
    · exact ⟨_, by simp only [ShiftableLoad.update_model, if_true,
        Model.constraints_add_ctrs, Model.variables_add_ctrs, List.append_assoc]; rfl⟩
  have hterms : (((List.range
      (ShiftableLoad.init label a b cs : ShiftableLoad F).n_cycles).map
      fun k2 => ((ShiftableLoad.init label a b cs : ShiftableLoad F).window k2).map
        fun t => (dictGet ((ShiftableLoad.init label a b cs : ShiftableLoad F).update_model
            st tw delta_t r bin).var2idx
          ((ShiftableLoad.init label a b cs : ShiftableLoad F).uKey r k2 t),
          (1 : F))).getD k ([] : List (ℕ × F))) = [] := by
    rw [getD_map_of_get? (List.get?_range (by simpa using hkr)), hwin]
    rfl
  refine ⟨⟨rfl, rfl, rfl⟩, _, hmem, rfl, ?_, ?_, ?_, ?_⟩
  · show (((List.range _).map fun _ => Sense.E).getD k Sense.E) = Sense.E
    exact getD_map_const hkr
  · show (((List.range _).map fun _ => (1 : F)).getD k 0) = 1
    exact getD_map_const hkr
  · exact hterms
  · intro x hx
    rw [Model.semCtr] at hx
    unfold SemCtr.rowHolds at hx
    simp only [mkCtrRec, hterms, List.map_nil, getD_map_const hkr, Multiset.coe_nil,
      Multiset.map_zero, Multiset.sum_zero, Sense.sat] at hx
    exact zero_ne_one hx

/-- Witness for C8: a concrete `ShiftableLoad` with `t_start_max[0] = 2 <
5 = t_start_min[0]` is constructed without error and yields an
unsatisfiable `start_up_0` row. -/
theorem C8_no_construction_validation_witness :
    ∃ c ∈ ((ShiftableLoad.init "SL" [5] [2] [[(1 : ℚ)]]).update_model
        emptyState (pyRange 0 3) 1 "HH_0_" true).m.ctrs,
      c.name = "HH_0_" ++ "SL" ++ "_start_up_" ++ toString (0 : ℕ) ∧ c.sense = Sense.E ∧
      c.rhs = 1 ∧ c.terms = [] ∧
      ∀ x : String → ℚ,
        ¬ ((((ShiftableLoad.init "SL" [5] [2] [[(1 : ℚ)]]).update_model
            emptyState (pyRange 0 3) 1 "HH_0_" true).m.semCtr c).rowHolds x) :=
  (C8_no_construction_validation "SL" [5] [2] [[(1 : ℚ)]] emptyState (pyRange 0 3) 1 "HH_0_"
    true (k := 0) (by decide) (by decide)).2

/-! ## Frame lemmas for `set_rhs` (the only mutation `FixedLoad` performs) -/

theorem Model.set_rhs_nil (m : Model F) : m.set_rhs [] = m := rfl

theorem Model.set_rhs_cons (m : Model F) (p : ℕ × F) (ps : List (ℕ × F)) :
    m.set_rhs (p :: ps) =
      ({ m with ctrs := m.ctrs.mapIdx fun j c =>
          if j = p.1 then { c with rhs := p.2 } else c } : Model F).set_rhs ps := rfl

theorem Model.set_rhs_append (m : Model F) (ps qs : List (ℕ × F)) :
    m.set_rhs (ps ++ qs) = (m.set_rhs ps).set_rhs qs := by
  induction ps generalizing m with
  | nil => rfl
  | cons p ps ih => rw [List.cons_append, Model.set_rhs_cons, ih, Model.set_rhs_cons]

theorem Model.set_rhs_ctrs_length (m : Model F) (ps : List (ℕ × F)) :
    (m.set_rhs ps).ctrs.length = m.ctrs.length := by
  induction ps generalizing m with
  | nil => rfl
  | cons p ps ih =>
    rw [Model.set_rhs_cons, ih]
    simp [List.length_mapIdx]

theorem Model.set_rhs_get?_frame (m : Model F) (ps : List (ℕ × F)) (i : ℕ) :
    (((m.set_rhs ps).ctrs.get? i).map fun c => (c.name, c.sense, c.terms)) =
      ((m.ctrs.get? i).map fun c => (c.name, c.sense, c.terms)) := by
  induction ps generalizing m with
  | nil => rfl
  | cons p ps ih =>
    rw [Model.set_rhs_cons, ih]
    show ((m.ctrs.mapIdx _).get? i).map _ = _
    rw [get?_mapIdx]
    cases m.ctrs.get? i with
    | none => rfl
    | some c => by_cases h : i = p.1 <;> simp [h]

theorem Model.set_rhs_get?_not_mem (m : Model F) (ps : List (ℕ × F)) (i : ℕ)
    (h : ∀ p ∈ ps, p.1 ≠ i) :
    (m.set_rhs ps).ctrs.get? i = m.ctrs.get? i := by
  induction ps generalizing m with
  | nil => rfl
  | cons p ps ih =>
    rw [Model.set_rhs_cons, ih _ fun q hq => h q (List.mem_cons_of_mem p hq)]
    show (m.ctrs.mapIdx _).get? i = _
    rw [get?_mapIdx]
    cases m.ctrs.get? i with
    | none => rfl
    | some c =>
      have hne : ¬ i = p.1 := fun hc => h p (List.mem_cons_self p ps) hc.symm
      simp [hne]

theorem Model.set_rhs_single_get? (m : Model F) (i : ℕ) (v : F) :
    (m.set_rhs [(i, v)]).ctrs.get? i =
      (m.ctrs.get? i).map fun c => { c with rhs := v } := by
  rw [Model.set_rhs_cons, Model.set_rhs_nil]
  show (m.ctrs.mapIdx _).get? i = _
  rw [get?_mapIdx]
  cases m.ctrs.get? i with
  | none => rfl
  | some c => simp

/-- Last-write-wins in the special case where exactly one pair of the
`set_rhs` batch addresses index `i`. -/
theorem Model.set_rhs_split_get? (m : Model F) (ps1 ps2 : List (ℕ × F)) (i : ℕ) (v : F)
    (h1 : ∀ p ∈ ps1, p.1 ≠ i) (h2 : ∀ p ∈ ps2, p.1 ≠ i) :
    (m.set_rhs (ps1 ++ (i, v) :: ps2)).ctrs.get? i =
      (m.ctrs.get? i).map fun c => { c with rhs := v } := by
  rw [show ((i, v) :: ps2) = [(i, v)] ++ ps2 from rfl, Model.set_rhs_append,
    Model.set_rhs_append, Model.set_rhs_get?_not_mem _ ps2 i h2,
    Model.set_rhs_single_get?, Model.set_rhs_get?_not_mem _ ps1 i h1]

/-- Every constraint of a `linear_constraints.add` batch whose `rhs` argument
was omitted (`[]`) carries the CPLEX default right-hand side `0`. -/
theorem rhs_eq_zero_of_mem_block {names : List String} {senses : List Sense}
    {exprs : List (List (ℕ × F))} {c : CtrInfo F}
    (h : c ∈ names.mapIdx (mkCtrRec senses ([] : List F) exprs)) : c.rhs = 0 := by
  rcases List.mem_iff_get?.mp h with ⟨i, hi⟩
  rw [get?_mapIdx] at hi
  cases hn : names.get? i with
  | none => rw [hn] at hi; exact Option.noConfusion hi
  | some nm =>
    rw [hn, Option.map_some'] at hi
    injection hi with hi
    subst hi
    rfl

theorem get?_zipWith_of_get? {α β γ : Type _} {f : α → β → γ} {l1 : List α}
    {l2 : List β} {i : ℕ} {a : α} {b : β}
    (h1 : l1.get? i = some a) (h2 : l2.get? i = some b) :
    (List.zipWith f l1 l2).get? i = some (f a b) := by
  induction l1 generalizing l2 i with
  | nil => exact Option.noConfusion h1
  | cons x xs ih =>
    cases l2 with
    | nil => exact Option.noConfusion h2
    | cons y ys =>
      cases i with
      | zero =>
        injection h1 with h1
        injection h2 with h2
        subst h1
        subst h2
        rfl
      | succ n =>
        rw [List.zipWith_cons_cons]
        exact ih (by simpa using h1) (by simpa using h2)

/-- Stages I–II of `build_model` (everything that exists before the
household/device loop), as one build state. -/
def build_model_pre (time_window : List ℤ) (delta_t : F) (price_mkt : List F)
    (total_load_min total_load_max : List F) : BuildState F :=
  let m0 : Model F := { vars := [], ctrs := [] }
  let tlNames := time_window.map fun t => "totalLoad_" ++ toString t
  let p1 := m0.variables_add tlNames (price_mkt.map fun p => delta_t * p)
    (total_load_min.map some) (total_load_max.map some) [] []
  let v2idx := dictUpdate [] ((time_window.map fun t => "totalLoad" ++ toString t).zip p1.2)
  let ltNames := time_window.map fun t => "link_total_" ++ toString t
  let c1 := p1.1.linear_constraints_add ltNames [] []
    (time_window.map fun t => [(dictGet v2idx ("totalLoad" ++ toString t), (-1 : F))])
  let c2idx := dictUpdate [] ((time_window.map fun t => "totalLoad_link" ++ toString t).zip c1.2)
  { m := c1.1, var2idx := v2idx, ctr2idx := c2idx }

/-- `build_model` is the household/device fold applied to the pre-stage. -/
theorem build_model_eq_fold (fexp flog : F → F) (dev : List (List (Device F)))
    (time_window : List ℤ) (delta_t : F) (price_mkt : List F)
    (total_load_min total_load_max : List F) :
    build_model fexp flog dev time_window delta_t price_mkt
        total_load_min total_load_max =
      (dev.enum.foldl (fun acc hh =>
          hh.2.foldl (fun s d =>
              d.update_model fexp flog s time_window delta_t
                ("HH_" ++ toString hh.1 ++ "_") true)
            (build_model_household acc hh.1 time_window))
        (build_model_pre time_window delta_t price_mkt
          total_load_min total_load_max)).m :=
  rfl

/-- The record of the `j`-th `link_netLoad` constraint added by
`build_model_household`: sense `E` (equality), right-hand side `0`, name
`HH_<i>_link_netLoad_<t>`. -/
theorem build_model_household_link_record (st : BuildState F) (i_r : ℕ) (tw : List ℤ)
    {j : ℕ} (hj : j < tw.length) :
    ∃ c : CtrInfo F,
      (build_model_household st i_r tw).m.ctrs.get? (st.m.ctrs.length + j) = some c ∧
      c.name = "HH_" ++ toString i_r ++ "_" ++ "link_netLoad_" ++
        toString (tw.get ⟨j, hj⟩) ∧
      c.sense = Sense.E ∧ c.rhs = 0 := by
  have hnm : (tw.map fun t =>
      "HH_" ++ toString i_r ++ "_" ++ "link_netLoad_" ++ toString t).get? j =
      some ("HH_" ++ toString i_r ++ "_" ++ "link_netLoad_" ++
        toString (tw.get ⟨j, hj⟩)) := by
    rw [List.get?_map, List.get?_eq_get hj]
    rfl
  have h := Model.constraints_add_get?
    ((st.m.variables_add
      (tw.map fun t => "HH_" ++ toString i_r ++ "_" ++ "netLoad_" ++ toString t)
      [] [] (tw.map fun _ => some (10 : F)) []
      (tw.map fun t => [(dictGet st.ctr2idx ("totalLoad_link" ++ toString t),
        (1 : F))])).1)
    (tw.map fun t => "HH_" ++ toString i_r ++ "_" ++ "link_netLoad_" ++ toString t)
    (tw.map fun _ => Sense.E) []
    (tw.map fun t => [(dictGet (dictUpdate st.var2idx
        ((tw.map fun t2 => "HH_" ++ toString i_r ++ "_" ++ "netLoad_" ++ toString t2).zip
          ((st.m.variables_add
            (tw.map fun t2 => "HH_" ++ toString i_r ++ "_" ++ "netLoad_" ++ toString t2)
            [] [] (tw.map fun _ => some (10 : F)) []
            (tw.map fun t2 => [(dictGet st.ctr2idx ("totalLoad_link" ++ toString t2),
              (1 : F))])).2)))
        ("HH_" ++ toString i_r ++ "_" ++ "netLoad_" ++ toString t), (-1 : F))])
    j
  rw [hnm] at h
  simp only [Option.map_some'] at h
  refine ⟨_, h, rfl, ?_, rfl⟩
  show ((tw.map fun _ => Sense.E).getD j Sense.E) = Sense.E
  exact getD_map_const hj

/-- Core computation of `FixedLoad.update_model` over the canonical window
`range(T)`: when every pre-existing right-hand side is `0` and the linking
constraints are registered at consecutive indices `n0 + p`, the constraint at
index `n0 + j` ends with right-hand side `-load[j]` and nothing else about it
changes. -/
theorem FixedLoad.update_model_rhs {d : FixedLoad F} {st : BuildState F}
    {r : String} {T n0 j : ℕ} (delta_t : F) (bin : Bool)
    (hz : ∀ c ∈ st.m.ctrs, c.rhs = 0)
    (hres : ∀ p : ℕ, p < T →
      dictGet st.ctr2idx (r ++ "link_netLoad_" ++ toString ((p : ℤ))) = n0 + p)
    (hj : j < T) (hload : j < d.load.length) :
    (d.update_model st (pyRange 0 (T : ℤ)) delta_t r bin).m.ctrs.get? (n0 + j) =
      (st.m.ctrs.get? (n0 + j)).map fun c => { c with rhs := -(d.load.getD j 0) } := by
  have htw : pyRange 0 (T : ℤ) = (List.range T).map fun p : ℕ => (p : ℤ) := by
    unfold pyRange
    rw [sub_zero, Int.toNat_natCast]
    exact List.map_congr_left fun p _ => zero_add (p : ℤ)
  have hread : ∀ i : ℕ, ((st.m.ctrs.get? i).map CtrInfo.rhs).getD 0 = 0 := by
    intro i
    cases h : st.m.ctrs.get? i with
    | none => rfl
    | some c => simpa using hz c (List.get?_mem h)
  have h2 : d.load.get? j = some (d.load.getD j 0) := by
    rcases h : d.load.get? j with _ | x
    · exact absurd hload (Nat.not_lt.mpr (List.get?_eq_none.mp h))
    · rw [List.getD_eq_get?, h]
      rfl
  have hLj : (st.m.get_rhs ((pyRange 0 (T : ℤ)).map fun t2 =>
      dictGet st.ctr2idx (r ++ "link_netLoad_" ++ toString t2))).get? j = some 0 := by
    show ((((pyRange 0 (T : ℤ)).map fun t2 =>
        dictGet st.ctr2idx (r ++ "link_netLoad_" ++ toString t2)).map fun i =>
          ((st.m.ctrs.get? i).map CtrInfo.rhs).getD 0)).get? j = some 0
    rw [htw]
    simp only [List.map_map]
    rw [List.get?_map, List.get?_range hj]
    simp only [Option.map_some', Function.comp_apply]
    rw [hread]
  show (st.m.set_rhs ((pyRange 0 (T : ℤ)).map fun t =>
      (dictGet st.ctr2idx (r ++ "link_netLoad_" ++ toString t),
        listIdx ((st.m.get_rhs ((pyRange 0 (T : ℤ)).map fun t2 =>
            dictGet st.ctr2idx (r ++ "link_netLoad_" ++ toString t2))).zipWith
          (fun a b => a - b) d.load) t))).ctrs.get? (n0 + j) =
    (st.m.ctrs.get? (n0 + j)).map fun c => { c with rhs := -(d.load.getD j 0) }
  generalize hA : ((st.m.get_rhs ((pyRange 0 (T : ℤ)).map fun t2 =>
      dictGet st.ctr2idx (r ++ "link_netLoad_" ++ toString t2))).zipWith
    (fun a b => a - b) d.load) = A
  have hAj : listIdx A ((j : ℤ)) = -(d.load.getD j 0) := by
    rw [← hA]
    unfold listIdx
    rw [Int.toNat_natCast, get?_zipWith_of_get? hLj h2]
    simp [zero_sub]
  have hsplit : List.range T = List.range' 0 j ++ j :: List.range' (j + 1) (T - j - 1) := by
    rw [List.range_eq_range' T]
    have h1 := List.range'_append 0 j (T - j) 1
    simp only [Nat.zero_add, Nat.one_mul] at h1
    rw [show T - j + j = T from by omega] at h1
    rw [← h1]
    congr 1
    rw [show T - j = T - j - 1 + 1 from by omega]
    rfl
  rw [htw]
  simp only [List.map_map]
  rw [hsplit, List.map_append, List.map_cons]
  have hGj : (((fun t : ℤ => (dictGet st.ctr2idx (r ++ "link_netLoad_" ++ toString t),
      listIdx A t)) ∘ fun p : ℕ => ((p : ℤ)))) j = (n0 + j, listIdx A ((j : ℤ))) := by
    show (dictGet st.ctr2idx (r ++ "link_netLoad_" ++ toString ((j : ℤ))),
      listIdx A ((j : ℤ))) = _
    rw [hres j hj]
  rw [hGj]
  rw [Model.set_rhs_split_get? st.m _ _ (n0 + j) _ ?h1 ?h2]
  · rw [hAj]
  case h1 =>
    intro q hq
    rcases List.mem_map.mp hq with ⟨q0, hq0, rfl⟩
    have hlt : q0 < j := by
      have := List.mem_range'_1.mp hq0
      omega
    show dictGet st.ctr2idx (r ++ "link_netLoad_" ++ toString ((q0 : ℤ))) ≠ n0 + j
    rw [hres q0 (by omega)]
    omega
  case h2 =>
    intro q hq
    rcases List.mem_map.mp hq with ⟨q0, hq0, rfl⟩
    have hbound := List.mem_range'_1.mp hq0
    show dictGet st.ctr2idx (r ++ "link_netLoad_" ++ toString ((q0 : ℤ))) ≠ n0 + j
    rw [hres q0 (by omega)]
    omega

/-- **C5.**  `FixedLoad.update_model` adds no variables, no constraints and no
registry entries — for any state it leaves `vars`, `var2idx`, `ctr2idx`, the
number of constraints, and every constraint's name, sense and terms unchanged,
mutating only right-hand sides — and in the model built by `build_model` for a
single household whose only device is a `FixedLoad` with profile `L`, the
household's net-load linking constraint at step `j` ends with right-hand side
`-L[j]`. -/
theorem C5_fixed_load_frame_effect (d : FixedLoad F) (fexp flog : F → F)
    (T : ℕ) (delta_t : F) (price tlmin tlmax : List F) {j : ℕ}
    (hnd : ((pyRange 0 (T : ℤ)).map fun t =>
      "HH_" ++ toString (0 : ℕ) ++ "_" ++ "link_netLoad_" ++ toString t).Nodup)
    (hj : j < T) (hload : j < d.load.length) :
    (∀ (st : BuildState F) (tw : List ℤ) (dt : F) (r : String) (b : Bool),
      (d.update_model st tw dt r b).m.vars = st.m.vars ∧
      (d.update_model st tw dt r b).var2idx = st.var2idx ∧
      (d.update_model st tw dt r b).ctr2idx = st.ctr2idx ∧
      (d.update_model st tw dt r b).m.ctrs.length = st.m.ctrs.length ∧
      ∀ i : ℕ, (((d.update_model st tw dt r b).m.ctrs.get? i).map
          fun c => (c.name, c.sense, c.terms)) =
        ((st.m.ctrs.get? i).map fun c => (c.name, c.sense, c.terms))) ∧
    ∃ c : CtrInfo F,
      (build_model fexp flog [[Device.fixedLoad d]] (pyRange 0 (T : ℤ)) delta_t
          price tlmin tlmax).ctrs.get? (T + j) = some c ∧
      c.name = "HH_" ++ toString (0 : ℕ) ++ "_" ++ "link_netLoad_" ++
        toString ((j : ℤ)) ∧
      c.sense = Sense.E ∧
      c.rhs = -(d.load.getD j 0) := by
  refine ⟨fun st tw dt r b => ⟨rfl, rfl, rfl, ?_, fun i => ?_⟩, ?_⟩
  · exact Model.set_rhs_ctrs_length st.m _
  · exact Model.set_rhs_get?_frame st.m _ i
  have htwlen : (pyRange 0 (T : ℤ)).length = T := by
    simp [pyRange]
  have htw : pyRange 0 (T : ℤ) = (List.range T).map fun p : ℕ => (p : ℤ) := by
    unfold pyRange
    rw [sub_zero, Int.toNat_natCast]
    exact List.map_congr_left fun p _ => zero_add (p : ℤ)
  have hlenpre : (build_model_pre (pyRange 0 (T : ℤ)) delta_t price tlmin tlmax :
      BuildState F).m.ctrs.length = T := by
    simp [build_model_pre, htwlen]
  have hj' : j < (pyRange 0 (T : ℤ)).length := by
    rw [htwlen]
    exact hj
  obtain ⟨c0, hc0, hc0n, hc0s, _⟩ := build_model_household_link_record
    (build_model_pre (pyRange 0 (T : ℤ)) delta_t price tlmin tlmax) 0
    (pyRange 0 (T : ℤ)) hj'
  have hgetj : (pyRange 0 (T : ℤ)).get ⟨j, hj'⟩ = ((j : ℤ)) := by
    have h1 : (pyRange 0 (T : ℤ)).get? j = some ((j : ℤ)) := by
      rw [htw, List.get?_map, List.get?_range hj]
      rfl
    have h2 := List.get?_eq_get hj'
    rw [h1] at h2
    injection h2 with h2
    exact h2.symm
  rw [hgetj] at hc0n
  rw [hlenpre] at hc0
  have hz : ∀ c ∈ (build_model_household (build_model_pre (pyRange 0 (T : ℤ)) delta_t
      price tlmin tlmax) 0 (pyRange 0 (T : ℤ))).m.ctrs, c.rhs = 0 := by
    intro c hc
    simp only [build_model_household, build_model_pre, Model.constraints_add_ctrs,
      Model.variables_add_ctrs, List.nil_append, List.append_assoc,
      List.mem_append] at hc
    rcases hc with hc | hc
    · exact rhs_eq_zero_of_mem_block hc
    · exact rhs_eq_zero_of_mem_block hc
  have hres : ∀ p : ℕ, p < T →
      dictGet (build_model_household (build_model_pre (pyRange 0 (T : ℤ)) delta_t price
        tlmin tlmax) 0 (pyRange 0 (T : ℤ))).ctr2idx
        (("HH_" ++ toString (0 : ℕ) ++ "_") ++ "link_netLoad_" ++ toString ((p : ℤ))) =
        T + p := by
    intro p hp
    have hkey : ((pyRange 0 (T : ℤ)).map fun t =>
        "HH_" ++ toString (0 : ℕ) ++ "_" ++ "link_netLoad_" ++ toString t).get? p =
        some (("HH_" ++ toString (0 : ℕ) ++ "_") ++ "link_netLoad_" ++
          toString ((p : ℤ))) := by
      rw [htw, List.map_map, List.get?_map, List.get?_range hp]
      rfl
    simp only [build_model_household, Model.constraints_add_idx,
      Model.variables_add_ctrs]
    rw [dictGet_update_zip_range _ hnd hkey, hlenpre]
  have hmain := FixedLoad.update_model_rhs delta_t true hz hres hj hload
  rw [hc0] at hmain
  simp only [Option.map_some'] at hmain
  refine ⟨{ c0 with rhs := -(d.load.getD j 0) }, ?_, hc0n, hc0s, rfl⟩
  have hb : build_model fexp flog [[Device.fixedLoad d]] (pyRange 0 (T : ℤ)) delta_t
      price tlmin tlmax =
      (FixedLoad.update_model d (build_model_household (build_model_pre
        (pyRange 0 (T : ℤ)) delta_t price tlmin tlmax) 0 (pyRange 0 (T : ℤ)))
        (pyRange 0 (T : ℤ)) delta_t ("HH_" ++ toString (0 : ℕ) ++ "_") true).m := rfl
  rw [hb]
  exact hmain

/-- Witness for C5: a two-step window, one household, one `FixedLoad` with
profile `[3, 5]`; the linking constraint of step `1` ends with right-hand
side `-5`. -/
theorem C5_fixed_load_frame_effect_witness :
    ∃ c : CtrInfo ℚ,
      (build_model id id [[Device.fixedLoad ⟨"L0", [3, 5]⟩]]
          (pyRange 0 ((2 : ℕ) : ℤ)) 1 [1, 1] [] []).ctrs.get? (2 + 1) = some c ∧
      c.name = "HH_" ++ toString (0 : ℕ) ++ "_" ++ "link_netLoad_" ++
        toString (((1 : ℕ) : ℤ)) ∧
      c.sense = Sense.E ∧
      c.rhs = -(([3, 5] : List ℚ).getD 1 0) :=
  (C5_fixed_load_frame_effect ⟨"L0", [3, 5]⟩ id id 2 1 [1, 1] [] [] (j := 1)
    (by decide) (by decide) (by decide)).2

/-! ## The variable list is append-only through the whole build (claim C10) -/

/-- One household step of the `build_model` fold. -/
def hhStep (fexp flog : F → F) (tw : List ℤ) (delta_t : F) :
    BuildState F → ℕ × List (Device F) → BuildState F :=
  fun acc hh => hh.2.foldl (fun s d =>
      d.update_model fexp flog s tw delta_t ("HH_" ++ toString hh.1 ++ "_") true)
    (build_model_household acc hh.1 tw)

/-- `build_model` as a fold of `hhStep` over the enumerated households. -/
theorem build_model_eq_hhStep_fold (fexp flog : F → F) (dev : List (List (Device F)))
    (time_window : List ℤ) (delta_t : F) (price_mkt : List F)
    (total_load_min total_load_max : List F) :
    build_model fexp flog dev time_window delta_t price_mkt
        total_load_min total_load_max =
      (dev.enum.foldl (hhStep fexp flog time_window delta_t)
        (build_model_pre time_window delta_t price_mkt
          total_load_min total_load_max)).m :=
  rfl

/-- Every device contribution only appends to the variable list. -/
theorem Device.update_model_vars_prefix (fexp flog : F → F) (d : Device F)
    (st : BuildState F) (tw : List ℤ) (delta_t : F) (r : String) (b : Bool) :
    ∃ l, (d.update_model fexp flog st tw delta_t r b).m.vars = st.m.vars ++ l := by
  cases d with
  | fixedLoad x =>
    exact ⟨[], by rw [List.append_nil]; rfl⟩
  | battery x =>
    cases b
    · exact ⟨_, by simp only [Device.update_model, Battery.update_model,
        Bool.false_eq_true, if_false, Model.constraints_add_vars,
        Model.variables_add_vars, List.append_assoc]; rfl⟩
    · exact ⟨_, by simp only [Device.update_model, Battery.update_model, if_true,
        Model.constraints_add_vars, Model.variables_add_vars,
        List.append_assoc]; rfl⟩
  | thermalLoad x =>
    cases b
    · exact ⟨_, by simp only [Device.update_model, ThermalLoad.update_model,
        Bool.false_eq_true, if_false, Model.constraints_add_vars,
        Model.variables_add_vars, List.append_assoc]; rfl⟩
    · exact ⟨_, by simp only [Device.update_model, ThermalLoad.update_model, if_true,
        Model.constraints_add_vars, Model.variables_add_vars,
        List.append_assoc]; rfl⟩
  | deferrableLoad x =>
    cases b
    · exact ⟨_, by simp only [Device.update_model, DeferrableLoad.update_model,
        Bool.false_eq_true, if_false, Model.constraints_add_vars,
        Model.variables_add_vars, List.append_assoc]; rfl⟩
    · exact ⟨_, by simp only [Device.update_model, DeferrableLoad.update_model, if_true,
        Model.constraints_add_vars, Model.variables_add_vars,
        List.append_assoc]; rfl⟩
  | shiftableLoad x =>
    cases b
    · exact ⟨_, by simp only [Device.update_model, ShiftableLoad.update_model,
        Bool.false_eq_true, if_false, Model.constraints_add_vars,
        Model.variables_add_vars, List.append_assoc]; rfl⟩
    · exact ⟨_, by simp only [Device.update_model, ShiftableLoad.update_model, if_true,
        Model.constraints_add_vars, Model.variables_add_vars,
        List.append_assoc]; rfl⟩
  | curtailableLoad x =>
    cases hcb : (x.binary && b)
    · exact ⟨_, by simp only [Device.update_model, CurtailableLoad.update_model, hcb,
        Bool.false_eq_true, if_false, Model.constraints_add_vars,
        Model.variables_add_vars, List.append_assoc]; rfl⟩
    · exact ⟨_, by simp only [Device.update_model, CurtailableLoad.update_model, hcb,
        if_true, Model.constraints_add_vars, Model.variables_add_vars,
        List.append_assoc]; rfl⟩

theorem build_model_household_vars (st : BuildState F) (i_r : ℕ) (tw : List ℤ) :
    ∃ l, (build_model_household st i_r tw).m.vars = st.m.vars ++ l :=
  ⟨_, rfl⟩

theorem foldl_dev_vars_prefix (fexp flog : F → F) (ds : List (Device F))
    (st : BuildState F) (tw : List ℤ) (delta_t : F) (r : String) :
    ∃ l, (ds.foldl (fun s d => d.update_model fexp flog s tw delta_t r true) st).m.vars =
      st.m.vars ++ l := by
  induction ds generalizing st with
  | nil => exact ⟨[], (List.append_nil _).symm⟩
  | cons d ds ih =>
    obtain ⟨l1, h1⟩ := Device.update_model_vars_prefix fexp flog d st tw delta_t r true
    obtain ⟨l2, h2⟩ := ih (d.update_model fexp flog st tw delta_t r true)
    exact ⟨l1 ++ l2, by rw [List.foldl_cons, h2, h1, List.append_assoc]⟩

theorem hhStep_vars_prefix (fexp flog : F → F) (tw : List ℤ) (delta_t : F)
    (st : BuildState F) (hh : ℕ × List (Device F)) :
    ∃ l, (hhStep fexp flog tw delta_t st hh).m.vars = st.m.vars ++ l := by
  obtain ⟨l1, h1⟩ := build_model_household_vars st hh.1 tw
  obtain ⟨l2, h2⟩ := foldl_dev_vars_prefix fexp flog hh.2
    (build_model_household st hh.1 tw) tw delta_t ("HH_" ++ toString hh.1 ++ "_")
  refine ⟨l1 ++ l2, ?_⟩
  show (hh.2.foldl (fun s d => d.update_model fexp flog s tw delta_t
      ("HH_" ++ toString hh.1 ++ "_") true) (build_model_household st hh.1 tw)).m.vars = _
  rw [h2, h1, List.append_assoc]

theorem foldl_hh_vars_prefix (fexp flog : F → F) (tw : List ℤ) (delta_t : F)
    (hhs : List (ℕ × List (Device F))) (st : BuildState F) :
    ∃ l, (hhs.foldl (hhStep fexp flog tw delta_t) st).m.vars = st.m.vars ++ l := by
  induction hhs generalizing st with
  | nil => exact ⟨[], (List.append_nil _).symm⟩
  | cons hh hhs ih =>
    obtain ⟨l1, h1⟩ := hhStep_vars_prefix fexp flog tw delta_t st hh
    obtain ⟨l2, h2⟩ := ih (hhStep fexp flog tw delta_t st hh)
    exact ⟨l1 ++ l2, by rw [List.foldl_cons, h2, h1, List.append_assoc]⟩

/-- Through the whole household fold, household `h`'s `netLoad` variable of
step `j` is declared with the CPLEX default lower bound `0` and upper bound
`10`, and survives (the variable list is append-only). -/
theorem netLoad_var_mem_foldl (fexp flog : F → F) (tw : List ℤ) (delta_t : F)
    {h : ℕ} {ds : List (Device F)} {j : ℕ} (hj : j < tw.length) :
    ∀ (hhs : List (ℕ × List (Device F))) (st : BuildState F), (h, ds) ∈ hhs →
      ∃ v ∈ (hhs.foldl (hhStep fexp flog tw delta_t) st).m.vars,
        v.name = "HH_" ++ toString h ++ "_" ++ "netLoad_" ++
          toString (tw.get ⟨j, hj⟩) ∧
        v.lb = some 0 ∧ v.ub = some (10 : F) := by
  intro hhs
  induction hhs with
  | nil => exact fun st hmem => absurd hmem (List.not_mem_nil _)
  | cons hh hhs ih =>
    intro st hmem
    rw [List.foldl_cons]
    rcases List.mem_cons.mp hmem with heq | hmem2
    · subst heq
      have hjm : ((tw.map fun t =>
          "HH_" ++ toString h ++ "_" ++ "netLoad_" ++ toString t)).get? j =
          some ("HH_" ++ toString h ++ "_" ++ "netLoad_" ++
            toString (tw.get ⟨j, hj⟩)) := by
        rw [List.get?_map, List.get?_eq_get hj]
        rfl
      have hv : mkVarRec [] [] (tw.map fun _ => some (10 : F)) []
          (tw.map fun t => [(dictGet st.ctr2idx ("totalLoad_link" ++ toString t),
            (1 : F))]) j
          ("HH_" ++ toString h ++ "_" ++ "netLoad_" ++ toString (tw.get ⟨j, hj⟩)) ∈
          (build_model_household st h tw).m.vars :=
        Model.variables_add_mem st.m
          (tw.map fun t => "HH_" ++ toString h ++ "_" ++ "netLoad_" ++ toString t)
          [] [] (tw.map fun _ => some (10 : F)) []
          (tw.map fun t => [(dictGet st.ctr2idx ("totalLoad_link" ++ toString t),
            (1 : F))]) hjm
      obtain ⟨l2, h2⟩ := foldl_dev_vars_prefix fexp flog ds
        (build_model_household st h tw) tw delta_t ("HH_" ++ toString h ++ "_")
      obtain ⟨l3, h3⟩ := foldl_hh_vars_prefix fexp flog tw delta_t hhs
        (hhStep fexp flog tw delta_t st (h, ds))
      have h2' : (hhStep fexp flog tw delta_t st (h, ds)).m.vars =
          (build_model_household st h tw).m.vars ++ l2 := h2
      refine ⟨mkVarRec [] [] (tw.map fun _ => some (10 : F)) []
          (tw.map fun t => [(dictGet st.ctr2idx ("totalLoad_link" ++ toString t),
            (1 : F))]) j
          ("HH_" ++ toString h ++ "_" ++ "netLoad_" ++ toString (tw.get ⟨j, hj⟩)),
        ?_, rfl, rfl, getD_map_const hj⟩
      rw [h3, h2']
      exact List.mem_append_left _ (List.mem_append_left _ hv)
    · exact ih (hhStep fexp flog tw delta_t st hh) hmem2

/-- **C10.**  Every household net-load variable `netLoad[h,t]` created by
`build_model` is declared with lower bound `0` (the CPLEX default, since the
source passes no `lb`) and upper bound `10` (the hard-coded `ub=[10]*T`), so
no feasible assignment can give any household a negative net load or a net
load above `10` at any time step, whatever its devices are. -/
theorem C10_netload_bounds (fexp flog : F → F) (dev : List (List (Device F)))
    (tw : List ℤ) (delta_t : F) (price tlmin tlmax : List F)
    {h : ℕ} {ds : List (Device F)} (hmem : (h, ds) ∈ dev.enum)
    {j : ℕ} (hj : j < tw.length) :
    ∃ v ∈ (build_model fexp flog dev tw delta_t price tlmin tlmax).vars,
      v.name = "HH_" ++ toString h ++ "_" ++ "netLoad_" ++
        toString (tw.get ⟨j, hj⟩) ∧
      v.lb = some 0 ∧ v.ub = some (10 : F) ∧
      ∀ x : String → F,
        (build_model fexp flog dev tw delta_t price tlmin tlmax).feasible x →
        0 ≤ x v.name ∧ x v.name ≤ 10 := by
  obtain ⟨v, hvmem, hvn, hvlb, hvub⟩ := netLoad_var_mem_foldl fexp flog tw delta_t hj
    dev.enum (build_model_pre tw delta_t price tlmin tlmax) hmem
  have hb := build_model_eq_hhStep_fold fexp flog dev tw delta_t price tlmin tlmax
  have hv' : v ∈ (build_model fexp flog dev tw delta_t price tlmin tlmax).vars := by
    rw [hb]
    exact hvmem
  refine ⟨v, hv', hvn, hvlb, hvub, fun x hx => ?_⟩
  have hsem : (build_model fexp flog dev tw delta_t price tlmin tlmax).semVar v ∈
      (build_model fexp flog dev tw delta_t price tlmin tlmax).semVars :=
    Multiset.mem_coe.mpr (List.mem_map_of_mem _ hv')
  have hok := hx.1 _ hsem
  refine ⟨hok.1 0 ?_, hok.2.1 10 ?_⟩
  · show (0 : F) ∈ v.lb
    rw [hvlb]
    rfl
  · show (10 : F) ∈ v.ub
    rw [hvub]
    rfl

/-- Witness for C10: one household with no devices over a one-step window;
its net-load variable carries bounds `[0, 10]`. -/
theorem C10_netload_bounds_witness :
    ∃ v ∈ (build_model id id [[]] (pyRange 0 1) 1 [] [] [] : Model ℚ).vars,
      v.name = "HH_" ++ toString (0 : ℕ) ++ "_" ++ "netLoad_" ++
        toString ((pyRange 0 1).get ⟨0, by decide⟩) ∧
      v.lb = some 0 ∧ v.ub = some (10 : ℚ) ∧
      ∀ x : String → ℚ,
        (build_model id id [[]] (pyRange 0 1) 1 [] [] [] : Model ℚ).feasible x →
        0 ≤ x v.name ∧ x v.name ≤ 10 :=
  C10_netload_bounds id id [[]] (pyRange 0 1) 1 [] [] []
    (show ((0 : ℕ), ([] : List (Device ℚ))) ∈
      ([[]] : List (List (Device ℚ))).enum from by decide)
    (j := 0) (by decide)

/-! ## List and sum helpers for the ShiftableLoad claims (C3, C4) -/

theorem mem_pyRange {a b t : ℤ} : t ∈ pyRange a b ↔ a ≤ t ∧ t < b := by
  unfold pyRange
  constructor
  · intro h
    rcases List.mem_map.mp h with ⟨i, hi, rfl⟩
    have := List.mem_range.mp hi
    omega
  · intro h
    exact List.mem_map.mpr ⟨(t - a).toNat, List.mem_range.mpr (by omega), by omega⟩

theorem pyRange_nodup (a b : ℤ) : (pyRange a b).Nodup := by
  unfold pyRange
  refine List.Nodup.map ?_ (List.nodup_range _)
  intro i1 i2 h
  have h' : a + (i1 : ℤ) = a + (i2 : ℤ) := h
  omega

theorem sum_map_zero_of_forall {α : Type _} {l : List α} {g : α → F}
    (h : ∀ a ∈ l, g a = 0) : (l.map g).sum = 0 := by
  induction l with
  | nil => rfl
  | cons a l ih =>
    rw [List.map_cons, List.sum_cons, h a (List.mem_cons_self a l),
      ih fun b hb => h b (List.mem_cons_of_mem a hb), zero_add]

theorem sum_map_ite_unique {α : Type _} {l : List α} {a0 : α} {P : α → Prop}
    [DecidablePred P] {g : α → F} (hnd : l.Nodup) (h0 : a0 ∈ l)
    (hP : ∀ a ∈ l, P a ↔ a = a0) :
    (l.map fun a => if P a then g a else 0).sum = g a0 := by
  induction l with
  | nil => cases h0
  | cons a l ih =>
    rw [List.map_cons, List.sum_cons]
    have hnd' := List.nodup_cons.mp hnd
    rcases List.mem_cons.mp h0 with rfl | h0'
    · have hz : ∀ b ∈ l, (if P b then g b else 0) = 0 := by
        intro b hb
        rw [if_neg]
        intro hPb
        have hba := (hP b (List.mem_cons_of_mem _ hb)).mp hPb
        subst hba
        exact hnd'.1 hb
      rw [if_pos ((hP a0 (List.mem_cons_self _ _)).mpr rfl),
        sum_map_zero_of_forall hz, add_zero]
    · have hna : ¬ P a := by
        intro hPa
        have ha := (hP a (List.mem_cons_self _ _)).mp hPa
        subst ha
        exact hnd'.1 h0'
      rw [if_neg hna, ih hnd'.2 h0' fun b hb => hP b (List.mem_cons_of_mem a hb),
        zero_add]

theorem sum_map_ite_zero {α : Type _} {l : List α} {P : α → Prop}
    [DecidablePred P] {g : α → F} (hP : ∀ a ∈ l, ¬ P a) :
    (l.map fun a => if P a then g a else 0).sum = 0 :=
  sum_map_zero_of_forall fun a ha => if_neg (hP a ha)

theorem sum_map_one_hot {α : Type _} [DecidableEq α] {l : List α} {a0 : α}
    {g : α → F} {y : α → F} (hnd : l.Nodup) (h0 : a0 ∈ l)
    (hy : ∀ a ∈ l, y a = if a = a0 then 1 else 0) :
    (l.map fun a => g a * y a).sum = g a0 := by
  have hc : ∀ a ∈ l, g a * y a = if a = a0 then g a else 0 := by
    intro a ha
    rw [hy a ha]
    by_cases h : a = a0
    · rw [if_pos h, if_pos h, mul_one]
    · rw [if_neg h, if_neg h, mul_zero]
  rw [List.map_congr_left hc]
  exact sum_map_ite_unique hnd h0 fun a _ => Iff.rfl

theorem all_zero_of_sum_zero {α : Type _} {l : List α} {y : α → F}
    (h0 : ∀ a ∈ l, 0 ≤ y a) (hsum : (l.map y).sum = 0) : ∀ a ∈ l, y a = 0 := by
  induction l with
  | nil => exact fun a ha => absurd ha (List.not_mem_nil a)
  | cons a l ih =>
    rw [List.map_cons, List.sum_cons] at hsum
    have htail : 0 ≤ (l.map y).sum := by
      refine List.sum_nonneg ?_
      intro b hb
      rcases List.mem_map.mp hb with ⟨c, hc, rfl⟩
      exact h0 c (List.mem_cons_of_mem a hc)
    have hha := h0 a (List.mem_cons_self a l)
    have hza : y a = 0 := by linarith
    have hzt : (l.map y).sum = 0 := by linarith
    intro b hb
    rcases List.mem_cons.mp hb with rfl | hb'
    · exact hza
    · exact ih (fun c hc => h0 c (List.mem_cons_of_mem a hc)) hzt b hb'

/-- A finite sum of 0/1 values equal to `1` has exactly one value `1`. -/
theorem exists_one_hot_of_zero_one_sum {α : Type _} {l : List α} {y : α → F}
    (h01 : ∀ a ∈ l, y a = 0 ∨ y a = 1) (hsum : (l.map y).sum = 1) :
    ∃ a0 ∈ l, y a0 = 1 ∧ ∀ a ∈ l, a ≠ a0 → y a = 0 := by
  induction l with
  | nil =>
    rw [List.map_nil, List.sum_nil] at hsum
    exact absurd hsum zero_ne_one
  | cons a l ih =>
    rw [List.map_cons, List.sum_cons] at hsum
    rcases h01 a (List.mem_cons_self a l) with ha | ha
    · rw [ha, zero_add] at hsum
      obtain ⟨a0, h0mem, h1, hz⟩ := ih (fun b hb => h01 b (List.mem_cons_of_mem a hb))
        hsum
      refine ⟨a0, List.mem_cons_of_mem a h0mem, h1, ?_⟩
      intro b hb hbne
      rcases List.mem_cons.mp hb with rfl | hb'
      · exact ha
      · exact hz b hb' hbne
    · rw [ha] at hsum
      have hzt : (l.map y).sum = 0 := by linarith
      have h0t : ∀ b ∈ l, (0 : F) ≤ y b := by
        intro b hb
        rcases h01 b (List.mem_cons_of_mem a hb) with h | h
        · rw [h]
        · rw [h]
          exact zero_le_one
      have hz := all_zero_of_sum_zero h0t hzt
      refine ⟨a, List.mem_cons_self a l, ha, ?_⟩
      intro b hb hbne
      rcases List.mem_cons.mp hb with rfl | hb'
      · exact absurd rfl hbne
      · exact hz b hb'

theorem sum_map_filterMap_eq {α β : Type _} (l : List α) (f : α → Option β)
    (g : β → F) :
    ((l.filterMap f).map g).sum = (l.map fun a => ((f a).map g).getD 0).sum := by
  induction l with
  | nil => rfl
  | cons a l ih =>
    cases hf : f a with
    | none => simp [List.filterMap_cons_none hf, hf, ih]
    | some b => simp [List.filterMap_cons_some hf, hf, ih]

theorem sum_flatMap_eq {α : Type _} (l : List α) (f : α → List F) :
    (l.flatMap f).sum = (l.map fun a => (f a).sum).sum := by
  rw [List.flatMap_def, List.sum_flatten, List.map_map]
  rfl

theorem mem_enum_get? {α : Type _} {l : List α} {p : ℕ × α} (h : p ∈ l.enum) :
    l.get? p.1 = some p.2 := by
  rcases List.mem_iff_get?.mp h with ⟨i, hi⟩
  rw [List.get?_enum] at hi
  cases he : l.get? i with
  | none => rw [he] at hi; exact Option.noConfusion hi
  | some a =>
    rw [he, Option.map_some'] at hi
    injection hi with hi
    rw [← hi]
    exact he

/-- Under the generator's key-uniqueness invariant, looking up a start
indicator `u_{k,t}` in the registry and reading that index's name in the model
gives the key back (the registry is consistent for the `ShiftableLoad`
block). -/
theorem ShiftableLoad.varName_u (s : ShiftableLoad F) (st : BuildState F)
    (tw : List ℤ) (delta_t : F) (r : String) (bin : Bool)
    (hnd : ((tw.map fun t => r ++ s.label ++ "_pwr_" ++ toString t) ++
      ((List.range s.n_cycles).flatMap fun k =>
        (s.window k).map fun t => s.uKey r k t)).Nodup)
    {k : ℕ} {t : ℤ} (hk : k < s.n_cycles) (ht : t ∈ s.window k) :
    (s.update_model st tw delta_t r bin).m.varName
      (dictGet (s.update_model st tw delta_t r bin).var2idx (s.uKey r k t)) =
      s.uKey r k t := by
  have h1 := List.nodup_append.mp hnd
  have hmemU : s.uKey r k t ∈ (List.range s.n_cycles).flatMap fun k2 =>
      (s.window k2).map fun t2 => s.uKey r k2 t2 :=
    List.mem_flatMap.mpr ⟨k, List.mem_range.mpr hk, List.mem_map_of_mem _ ht⟩
  obtain ⟨i, hi⟩ := List.mem_iff_get?.mp hmemU
  cases bin
  · have hres : dictGet (s.update_model st tw delta_t r false).var2idx
        (s.uKey r k t) =
        (st.m.vars ++ (tw.map fun t2 => r ++ s.label ++ "_pwr_" ++ toString t2).mapIdx
          (mkVarRec [] [] [] [] (tw.map fun t2 =>
            [(dictGet st.ctr2idx (r ++ "link_netLoad_" ++ toString t2),
              (1 : F))]))).length + i := by
      simp only [ShiftableLoad.update_model, Bool.false_eq_true, if_false,
        Model.variables_add_idx]
      rw [dictGet_update_zip_range' _ h1.2.1 hi rfl]
      simp [List.length_mapIdx, Nat.add_assoc]
    have hpre : ∃ l, (s.update_model st tw delta_t r false).m.vars =
        (st.m.vars ++ (tw.map fun t2 => r ++ s.label ++ "_pwr_" ++ toString t2).mapIdx
          (mkVarRec [] [] [] [] (tw.map fun t2 =>
            [(dictGet st.ctr2idx (r ++ "link_netLoad_" ++ toString t2), (1 : F))]))) ++
        ((List.range s.n_cycles).flatMap fun k2 =>
          (s.window k2).map fun t2 => s.uKey r k2 t2).mapIdx
          (mkVarRec []
            ((List.range s.n_cycles).flatMap fun k2 =>
              (s.window k2).map fun _ => some 0)
            ((List.range s.n_cycles).flatMap fun k2 =>
              (s.window k2).map fun _ => some 1) [] []) ++ l :=
      ⟨[], by simp only [ShiftableLoad.update_model, Bool.false_eq_true, if_false,
        Model.constraints_add_vars, Model.variables_add_vars, List.append_assoc,
        List.append_nil]⟩
    rw [hres]
    exact Model.varName_block _ _ _ _ _ _ hi hpre
  · have hres : dictGet (s.update_model st tw delta_t r true).var2idx
        (s.uKey r k t) =
        (st.m.vars ++ (tw.map fun t2 => r ++ s.label ++ "_pwr_" ++ toString t2).mapIdx
          (mkVarRec [] [] [] [] (tw.map fun t2 =>
            [(dictGet st.ctr2idx (r ++ "link_netLoad_" ++ toString t2),
              (1 : F))]))).length + i := by
      simp only [ShiftableLoad.update_model, if_true, Model.variables_add_idx]
      rw [dictGet_update_zip_range' _ h1.2.1 hi rfl]
      simp [List.length_mapIdx, Nat.add_assoc]
    have hpre : ∃ l, (s.update_model st tw delta_t r true).m.vars =
        (st.m.vars ++ (tw.map fun t2 => r ++ s.label ++ "_pwr_" ++ toString t2).mapIdx
          (mkVarRec [] [] [] [] (tw.map fun t2 =>
            [(dictGet st.ctr2idx (r ++ "link_netLoad_" ++ toString t2), (1 : F))]))) ++
        ((List.range s.n_cycles).flatMap fun k2 =>
          (s.window k2).map fun t2 => s.uKey r k2 t2).mapIdx
          (mkVarRec [] [] []
            ((List.range s.n_cycles).flatMap fun k2 =>
              (s.window k2).map fun _ => true) []) ++ l :=
      ⟨[], by simp only [ShiftableLoad.update_model, if_true,
        Model.constraints_add_vars, Model.variables_add_vars, List.append_assoc,
        List.append_nil]⟩
    rw [hres]
    exact Model.varName_block _ _ _ _ _ _ hi hpre

/-- Registry/name consistency for the `pwr_t` variables of a
`ShiftableLoad`. -/
theorem ShiftableLoad.varName_pwr (s : ShiftableLoad F) (st : BuildState F)
    (tw : List ℤ) (delta_t : F) (r : String) (bin : Bool)
    (hnd : ((tw.map fun t => r ++ s.label ++ "_pwr_" ++ toString t) ++
      ((List.range s.n_cycles).flatMap fun k =>
        (s.window k).map fun t => s.uKey r k t)).Nodup)
    {j2 : ℕ} {t2 : ℤ} (hjt : tw.get? j2 = some t2) :
    (s.update_model st tw delta_t r bin).m.varName
      (dictGet (s.update_model st tw delta_t r bin).var2idx
        (r ++ s.label ++ "_pwr_" ++ toString t2)) =
      r ++ s.label ++ "_pwr_" ++ toString t2 := by
  have h1 := List.nodup_append.mp hnd
  have hget : (tw.map fun t => r ++ s.label ++ "_pwr_" ++ toString t).get? j2 =
      some (r ++ s.label ++ "_pwr_" ++ toString t2) := by
    rw [List.get?_map, hjt]
    rfl
  have hnot : (r ++ s.label ++ "_pwr_" ++ toString t2) ∉
      ((List.range s.n_cycles).flatMap fun k =>
        (s.window k).map fun t => s.uKey r k t) :=
    fun hc => h1.2.2 (List.get?_mem hget) hc
  have hres : dictGet (s.update_model st tw delta_t r bin).var2idx
      (r ++ s.label ++ "_pwr_" ++ toString t2) = st.m.vars.length + j2 := by
    cases bin
    · simp only [ShiftableLoad.update_model, Bool.false_eq_true, if_false,
        Model.variables_add_idx]
      rw [dictGet_update_zip_not_mem _ hnot, dictGet_update_zip_range' _ h1.1 hget rfl]
    · simp only [ShiftableLoad.update_model, if_true, Model.variables_add_idx]
      rw [dictGet_update_zip_not_mem _ hnot, dictGet_update_zip_range' _ h1.1 hget rfl]
  have hpre : ∃ l, (s.update_model st tw delta_t r bin).m.vars =
      st.m.vars ++ (tw.map fun t => r ++ s.label ++ "_pwr_" ++ toString t).mapIdx
        (mkVarRec [] [] [] [] (tw.map fun t =>
          [(dictGet st.ctr2idx (r ++ "link_netLoad_" ++ toString t), (1 : F))])) ++ l := by
    cases bin
    · exact ⟨_, by simp only [ShiftableLoad.update_model, Bool.false_eq_true, if_false,
        Model.constraints_add_vars, Model.variables_add_vars, List.append_assoc]; rfl⟩
    · exact ⟨_, by simp only [ShiftableLoad.update_model, if_true,
        Model.constraints_add_vars, Model.variables_add_vars, List.append_assoc]; rfl⟩
  rw [hres]
  exact Model.varName_block _ _ _ _ _ _ hget hpre

theorem sum_map_neg {α : Type _} (l : List α) (h : α → F) :
    (l.map fun a => -(h a)).sum = -((l.map h).sum) := by
  induction l with
  | nil => simp
  | cons a l ih => simp only [List.map_cons, List.sum_cons, ih, neg_add]

/-- **C3.**  For a `ShiftableLoad` with binary start indicators
(`binaries = true`): (A) the model carries, for each cycle `k`, the
exactly-one-start row `Σ_{t ∈ window_k} u_{k,t} = 1`; (B) for 0/1-valued
indicators that row forces exactly one `u_{k,t}` to be `1`; (C) the model
carries, for each window step `t`, the net-power convolution row
`pwr_t - Σ_k Σ_dd cycle_k[dd]·u_{k,t-dd} = 0`; and (D) whenever the
indicators are one-hot at chosen starts `ts k`, that row says exactly that
`pwr_t` equals the sum of the chosen cycle profiles shifted to their starts
(so it is `0` outside every cycle's active span).  `hnc`/`hdur` are the
derived-field invariants established by `__init__`. -/
theorem C3_shiftable_exactly_one_and_power (s : ShiftableLoad F)
    (st : BuildState F) (tw : List ℤ) (delta_t : F) (r : String)
    (hnc : s.n_cycles = s.cycles.length)
    (hdur : s.durations = s.cycles.map List.length)
    (hnd : ((tw.map fun t => r ++ s.label ++ "_pwr_" ++ toString t) ++
      ((List.range s.n_cycles).flatMap fun k =>
        (s.window k).map fun t => s.uKey r k t)).Nodup)
    {k : ℕ} (hk : k < s.n_cycles)
    {q : ℕ} {t : ℤ} (hjt : tw.get? q = some t) :
    (∃ c ∈ (s.update_model st tw delta_t r true).m.ctrs,
      (s.update_model st tw delta_t r true).m.semCtr c =
        ⟨r ++ s.label ++ "_start_up_" ++ toString k, Sense.E, 1,
          (((s.window k).map fun t2 => (s.uKey r k t2, (1 : F))) :
            List (String × F))⟩) ∧
    (∀ x : String → F,
      (∀ t2 ∈ s.window k, x (s.uKey r k t2) = 0 ∨ x (s.uKey r k t2) = 1) →
      SemCtr.rowHolds (⟨r ++ s.label ++ "_start_up_" ++ toString k, Sense.E, 1,
          (((s.window k).map fun t2 => (s.uKey r k t2, (1 : F))) :
            List (String × F))⟩ : SemCtr F) x →
      ∃ t0 ∈ s.window k, x (s.uKey r k t0) = 1 ∧
        ∀ t2 ∈ s.window k, t2 ≠ t0 → x (s.uKey r k t2) = 0) ∧
    (∃ c ∈ (s.update_model st tw delta_t r true).m.ctrs,
      (s.update_model st tw delta_t r true).m.semCtr c =
        ⟨r ++ s.label ++ "_net_power_" ++ toString t, Sense.E, 0,
          (((r ++ s.label ++ "_pwr_" ++ toString t, (1 : F)) ::
            (s.cycles.enum.flatMap fun kc =>
              (List.range (s.durations.getD kc.1 0)).filterMap fun (dd : ℕ) =>
                if s.t_start_min.getD kc.1 0 ≤ t - (dd : ℤ) ∧
                    t - (dd : ℤ) ≤ s.t_start_max.getD kc.1 0 then
                  some (s.uKey r kc.1 (t - (dd : ℤ)), -((kc.2.get? dd).getD 0))
                else none)) : List (String × F))⟩) ∧
    (∀ (x : String → F) (ts : ℕ → ℤ),
      (∀ k2, k2 < s.n_cycles → ts k2 ∈ s.window k2) →
      (∀ k2, k2 < s.n_cycles → ∀ t2 ∈ s.window k2,
        x (s.uKey r k2 t2) = if t2 = ts k2 then 1 else 0) →
      (SemCtr.rowHolds (⟨r ++ s.label ++ "_net_power_" ++ toString t, Sense.E, 0,
          (((r ++ s.label ++ "_pwr_" ++ toString t, (1 : F)) ::
            (s.cycles.enum.flatMap fun kc =>
              (List.range (s.durations.getD kc.1 0)).filterMap fun (dd : ℕ) =>
                if s.t_start_min.getD kc.1 0 ≤ t - (dd : ℤ) ∧
                    t - (dd : ℤ) ≤ s.t_start_max.getD kc.1 0 then
                  some (s.uKey r kc.1 (t - (dd : ℤ)), -((kc.2.get? dd).getD 0))
                else none)) : List (String × F))⟩ : SemCtr F) x ↔
        x (r ++ s.label ++ "_pwr_" ++ toString t) =
          (s.cycles.enum.map fun kc =>
            if ts kc.1 ≤ t ∧ t < ts kc.1 + (kc.2.length : ℤ) then
              ((kc.2.get? ((t - ts kc.1).toNat)).getD 0) else 0).sum)) := by
  have hkr : k < (List.range s.n_cycles).length := by simpa using hk
  have hjsu : ((List.range s.n_cycles).map fun k2 =>
      r ++ s.label ++ "_start_up_" ++ toString k2).get? k =
      some (r ++ s.label ++ "_start_up_" ++ toString k) := by
    rw [List.get?_map, List.get?_range hk]
    rfl
  have hmemSU : mkCtrRec ((List.range s.n_cycles).map fun _ => Sense.E)
      ((List.range s.n_cycles).map fun _ => (1 : F))
      ((List.range s.n_cycles).map fun k2 =>
        (s.window k2).map fun t2 =>
          (dictGet ((s.update_model st tw delta_t r true : BuildState F)).var2idx
            (s.uKey r k2 t2), (1 : F)))
      k (r ++ s.label ++ "_start_up_" ++ toString k) ∈
      (s.update_model st tw delta_t r true).m.ctrs := by
    refine Model.mem_ctrs_block st.m.ctrs _ _ _ hjsu ?_
    exact ⟨_, by simp only [ShiftableLoad.update_model, if_true,
      Model.constraints_add_ctrs, Model.variables_add_ctrs, List.append_assoc]; rfl⟩
  have hjnp : (tw.map fun t2 =>
      r ++ s.label ++ "_net_power_" ++ toString t2).get? q =
      some (r ++ s.label ++ "_net_power_" ++ toString t) := by
    rw [List.get?_map, hjt]
    rfl
  have hmemNP : mkCtrRec [] []
      (tw.map fun t2 =>
        (dictGet ((s.update_model st tw delta_t r true : BuildState F)).var2idx
          (r ++ s.label ++ "_pwr_" ++ toString t2), (1 : F)) ::
        (s.cycles.enum.flatMap fun kc =>
          (List.range (s.durations.getD kc.1 0)).filterMap fun (dd : ℕ) =>
            if s.t_start_min.getD kc.1 0 ≤ t2 - (dd : ℤ) ∧
                t2 - (dd : ℤ) ≤ s.t_start_max.getD kc.1 0 then
              some (dictGet ((s.update_model st tw delta_t r true : BuildState F)).var2idx
                (s.uKey r kc.1 (t2 - (dd : ℤ))), -((kc.2.get? dd).getD 0))
            else none))
      q (r ++ s.label ++ "_net_power_" ++ toString t) ∈
      (s.update_model st tw delta_t r true).m.ctrs := by
    refine Model.mem_ctrs_block
      (st.m.ctrs ++ ((List.range s.n_cycles).map fun k2 =>
        r ++ s.label ++ "_start_up_" ++ toString k2).mapIdx
        (mkCtrRec ((List.range s.n_cycles).map fun _ => Sense.E)
          ((List.range s.n_cycles).map fun _ => (1 : F))
          ((List.range s.n_cycles).map fun k2 =>
            (s.window k2).map fun t2 =>
              (dictGet ((s.update_model st tw delta_t r true : BuildState F)).var2idx
                (s.uKey r k2 t2), (1 : F)))))
      _ _ _ hjnp ?_
    exact ⟨_, by simp only [ShiftableLoad.update_model, if_true,
      Model.constraints_add_ctrs, Model.variables_add_ctrs, List.append_assoc]; rfl⟩
  refine ⟨⟨_, hmemSU, ?_⟩, ?_, ⟨_, hmemNP, ?_⟩, ?_⟩
  · -- (A) semantic form of the start_up row
    have hterm : ∀ t2 ∈ s.window k,
        ((fun p : ℕ × F =>
          ((s.update_model st tw delta_t r true).m.varName p.1, p.2)) ∘
          fun t2 => (dictGet ((s.update_model st tw delta_t r true : BuildState F)).var2idx
            (s.uKey r k t2), (1 : F))) t2 = (s.uKey r k t2, (1 : F)) := by
      intro t2 ht2
      show ((s.update_model st tw delta_t r true).m.varName
        (dictGet (s.update_model st tw delta_t r true).var2idx (s.uKey r k t2)),
        (1 : F)) = _
      rw [ShiftableLoad.varName_u s st tw delta_t r true hnd hk ht2]
    simp only [Model.semCtr, mkCtrRec, getD_map_const hkr,
      getD_map_of_get? (List.get?_range hk), List.map_map]
    rw [List.map_congr_left hterm]
  · -- (B) exactly one start
    intro x h01 hrow
    simp only [SemCtr.rowHolds, Sense.sat, Multiset.map_coe, Multiset.sum_coe,
      List.map_map] at hrow
    have hone : ∀ t2 ∈ s.window k,
        ((fun p : String × F => p.2 * x p.1) ∘
          fun t2 => (s.uKey r k t2, (1 : F))) t2 = x (s.uKey r k t2) :=
      fun t2 _ => one_mul _
    rw [List.map_congr_left hone] at hrow
    exact exists_one_hot_of_zero_one_sum h01 hrow
  · -- (C) semantic form of the net_power row
    have hvnP := ShiftableLoad.varName_pwr s st tw delta_t r true hnd hjt
    simp only [Model.semCtr, mkCtrRec, getD_map_of_get? hjt, List.map_cons]
    have htrans : ((s.cycles.enum.flatMap fun kc =>
        (List.range (s.durations.getD kc.1 0)).filterMap fun (dd : ℕ) =>
          if s.t_start_min.getD kc.1 0 ≤ t - (dd : ℤ) ∧
              t - (dd : ℤ) ≤ s.t_start_max.getD kc.1 0 then
            some (dictGet ((s.update_model st tw delta_t r true : BuildState F)).var2idx
              (s.uKey r kc.1 (t - (dd : ℤ))), -((kc.2.get? dd).getD 0))
          else none).map fun p : ℕ × F =>
            ((s.update_model st tw delta_t r true).m.varName p.1, p.2)) =
        s.cycles.enum.flatMap fun kc =>
          (List.range (s.durations.getD kc.1 0)).filterMap fun (dd : ℕ) =>
            if s.t_start_min.getD kc.1 0 ≤ t - (dd : ℤ) ∧
                t - (dd : ℤ) ≤ s.t_start_max.getD kc.1 0 then
              some (s.uKey r kc.1 (t - (dd : ℤ)), -((kc.2.get? dd).getD 0))
            else none := by
      rw [List.map_flatMap]
      refine List.flatMap_congr ?_
      intro kc hkc
      rw [List.map_filterMap]
      refine List.filterMap_congr ?_
      intro dd _
      by_cases hcond : s.t_start_min.getD kc.1 0 ≤ t - (dd : ℤ) ∧
          t - (dd : ℤ) ≤ s.t_start_max.getD kc.1 0
      · rw [if_pos hcond, if_pos hcond, Option.map_some']
        have hkclt : kc.1 < s.n_cycles := by
          rw [hnc]
          exact List.fst_lt_of_mem_enum hkc
        have hwmem : t - (dd : ℤ) ∈ s.window kc.1 := by
          show t - (dd : ℤ) ∈ pyRange (s.t_start_min.getD kc.1 0)
            (s.t_start_max.getD kc.1 0 + 1)
          exact mem_pyRange.mpr ⟨hcond.1, by omega⟩
        show some ((s.update_model st tw delta_t r true).m.varName
          (dictGet (s.update_model st tw delta_t r true).var2idx
            (s.uKey r kc.1 (t - (dd : ℤ)))), -((kc.2.get? dd).getD 0)) = _
        rw [ShiftableLoad.varName_u s st tw delta_t r true hnd hkclt hwmem]
      · rw [if_neg hcond, if_neg hcond]
        rfl
    rw [htrans, hvnP]
    rfl
  · -- (D) reconstruction under one-hot indicators
    intro x ts hts honehot
    simp only [SemCtr.rowHolds, Sense.sat, Multiset.map_coe, Multiset.sum_coe,
      List.map_cons, List.sum_cons]
    rw [List.map_flatMap, sum_flatMap_eq]
    have hkcsum : ∀ kc ∈ s.cycles.enum,
        ((((List.range (s.durations.getD kc.1 0)).filterMap fun (dd : ℕ) =>
          if s.t_start_min.getD kc.1 0 ≤ t - (dd : ℤ) ∧
              t - (dd : ℤ) ≤ s.t_start_max.getD kc.1 0 then
            some (s.uKey r kc.1 (t - (dd : ℤ)), -((kc.2.get? dd).getD 0))
          else none).map fun p : String × F => p.2 * x p.1).sum) =
        -(if ts kc.1 ≤ t ∧ t < ts kc.1 + (kc.2.length : ℤ) then
            ((kc.2.get? ((t - ts kc.1).toNat)).getD 0) else 0) := by
      intro kc hkc
      have hkclt : kc.1 < s.n_cycles := by
        rw [hnc]
        exact List.fst_lt_of_mem_enum hkc
      have hdurkc : s.durations.getD kc.1 0 = kc.2.length := by
        rw [hdur]
        exact getD_map_of_get? (mem_enum_get? hkc)
      rw [sum_map_filterMap_eq]
      have hpt : ∀ dd ∈ List.range (s.durations.getD kc.1 0),
          ((((if s.t_start_min.getD kc.1 0 ≤ t - (dd : ℤ) ∧
              t - (dd : ℤ) ≤ s.t_start_max.getD kc.1 0 then
            some (s.uKey r kc.1 (t - (dd : ℤ)), -((kc.2.get? dd).getD 0))
          else none).map fun p : String × F => p.2 * x p.1).getD 0)) =
          if t - (dd : ℤ) = ts kc.1 then -((kc.2.get? dd).getD 0) else 0 := by
        intro dd _
        by_cases hcond : s.t_start_min.getD kc.1 0 ≤ t - (dd : ℤ) ∧
            t - (dd : ℤ) ≤ s.t_start_max.getD kc.1 0
        · rw [if_pos hcond, Option.map_some', Option.getD_some]
          have hwmem : t - (dd : ℤ) ∈ s.window kc.1 := by
            show t - (dd : ℤ) ∈ pyRange (s.t_start_min.getD kc.1 0)
              (s.t_start_max.getD kc.1 0 + 1)
            exact mem_pyRange.mpr ⟨hcond.1, by omega⟩
          show -((kc.2.get? dd).getD 0) * x (s.uKey r kc.1 (t - (dd : ℤ))) = _
          rw [honehot kc.1 hkclt _ hwmem]
          by_cases he : t - (dd : ℤ) = ts kc.1
          · rw [if_pos he, if_pos he, mul_one]
          · rw [if_neg he, if_neg he, mul_zero]
        · have hne : ¬ (t - (dd : ℤ) = ts kc.1) := by
            intro he
            have hw := hts kc.1 hkclt
            have hw' := mem_pyRange.mp hw
            exact hcond ⟨by omega, by omega⟩
          rw [if_neg hcond, if_neg hne]
          rfl
      rw [List.map_congr_left hpt]
      by_cases hin : ts kc.1 ≤ t ∧ t < ts kc.1 + (kc.2.length : ℤ)
      · have hdd0 : ((t - ts kc.1).toNat) ∈ List.range (s.durations.getD kc.1 0) := by
          rw [hdurkc]
          exact List.mem_range.mpr (by omega)
        have hPiff : ∀ dd ∈ List.range (s.durations.getD kc.1 0),
            (t - (dd : ℤ) = ts kc.1) ↔ dd = (t - ts kc.1).toNat := by
          intro dd _
          constructor <;> intro h <;> omega
        rw [sum_map_ite_unique (List.nodup_range _) hdd0 hPiff, if_pos hin]
      · have hPn : ∀ dd ∈ List.range (s.durations.getD kc.1 0),
            ¬ (t - (dd : ℤ) = ts kc.1) := by
          intro dd hddmem he
          rw [hdurkc] at hddmem
          have := List.mem_range.mp hddmem
          exact hin ⟨by omega, by omega⟩
        rw [sum_map_ite_zero hPn, if_neg hin, neg_zero]
    rw [List.map_congr_left hkcsum, sum_map_neg]
    constructor <;> intro h <;> linarith

/-- Witness for C3: one cycle with profile `[5, 7]`, start window
`[1, 2]`, four-step time window. -/
theorem C3_shiftable_exactly_one_and_power_witness :
    ∃ c ∈ ((ShiftableLoad.init "SL" [1] [2] [[(5 : ℚ), 7]]).update_model
        emptyState (pyRange 0 4) 1 "HH_0_" true).m.ctrs,
      ((ShiftableLoad.init "SL" [1] [2] [[(5 : ℚ), 7]]).update_model
        emptyState (pyRange 0 4) 1 "HH_0_" true).m.semCtr c =
        ⟨"HH_0_" ++ "SL" ++ "_start_up_" ++ toString (0 : ℕ), Sense.E, 1,
          ((((ShiftableLoad.init "SL" [1] [2] [[(5 : ℚ), 7]] :
              ShiftableLoad ℚ).window 0).map fun t2 =>
            ((ShiftableLoad.init "SL" [1] [2] [[(5 : ℚ), 7]] :
              ShiftableLoad ℚ).uKey "HH_0_" 0 t2, (1 : ℚ))) : List (String × ℚ))⟩ :=
  (C3_shiftable_exactly_one_and_power
    (ShiftableLoad.init "SL" [1] [2] [[(5 : ℚ), 7]]) emptyState (pyRange 0 4) 1
    "HH_0_" rfl rfl (by decide) (k := 0) (by decide) (q := 2) (t := 2)
    (by decide)).1

/-- **C4.**  For a `ShiftableLoad` with at least two cycles, `update_model`
adds for each `k > 0` the sequencing row
`Σ_{t ∈ window_k} t·u_{k,t} - Σ_{t ∈ window_{k-1}} t·u_{k-1,t} ≥
duration[k-1]` (sense `G`), and whenever the start indicators are one-hot at
chosen starts `ts`, that row says exactly that cycle `k`'s chosen start is at
least cycle `k-1`'s chosen start plus `duration[k-1]`. -/
theorem C4_shiftable_sequencing (s : ShiftableLoad F)
    (st : BuildState F) (tw : List ℤ) (delta_t : F) (r : String)
    (hnd : ((tw.map fun t => r ++ s.label ++ "_pwr_" ++ toString t) ++
      ((List.range s.n_cycles).flatMap fun k =>
        (s.window k).map fun t => s.uKey r k t)).Nodup)
    {k : ℕ} (hk1 : 1 ≤ k) (hk : k < s.n_cycles) :
    (∃ c ∈ (s.update_model st tw delta_t r true).m.ctrs,
      (s.update_model st tw delta_t r true).m.semCtr c =
        ⟨r ++ s.label ++ "_cycle_start_" ++ toString k, Sense.G,
          ((s.durations.getD (k - 1) 0 : ℕ) : F),
          ((((s.window (k - 1)).map fun t2 =>
              (s.uKey r (k - 1) t2, (-t2 : F))) ++
            ((s.window k).map fun t2 => (s.uKey r k t2, (t2 : F)))) :
            List (String × F))⟩) ∧
    (∀ (x : String → F) (ts : ℕ → ℤ),
      (∀ k2, k2 < s.n_cycles → ts k2 ∈ s.window k2) →
      (∀ k2, k2 < s.n_cycles → ∀ t2 ∈ s.window k2,
        x (s.uKey r k2 t2) = if t2 = ts k2 then 1 else 0) →
      (SemCtr.rowHolds (⟨r ++ s.label ++ "_cycle_start_" ++ toString k, Sense.G,
          ((s.durations.getD (k - 1) 0 : ℕ) : F),
          ((((s.window (k - 1)).map fun t2 =>
              (s.uKey r (k - 1) t2, (-t2 : F))) ++
            ((s.window k).map fun t2 => (s.uKey r k t2, (t2 : F)))) :
            List (String × F))⟩ : SemCtr F) x ↔
        ts (k - 1) + (s.durations.getD (k - 1) 0 : ℤ) ≤ ts k)) := by
  have hklt1 : k - 1 < s.n_cycles := by omega
  have hks : ((List.range (s.n_cycles - 1)).map (· + 1)).get? (k - 1) = some k := by
    rw [List.get?_map, List.get?_range (by omega), Option.map_some']
    exact congrArg some (Nat.sub_add_cancel hk1)
  have hjcs : (((List.range (s.n_cycles - 1)).map (· + 1)).map fun k2 =>
      r ++ s.label ++ "_cycle_start_" ++ toString k2).get? (k - 1) =
      some (r ++ s.label ++ "_cycle_start_" ++ toString k) := by
    rw [List.get?_map, hks]
    rfl
  have hmemCS : mkCtrRec
      (((List.range (s.n_cycles - 1)).map (· + 1)).map fun _ => Sense.G)
      (((List.range (s.n_cycles - 1)).map (· + 1)).map fun k2 =>
        ((s.durations.getD (k2 - 1) 0 : ℕ) : F))
      (((List.range (s.n_cycles - 1)).map (· + 1)).map fun k2 =>
        ((s.window (k2 - 1)).map fun t2 =>
          (dictGet ((s.update_model st tw delta_t r true : BuildState F)).var2idx
            (s.uKey r (k2 - 1) t2), (-t2 : F))) ++
        ((s.window k2).map fun t2 =>
          (dictGet ((s.update_model st tw delta_t r true : BuildState F)).var2idx
            (s.uKey r k2 t2), (t2 : F))))
      (k - 1) (r ++ s.label ++ "_cycle_start_" ++ toString k) ∈
      (s.update_model st tw delta_t r true).m.ctrs := by
    refine Model.mem_ctrs_block
      (st.m.ctrs ++ ((List.range s.n_cycles).map fun k2 =>
          r ++ s.label ++ "_start_up_" ++ toString k2).mapIdx
        (mkCtrRec ((List.range s.n_cycles).map fun _ => Sense.E)
          ((List.range s.n_cycles).map fun _ => (1 : F))
          ((List.range s.n_cycles).map fun k2 =>
            (s.window k2).map fun t2 =>
              (dictGet ((s.update_model st tw delta_t r true : BuildState F)).var2idx
                (s.uKey r k2 t2), (1 : F)))) ++
        (tw.map fun t2 => r ++ s.label ++ "_net_power_" ++ toString t2).mapIdx
        (mkCtrRec [] []
          (tw.map fun t2 =>
            (dictGet ((s.update_model st tw delta_t r true : BuildState F)).var2idx
              (r ++ s.label ++ "_pwr_" ++ toString t2), (1 : F)) ::
            (s.cycles.enum.flatMap fun kc =>
              (List.range (s.durations.getD kc.1 0)).filterMap fun (dd : ℕ) =>
                if s.t_start_min.getD kc.1 0 ≤ t2 - (dd : ℤ) ∧
                    t2 - (dd : ℤ) ≤ s.t_start_max.getD kc.1 0 then
                  some (dictGet ((s.update_model st tw delta_t r true :
                    BuildState F)).var2idx
                    (s.uKey r kc.1 (t2 - (dd : ℤ))), -((kc.2.get? dd).getD 0))
                else none))))
      _ _ _ hjcs ?_
    exact ⟨[], by simp only [ShiftableLoad.update_model, if_true,
      Model.constraints_add_ctrs, Model.variables_add_ctrs, List.append_assoc,
      List.append_nil]⟩
  have hklen : k - 1 < ((List.range (s.n_cycles - 1)).map (· + 1)).length := by
    rw [List.length_map, List.length_range]
    omega
  refine ⟨⟨_, hmemCS, ?_⟩, ?_⟩
  · have hc1 : ∀ t2 ∈ s.window (k - 1), ((fun p : ℕ × F =>
        ((s.update_model st tw delta_t r true).m.varName p.1, p.2)) ∘
        fun t2 => (dictGet ((s.update_model st tw delta_t r true :
          BuildState F)).var2idx (s.uKey r (k - 1) t2), (-t2 : F))) t2 =
        (s.uKey r (k - 1) t2, (-t2 : F)) := by
      intro t2 ht2
      show ((s.update_model st tw delta_t r true).m.varName
        (dictGet (s.update_model st tw delta_t r true).var2idx
          (s.uKey r (k - 1) t2)), (-t2 : F)) = _
      rw [ShiftableLoad.varName_u s st tw delta_t r true hnd hklt1 ht2]
    have hc2 : ∀ t2 ∈ s.window k, ((fun p : ℕ × F =>
        ((s.update_model st tw delta_t r true).m.varName p.1, p.2)) ∘
        fun t2 => (dictGet ((s.update_model st tw delta_t r true :
          BuildState F)).var2idx (s.uKey r k t2), (t2 : F))) t2 =
        (s.uKey r k t2, (t2 : F)) := by
      intro t2 ht2
      show ((s.update_model st tw delta_t r true).m.varName
        (dictGet (s.update_model st tw delta_t r true).var2idx
          (s.uKey r k t2)), (t2 : F)) = _
      rw [ShiftableLoad.varName_u s st tw delta_t r true hnd hk ht2]
    simp only [Model.semCtr, mkCtrRec, getD_map_const hklen, getD_map_of_get? hks]
    simp only [List.map_append, List.map_map]
    rw [List.map_congr_left hc1, List.map_congr_left hc2]
  · intro x ts hts honehot
    simp only [SemCtr.rowHolds, Sense.sat, Multiset.map_coe, Multiset.sum_coe,
      List.map_append, List.sum_append, List.map_map]
    have hcong1 : ∀ t2 ∈ s.window (k - 1), ((fun p : String × F => p.2 * x p.1) ∘
        fun t2 => (s.uKey r (k - 1) t2, (-t2 : F))) t2 =
        -(t2 : F) * x (s.uKey r (k - 1) t2) := fun _ _ => rfl
    have hcong2 : ∀ t2 ∈ s.window k, ((fun p : String × F => p.2 * x p.1) ∘
        fun t2 => (s.uKey r k t2, (t2 : F))) t2 =
        (t2 : F) * x (s.uKey r k t2) := fun _ _ => rfl
    rw [List.map_congr_left hcong1, List.map_congr_left hcong2]
    have hwnd1 : (s.window (k - 1)).Nodup := pyRange_nodup _ _
    have hwnd2 : (s.window k).Nodup := pyRange_nodup _ _
    rw [sum_map_one_hot hwnd1 (hts (k - 1) hklt1) (honehot (k - 1) hklt1),
      sum_map_one_hot hwnd2 (hts k hk) (honehot k hk)]
    constructor
    · intro h
      have h' : ((ts (k - 1) + (s.durations.getD (k - 1) 0 : ℤ) : ℤ) : F) ≤
          ((ts k : ℤ) : F) := by
        push_cast
        linarith
      exact_mod_cast h'
    · intro h
      have h' : ((ts (k - 1) + (s.durations.getD (k - 1) 0 : ℤ) : ℤ) : F) ≤
          ((ts k : ℤ) : F) := by exact_mod_cast h
      push_cast at h'
      linarith

/-- Witness for C4: two one-step cycles with start windows `[0,1]` and
`[2,3]`; the sequencing row of cycle `1` is present with the stated form. -/
theorem C4_shiftable_sequencing_witness :
    ∃ c ∈ ((ShiftableLoad.init "SL" [0, 2] [1, 3] [[(5 : ℚ)], [(7 : ℚ)]]).update_model
        emptyState (pyRange 0 5) 1 "HH_0_" true).m.ctrs,
      ((ShiftableLoad.init "SL" [0, 2] [1, 3] [[(5 : ℚ)], [(7 : ℚ)]]).update_model
        emptyState (pyRange 0 5) 1 "HH_0_" true).m.semCtr c =
        ⟨"HH_0_" ++ "SL" ++ "_cycle_start_" ++ toString (1 : ℕ), Sense.G,
          (((ShiftableLoad.init "SL" [0, 2] [1, 3] [[(5 : ℚ)], [(7 : ℚ)]] :
            ShiftableLoad ℚ).durations.getD (1 - 1) 0 : ℕ) : ℚ),
          (((((ShiftableLoad.init "SL" [0, 2] [1, 3] [[(5 : ℚ)], [(7 : ℚ)]] :
              ShiftableLoad ℚ).window (1 - 1)).map fun t2 =>
              ((ShiftableLoad.init "SL" [0, 2] [1, 3] [[(5 : ℚ)], [(7 : ℚ)]] :
                ShiftableLoad ℚ).uKey "HH_0_" (1 - 1) t2, (-t2 : ℚ))) ++
            (((ShiftableLoad.init "SL" [0, 2] [1, 3] [[(5 : ℚ)], [(7 : ℚ)]] :
              ShiftableLoad ℚ).window 1).map fun t2 =>
              ((ShiftableLoad.init "SL" [0, 2] [1, 3] [[(5 : ℚ)], [(7 : ℚ)]] :
                ShiftableLoad ℚ).uKey "HH_0_" 1 t2, (t2 : ℚ)))) :
            List (String × ℚ))⟩ :=
  (C4_shiftable_sequencing
    (ShiftableLoad.init "SL" [0, 2] [1, 3] [[(5 : ℚ)], [(7 : ℚ)]]) emptyState
    (pyRange 0 5) 1 "HH_0_" (by decide) (k := 1) (by decide) (by decide)).1

instance (v : SemVar F) (x : String → F) : Decidable (v.ok x) :=
  inferInstanceAs (Decidable ((∀ b ∈ v.lb, b ≤ x v.name) ∧
    (∀ b ∈ v.ub, x v.name ≤ b) ∧
    (v.binary = true → x v.name = 0 ∨ x v.name = 1)))

instance (c : SemCtr F) (vars : Multiset (SemVar F)) (x : String → F) :
    Decidable (c.holds vars x) :=
  inferInstanceAs (Decidable (c.sense.sat (c.lhs vars x) c.rhs))

instance (m : Model F) (x : String → F) : Decidable (m.feasible x) :=
  inferInstanceAs (Decidable ((∀ v ∈ m.semVars, v.ok x) ∧
    ∀ c ∈ m.semCtrs, c.holds m.semVars x))


